import Mathlib

/-!
Shallow embedding of the connection graph protocol of `src/core/connection.js`
(Blockly's `Blockly.Connection`): typed attachment points on blocks, the
connect/disconnect pair protocol, orphan resolution, shadow respawn, event
grouping, and compatibility re-validation.

Connections and blocks live in an arena addressed by natural-number ids
(`ConnState.conns`, `ConnState.blocks`), with a `fresh` counter bounding all
allocated ids.  External collaborators that are not part of
`src/core/connection.js` (the compatibility checker, the event recorder,
block methods such as `setParent`/`unplug`/`dispose`, and XML
serialization) are either taken as parameters (the checker) or modelled
from the specification, as marked on each definition.  The mutually
recursive operations take a fuel argument; exhausting fuel yields
`Err.outOfFuel`, and every theorem below is conditioned on a normal
(`Except.ok`) return, so fuel never influences a proved property.
-/

/-- The four connection kinds of `Blockly.ConnectionType`
(`INPUT_VALUE`, `OUTPUT_VALUE`, `NEXT_STATEMENT`, `PREVIOUS_STATEMENT`). -/
inductive ConnType where
  | inputValue
  | outputValue
  | nextStatement
  | previousStatement
  deriving DecidableEq, Repr

/-- Modelled from the spec: the serialized content of a placeholder (shadow)
block (`shadowDom_`), treated as an opaque template.  The model keeps just
what `Blockly.Xml.domToBlock` needs to rebuild a block: whether the block
exposes an output connection, whether it exposes a previous connection, and
an opaque payload standing for field values and other content. -/
structure ShadowDom where
  hasOutput : Bool
  hasPrevious : Bool
  payload : Nat
  deriving DecidableEq, Repr

/-- State of one `Blockly.Connection`: the owning block (`sourceBlock_`),
the kind (`type`), the mutual link (`targetConnection`), the compatibility
tags (`check_`), the placeholder template (`shadowDom_`) and the terminal
`disposed` flag. -/
structure Conn where
  sourceBlock : Nat
  type : ConnType
  targetConnection : Option Nat := none
  check : Option (List String) := none
  shadowDom : Option ShadowDom := none
  disposed : Bool := false
  deriving DecidableEq, Repr

instance : Inhabited Conn := ⟨{ sourceBlock := 0, type := ConnType.outputValue }⟩

/-- Modelled from the spec: the external `Blockly.Block` entity, referenced
but not owned by connections.  It carries up to one each of
output/previous/next connection, a list of value inputs (each optionally
holding a connection), the placeholder flag (`isShadow`), the parent link,
whether the block sits on a live workspace, and an opaque payload standing
for its fields. -/
structure Block where
  outputConnection : Option Nat := none
  previousConnection : Option Nat := none
  nextConnection : Option Nat := none
  inputList : List (Option Nat) := []
  isShadow : Bool := false
  parent : Option Nat := none
  workspace : Bool := true
  payload : Nat := 0
  deriving DecidableEq, Repr

instance : Inhabited Block := ⟨{}⟩

/-- Modelled from the spec: a move event recorded by the external event
recorder (`Blockly.Events.BlockMove`): the moved block, its parent before
and after, and the event group the event was recorded under. -/
structure MoveEvent where
  block : Nat
  oldParent : Option Nat
  newParent : Option Nat
  group : Option Nat
  deriving DecidableEq, Repr

/-- Modelled from the spec: the deferred "bump away" notification scheduled
with `setTimeout` in `connect_` for a true orphan.  The model records the
scheduled task as data (the orphan block, the parent connection it failed
to stay on, and the captured event group) without running it. -/
structure BumpTask where
  orphanBlock : Nat
  parentConnection : Nat
  group : Option Nat
  deriving DecidableEq, Repr

/-- The whole mutable world the protocol touches: the connection and block
arenas, a `fresh` counter bounding every allocated id, and the state of the
external event recorder (modelled from the spec: `isEnabled`, `recordUndo`,
the current group, a counter to mint group ids, the event log) plus the
scheduled bump tasks. -/
structure ConnState where
  conns : Nat → Conn
  blocks : Nat → Block
  fresh : Nat
  eventsEnabled : Bool := true
  recordUndo : Bool := true
  eventGroup : Option Nat := none
  nextGroup : Nat := 0
  log : List MoveEvent := []
  pendingBumps : List BumpTask := []

/-- Errors surfaced by the protocol: `Error(...)` throws in the source are
split per the spec's taxonomy into protocol violations and the
`NotConnected` precondition failure; `outOfFuel` is the model's marker for
exceeding the recursion budget. -/
inductive Err where
  | protocolViolation
  | notConnected
  | outOfFuel
  deriving DecidableEq, Repr

/-- The external compatibility checker, consumed as an abstract capability:
`canConnect(a, b, false)` reading the current state. -/
abbrev Checker := ConnState → Nat → Nat → Bool

/-- Argument shape of `setCheck`: none (accept anything), a single tag, or
a list of tags. -/
inductive CheckArg where
  | noneArg
  | single (t : String)
  | list (ts : List String)
  deriving DecidableEq, Repr

/-- Pointwise update of an arena map. -/
def upd {α : Type} (f : Nat → α) (k : Nat) (v : α) : Nat → α :=
  fun x => if x = k then v else f x

namespace ConnState

/-- Write the `targetConnection` field of connection `c`. -/
def setTarget (st : ConnState) (c : Nat) (v : Option Nat) : ConnState :=
  { st with conns := upd st.conns c { st.conns c with targetConnection := v } }

/-- `Blockly.Connection.prototype.setShadowDom`. -/
def setShadowDom (st : ConnState) (c : Nat) (v : Option ShadowDom) : ConnState :=
  { st with conns := upd st.conns c { st.conns c with shadowDom := v } }

/-- Write the `check_` field of connection `c` (the body of `setCheck`'s
assignments). -/
def setCheckField (st : ConnState) (c : Nat) (v : Option (List String)) : ConnState :=
  { st with conns := upd st.conns c { st.conns c with check := v } }

/-- Set the `disposed` flag of connection `c`. -/
def setDisposed (st : ConnState) (c : Nat) : ConnState :=
  { st with conns := upd st.conns c { st.conns c with disposed := true } }

/-- Modelled from the spec: `Block.setParent(block|none)` — update the
parent back-reference of block `b`. -/
def setBlockParent (st : ConnState) (b : Nat) (p : Option Nat) : ConnState :=
  { st with blocks := upd st.blocks b { st.blocks b with parent := p } }

/-- Modelled from the spec: the destructive part of `Block.dispose` — the
block leaves its workspace (it no longer belongs to a live editor surface)
and loses its parent back-reference. -/
def markDead (st : ConnState) (b : Nat) : ConnState :=
  { st with blocks := upd st.blocks b { st.blocks b with workspace := false, parent := none } }

/-- Modelled from the spec: `Blockly.Events.getGroup()`. -/
def getGroup (st : ConnState) : Option Nat := st.eventGroup

/-- Modelled from the spec: `Blockly.Events.setGroup(true)` — open a fresh
event group. -/
def setGroupNew (st : ConnState) : ConnState :=
  { st with eventGroup := some st.nextGroup, nextGroup := st.nextGroup + 1 }

/-- Modelled from the spec: `Blockly.Events.setGroup(false)` — close the
current event group. -/
def setGroupOff (st : ConnState) : ConnState :=
  { st with eventGroup := none }

end ConnState

/-- `Blockly.Connection.prototype.isSuperior`: true for `INPUT_VALUE` and
`NEXT_STATEMENT` connections. -/
def isSuperior (st : ConnState) (c : Nat) : Bool :=
  (st.conns c).type = ConnType.inputValue ∨ (st.conns c).type = ConnType.nextStatement

/-- `Blockly.Connection.prototype.isConnected`. -/
def isConnected (st : ConnState) (c : Nat) : Bool :=
  (st.conns c).targetConnection.isSome

/-- `Blockly.Connection.prototype.targetBlock` (as an id): the source block
of the target connection, or none when unlinked. -/
def targetBlockOf (st : ConnState) (c : Nat) : Option Nat :=
  (st.conns c).targetConnection.map fun tc => (st.conns tc).sourceBlock

/-- Modelled from the spec: `Blockly.Xml.blockToDom` restricted to what the
template model keeps — the block's inferior-connection shape and payload. -/
def blockToDom (st : ConnState) (b : Nat) : ShadowDom :=
  { hasOutput := (st.blocks b).outputConnection.isSome
    hasPrevious := (st.blocks b).previousConnection.isSome
    payload := (st.blocks b).payload }

/-- Modelled from the spec: `Blockly.Xml.domToBlock` — materialize a fresh
placeholder block (and its inferior connections) from a template onto the
live workspace.  Returns the new state and the new block id; the block id
is `st.fresh`, its output connection (if any) `st.fresh + 1`, its previous
connection (if any) `st.fresh + 2`. -/
def domToBlock (st : ConnState) (dom : ShadowDom) : ConnState × Nat :=
  let b := st.fresh
  let outc : Option Nat := if dom.hasOutput then some (b + 1) else none
  let prevc : Option Nat := if dom.hasPrevious then some (b + 2) else none
  let conns1 :=
    if dom.hasOutput then
      upd st.conns (b + 1) { sourceBlock := b, type := ConnType.outputValue }
    else st.conns
  let conns2 :=
    if dom.hasPrevious then
      upd conns1 (b + 2) { sourceBlock := b, type := ConnType.previousStatement }
    else conns1
  let blocks1 := upd st.blocks b
    { outputConnection := outc, previousConnection := prevc, nextConnection := none,
      inputList := [], isShadow := true, parent := none, workspace := true,
      payload := dom.payload }
  ({ st with conns := conns2, blocks := blocks1, fresh := st.fresh + 3 }, b)

/-- Modelled from the spec: construction of a `Blockly.Events.BlockMove`
event — captures the moved block's current parent and the current event
group. -/
def mkMove (st : ConnState) (b : Nat) : MoveEvent :=
  { block := b, oldParent := (st.blocks b).parent, newParent := none,
    group := st.eventGroup }

/-- Modelled from the spec: `event.recordNew(); Blockly.Events.fire(event)`
— fill in the moved block's new parent and append the event to the log. -/
def recordFire (st : ConnState) (e : MoveEvent) : ConnState :=
  { st with log := st.log ++ [{ e with newParent := (st.blocks e.block).parent }] }

/-- `Blockly.Connection.connectReciprocally_`: point two connections at
each other; a missing connection is a protocol violation
(`Cannot connect null connections.`). -/
def connectReciprocally (st : ConnState) (first second : Option Nat) :
    Except Err ConnState :=
  match first, second with
  | some f, some s => Except.ok ((st.setTarget f (some s)).setTarget s (some f))
  | _, _ => Except.error Err.protocolViolation

/-- `Blockly.Connection.prototype.disconnectInternal_`: record the child's
move, clear both `targetConnection` fields, detach the child block, fire
the event.  (The `parentBlock` argument is unused in the source as well.) -/
def disconnectInternal (st : ConnState) (c : Nat) (_parentBlock childBlock : Nat) :
    Except Err ConnState :=
  let ev := if st.eventsEnabled then some (mkMove st childBlock) else none
  match (st.conns c).targetConnection with
  | none => Except.error Err.protocolViolation
  | some oc =>
    let st1 := (st.setTarget oc none).setTarget c none
    let st2 := st1.setBlockParent childBlock none
    Except.ok (match ev with
      | some e => recordFire st2 e
      | none => st2)

/-- `Blockly.Connection.singleConnection_`: the unique `INPUT_VALUE`
connection on `block` whose checker accepts the orphan's output, or none
if there are zero or several. -/
def singleConnection_ (κ : Checker) (st : ConnState) (block orphanBlock : Nat) :
    Option Nat :=
  match (st.blocks orphanBlock).outputConnection with
  | none => none
  | some output =>
    match ((st.blocks block).inputList.filterMap fun oc =>
        match oc with
        | some thisConnection =>
          if (st.conns thisConnection).type = ConnType.inputValue &&
              κ st output thisConnection then
            some thisConnection
          else none
        | none => none) with
    | [connection] => some connection
    | _ => none

/-- `Blockly.Connection.lastConnectionInRow`: walk down the row of blocks
while each block has exactly one eligible input, returning the input on
the last block of the chain; terminates early at an unoccupied input or at
the first placeholder.  Fuel bounds the walk (the source would loop
forever on a cyclic row); exhausted fuel reads as "no home found". -/
def lastConnectionInRow (κ : Checker) (fuel : Nat) (st : ConnState)
    (startBlock orphanBlock : Nat) : Option Nat :=
  match fuel with
  | 0 => none
  | fuel + 1 =>
    match singleConnection_ κ st startBlock orphanBlock with
    | none => none
    | some connection =>
      match (st.conns connection).targetConnection with
      | none => some connection
      | some tc =>
        let newBlock := (st.conns tc).sourceBlock
        if (st.blocks newBlock).isShadow then some connection
        else lastConnectionInRow κ fuel st newBlock orphanBlock

mutual

/-- `Blockly.Connection.prototype.connect`: no-op when already linked to
`o`; otherwise consult the checker and, on acceptance, open an event group
if none is open, run the attach sequence on the superior side, and close
the group if this call opened it. -/
def connect (fuel : Nat) (κ : Checker) (c o : Nat) (st : ConnState) :
    Except Err ConnState :=
  match fuel with
  | 0 => Except.error Err.outOfFuel
  | fuel + 1 =>
    if (st.conns c).targetConnection = some o then Except.ok st
    else if κ st c o then
      let g := st.getGroup
      let st1 := if g.isNone then st.setGroupNew else st
      match (if isSuperior st1 c then connect_ fuel κ c o st1
             else connect_ fuel κ o c st1) with
      | Except.error e => Except.error e
      | Except.ok st2 => Except.ok (if g.isNone then st2.setGroupOff else st2)
    else Except.ok st
termination_by structural fuel

/-- `Blockly.Connection.prototype.connect_` (attach sequence, invoked on
the superior connection): pre-disconnect the child connection, resolve any
occupying orphan (dissolving placeholders, re-homing value or statement
orphans, or bumping), restore the shadow template, then link reciprocally,
reparent the child block and fire one move event. -/
def connect_ (fuel : Nat) (κ : Checker) (parentConnection childConnection : Nat)
    (st : ConnState) : Except Err ConnState :=
  match fuel with
  | 0 => Except.error Err.outOfFuel
  | fuel + 1 =>
    let parentBlock := (st.conns parentConnection).sourceBlock
    let childBlock := (st.conns childConnection).sourceBlock
    match (if isConnected st childConnection then disconnect fuel κ childConnection st
           else Except.ok st) with
    | Except.error e => Except.error e
    | Except.ok st1 =>
      match (match (st1.conns parentConnection).targetConnection with
        | none => Except.ok st1
        | some orphanConn =>
          let orphanBlock := (st1.conns orphanConn).sourceBlock
          let shadowDom := (st1.conns parentConnection).shadowDom
          let stA := st1.setShadowDom parentConnection none
          if (stA.blocks orphanBlock).isShadow then
            -- Save the shadow block so that field values are preserved.
            let dom := blockToDom stA orphanBlock
            match blockDispose fuel κ orphanBlock stA with
            | Except.error e => Except.error e
            | Except.ok stB =>
              Except.ok (stB.setShadowDom parentConnection (some dom))
          else if (stA.conns parentConnection).type = ConnType.inputValue then
            match (stA.blocks orphanBlock).outputConnection with
            | none => Except.error Err.protocolViolation
            | some out =>
              match lastConnectionInRow κ fuel stA childBlock orphanBlock with
              | some connection =>
                match connect fuel κ out connection stA with
                | Except.error e => Except.error e
                | Except.ok stB =>
                  Except.ok (stB.setShadowDom parentConnection shadowDom)
              | none =>
                -- Unable to reattach orphan: disconnect and schedule a bump.
                match disconnect fuel κ parentConnection stA with
                | Except.error e => Except.error e
                | Except.ok stC =>
                  let stD : ConnState := if stC.recordUndo then
                      { stC with pendingBumps := stC.pendingBumps ++
                        [(⟨orphanBlock, parentConnection, stC.eventGroup⟩ : BumpTask)] }
                    else stC
                  Except.ok (stD.setShadowDom parentConnection shadowDom)
          else if (stA.conns parentConnection).type = ConnType.nextStatement then
            match (stA.blocks orphanBlock).previousConnection with
            | none => Except.error Err.protocolViolation
            | some prev =>
              match spliceStack fuel κ childBlock prev stA with
              | Except.error e => Except.error e
              | Except.ok (stB, true) =>
                Except.ok (stB.setShadowDom parentConnection shadowDom)
              | Except.ok (stB, false) =>
                match disconnect fuel κ parentConnection stB with
                | Except.error e => Except.error e
                | Except.ok stC =>
                  let stD : ConnState := if stC.recordUndo then
                      { stC with pendingBumps := stC.pendingBumps ++
                        [(⟨orphanBlock, parentConnection, stC.eventGroup⟩ : BumpTask)] }
                    else stC
                  Except.ok (stD.setShadowDom parentConnection shadowDom)
          else
            match disconnect fuel κ parentConnection stA with
            | Except.error e => Except.error e
            | Except.ok stC =>
              let stD : ConnState := if stC.recordUndo then
                  { stC with pendingBumps := stC.pendingBumps ++
                    [(⟨orphanBlock, parentConnection, stC.eventGroup⟩ : BumpTask)] }
                else stC
              Except.ok (stD.setShadowDom parentConnection shadowDom)) with
      | Except.error e => Except.error e
      | Except.ok st2 =>
        let ev := if st2.eventsEnabled then some (mkMove st2 childBlock) else none
        match connectReciprocally st2 (some parentConnection) (some childConnection) with
        | Except.error e => Except.error e
        | Except.ok st3 =>
          let st4 := st3.setBlockParent childBlock (some parentBlock)
          Except.ok (match ev with
            | some e => recordFire st4 e
            | none => st4)
termination_by structural fuel

/-- The `NEXT_STATEMENT` arm of orphan resolution in `connect_`: walk the
newly inserted block's next-statement chain past ordinary blocks; at the
chain's end (no next block, or a placeholder next) re-link the orphan's
previous connection there if the checker accepts, else report failure so
the caller bumps the orphan. -/
def spliceStack (fuel : Nat) (κ : Checker) (newBlock orphanPrev : Nat)
    (st : ConnState) : Except Err (ConnState × Bool) :=
  match fuel with
  | 0 => Except.error Err.outOfFuel
  | fuel + 1 =>
    match (st.blocks newBlock).nextConnection with
    | none => Except.ok (st, false)
    | some nc =>
      match (st.conns nc).targetConnection with
      | some tc =>
        let nextBlock := (st.conns tc).sourceBlock
        if (st.blocks nextBlock).isShadow then
          if κ st orphanPrev nc then
            match connect fuel κ nc orphanPrev st with
            | Except.error e => Except.error e
            | Except.ok st1 => Except.ok (st1, true)
          else Except.ok (st, false)
        else spliceStack fuel κ nextBlock orphanPrev st
      | none =>
        if κ st orphanPrev nc then
          match connect fuel κ nc orphanPrev st with
          | Except.error e => Except.error e
          | Except.ok st1 => Except.ok (st1, true)
        else Except.ok (st, false)
termination_by structural fuel

/-- `Blockly.Connection.prototype.disconnect`: fail when unlinked
(`NotConnected`) or when reciprocity is broken (defensive check), decide
parent/child by superiority, open an event group if none is open, sever
the pair, respawn the shadow on the parent connection, close the group if
this call opened it. -/
def disconnect (fuel : Nat) (κ : Checker) (c : Nat) (st : ConnState) :
    Except Err ConnState :=
  match fuel with
  | 0 => Except.error Err.outOfFuel
  | fuel + 1 =>
    match (st.conns c).targetConnection with
    | none => Except.error Err.notConnected
    | some oc =>
      if (st.conns oc).targetConnection ≠ some c then Except.error Err.protocolViolation
      else
        let pcc : Nat × Nat × Nat :=
          if isSuperior st c then
            ((st.conns c).sourceBlock, (st.conns oc).sourceBlock, c)
          else
            ((st.conns oc).sourceBlock, (st.conns c).sourceBlock, oc)
        let g := st.getGroup
        let st1 := if g.isNone then st.setGroupNew else st
        match disconnectInternal st1 c pcc.1 pcc.2.1 with
        | Except.error e => Except.error e
        | Except.ok st2 =>
          match respawnShadow fuel κ pcc.2.2 st2 with
          | Except.error e => Except.error e
          | Except.ok st3 => Except.ok (if g.isNone then st3.setGroupOff else st3)
termination_by structural fuel

/-- `Blockly.Connection.prototype.respawnShadow_`: when the connection
carries a shadow template, its block's workspace is live and undo
recording is on, materialize the template and connect it back through the
public protocol; a materialized block with neither output nor previous
connection is a protocol violation. -/
def respawnShadow (fuel : Nat) (κ : Checker) (c : Nat) (st : ConnState) :
    Except Err ConnState :=
  match fuel with
  | 0 => Except.error Err.outOfFuel
  | fuel + 1 =>
    let parentBlock := (st.conns c).sourceBlock
    match (st.conns c).shadowDom with
    | some dom =>
      if (st.blocks parentBlock).workspace && st.recordUndo then
        let stb := domToBlock st dom
        match (stb.1.blocks stb.2).outputConnection with
        | some out => connect fuel κ c out stb.1
        | none =>
          match (stb.1.blocks stb.2).previousConnection with
          | some prev => connect fuel κ c prev stb.1
          | none => Except.error Err.protocolViolation
      else Except.ok st
    | none => Except.ok st
termination_by structural fuel

/-- Modelled from the spec: `Block.unplug()` — the full disconnect of a
block from its superior: disconnect its output connection if it has a
linked one, else its previous connection. -/
def unplug (fuel : Nat) (κ : Checker) (b : Nat) (st : ConnState) :
    Except Err ConnState :=
  match fuel with
  | 0 => Except.error Err.outOfFuel
  | fuel + 1 =>
    match (st.blocks b).outputConnection with
    | some o =>
      if isConnected st o then disconnect fuel κ o st else Except.ok st
    | none =>
      match (st.blocks b).previousConnection with
      | some p =>
        if isConnected st p then disconnect fuel κ p st else Except.ok st
      | none => Except.ok st
termination_by structural fuel

/-- Modelled from the spec: `Block.dispose(false)` — destroy a block
outright: unplug it from its superior, then remove it from its workspace
and drop its parent back-reference.  (Recursive disposal of child blocks
is outside what the claims need and is not modelled.) -/
def blockDispose (fuel : Nat) (κ : Checker) (b : Nat) (st : ConnState) :
    Except Err ConnState :=
  match fuel with
  | 0 => Except.error Err.outOfFuel
  | fuel + 1 =>
    match unplug fuel κ b st with
    | Except.error e => Except.error e
    | Except.ok st1 => Except.ok (st1.markDead b)
termination_by structural fuel

/-- `Blockly.Connection.prototype.dispose`: if linked, clear the shadow
template, destroy an attached placeholder or unplug an attached ordinary
block, then set the `disposed` flag. -/
def connDispose (fuel : Nat) (κ : Checker) (c : Nat) (st : ConnState) :
    Except Err ConnState :=
  match fuel with
  | 0 => Except.error Err.outOfFuel
  | fuel + 1 =>
    match (if isConnected st c then
        let st0 := st.setShadowDom c none
        match targetBlockOf st0 c with
        | some tb =>
          if (st0.blocks tb).isShadow then blockDispose fuel κ tb st0
          else unplug fuel κ tb st0
        | none => Except.ok st0
      else Except.ok st) with
    | Except.error e => Except.error e
    | Except.ok st1 => Except.ok (st1.setDisposed c)
termination_by structural fuel

/-- `Blockly.Connection.prototype.onCheckChanged_`: when the connection is
linked but the checker no longer accepts the pair, unplug the child block
(the target block when this side is superior, the own block otherwise). -/
def onCheckChanged (fuel : Nat) (κ : Checker) (c : Nat) (st : ConnState) :
    Except Err ConnState :=
  match fuel with
  | 0 => Except.error Err.outOfFuel
  | fuel + 1 =>
    match (st.conns c).targetConnection with
    | some tc =>
      if ¬ κ st c tc then
        let child := if isSuperior st c then (st.conns tc).sourceBlock
          else (st.conns c).sourceBlock
        unplug fuel κ child st
      else Except.ok st
    | none => Except.ok st
termination_by structural fuel

/-- `Blockly.Connection.prototype.setCheck`: a truthy argument is
normalized to an array, stored, and followed by re-validation
(`onCheckChanged_`); a falsy argument stores "accept anything" with no
re-validation. -/
def setCheck (fuel : Nat) (κ : Checker) (c : Nat) (arg : CheckArg)
    (st : ConnState) : Except Err ConnState :=
  match fuel with
  | 0 => Except.error Err.outOfFuel
  | fuel + 1 =>
    match arg with
    | CheckArg.noneArg => Except.ok (st.setCheckField c none)
    | CheckArg.single t => onCheckChanged fuel κ c (st.setCheckField c (some [t]))
    | CheckArg.list ts => onCheckChanged fuel κ c (st.setCheckField c (some ts))
termination_by structural fuel

end

/-- Kind compatibility of a link: value links pair `INPUT_VALUE` with
`OUTPUT_VALUE`, statement links pair `NEXT_STATEMENT` with
`PREVIOUS_STATEMENT` (in either orientation). -/
def oppositeTy (a b : ConnType) : Prop :=
  (a = ConnType.inputValue ∧ b = ConnType.outputValue) ∨
  (a = ConnType.outputValue ∧ b = ConnType.inputValue) ∨
  (a = ConnType.nextStatement ∧ b = ConnType.previousStatement) ∨
  (a = ConnType.previousStatement ∧ b = ConnType.nextStatement)

instance (a b : ConnType) : Decidable (oppositeTy a b) := by
  unfold oppositeTy; infer_instance

/-- An inferior connection is registered as its source block's output
(resp. previous) connection — the ownership fact `unplug` relies on. -/
def infOwnOk (st : ConnState) (c : Nat) : Prop :=
  ((st.conns c).type = ConnType.outputValue →
    (st.blocks (st.conns c).sourceBlock).outputConnection = some c) ∧
  ((st.conns c).type = ConnType.previousStatement →
    (st.blocks (st.conns c).sourceBlock).previousConnection = some c)

instance (st : ConnState) (c : Nat) : Decidable (infOwnOk st c) := by
  unfold infOwnOk; infer_instance

/-- Well-formedness of one link `a → b`: reciprocated, kind-compatible,
both sides owned by their blocks, all ids below the allocation bound, and
the two end blocks distinct. -/
def LinkWF (st : ConnState) (a b : Nat) : Prop :=
  (st.conns b).targetConnection = some a ∧
  oppositeTy (st.conns a).type (st.conns b).type ∧
  infOwnOk st a ∧ infOwnOk st b ∧
  a < st.fresh ∧ b < st.fresh ∧
  (st.conns a).sourceBlock < st.fresh ∧ (st.conns b).sourceBlock < st.fresh ∧
  (st.conns a).sourceBlock ≠ (st.conns b).sourceBlock

/-- Spec invariant 2: a block exposes at most one of output/previous. -/
def blockWF (b : Block) : Prop :=
  ¬(b.outputConnection.isSome ∧ b.previousConnection.isSome)

/-- The connections a block registers point back at it, carry the matching
kind, and sit below the allocation bound. -/
def CoherentB (st : ConnState) (b : Nat) : Prop :=
  (∀ o, (st.blocks b).outputConnection = some o →
    o < st.fresh ∧ (st.conns o).sourceBlock = b ∧
    (st.conns o).type = ConnType.outputValue) ∧
  (∀ o, (st.blocks b).previousConnection = some o →
    o < st.fresh ∧ (st.conns o).sourceBlock = b ∧
    (st.conns o).type = ConnType.previousStatement) ∧
  (∀ o, (st.blocks b).nextConnection = some o →
    o < st.fresh ∧ (st.conns o).sourceBlock = b ∧
    (st.conns o).type = ConnType.nextStatement)

/-- Stored placeholder templates describe well-formed blocks. -/
def domWF (d : ShadowDom) : Prop := ¬(d.hasOutput ∧ d.hasPrevious)

/-- The global state invariant the protocol maintains between public
calls: every link is well formed (in particular reciprocated — the spec's
strict-reciprocity invariant), every block exposes at most one inferior
connection, block/connection ownership is coherent, and stored templates
are well formed. -/
def StInv (st : ConnState) : Prop :=
  (∀ a b, (st.conns a).targetConnection = some b → LinkWF st a b) ∧
  (∀ b, blockWF (st.blocks b)) ∧
  (∀ b, CoherentB st b) ∧
  (∀ c d, (st.conns c).shadowDom = some d → domWF d)

/-- Sanity contract on the external checker: an accepted pair is
kind-compatible, owned by its blocks, within the allocation bound, and not
a self connection.  (These are facts the real checker's safety checks and
the block machinery guarantee for every pair the editor can offer.) -/
def CheckerOk (κ : Checker) : Prop :=
  ∀ st a b, κ st a b = true →
    oppositeTy (st.conns a).type (st.conns b).type ∧
    infOwnOk st a ∧ infOwnOk st b ∧
    a < st.fresh ∧ b < st.fresh ∧
    (st.conns a).sourceBlock < st.fresh ∧ (st.conns b).sourceBlock < st.fresh ∧
    (st.conns a).sourceBlock ≠ (st.conns b).sourceBlock

/-- Modelled from the spec: a concrete compatibility checker implementing
the documented reason codes that bear on these claims — `SELF_CONNECTION`
(same source block), `WRONG_TYPE` (kinds not opposite) and `CHECKS_FAILED`
(both sides carry tag lists with empty intersection; a missing list means
"accept anything") — together with the structural sanity facts
(ownership, id bounds) that the surrounding block machinery guarantees for
every pair it can offer. -/
def saneChecker : Checker := fun st a b =>
  decide (oppositeTy (st.conns a).type (st.conns b).type) &&
  decide (infOwnOk st a) && decide (infOwnOk st b) &&
  decide (a < st.fresh) && decide (b < st.fresh) &&
  decide ((st.conns a).sourceBlock < st.fresh) &&
  decide ((st.conns b).sourceBlock < st.fresh) &&
  decide ((st.conns a).sourceBlock ≠ (st.conns b).sourceBlock) &&
  (match (st.conns a).check, (st.conns b).check with
   | some ta, some tb => ta.any fun t => tb.contains t
   | _, _ => true)


/-- Conn arena from a finite association list (ids not listed hold the
default, unlinked, connection). -/
def connsOf (l : List (Nat × Conn)) : Nat → Conn :=
  fun x => (l.lookup x).getD default

/-- Block arena from a finite association list. -/
def blocksOf (l : List (Nat × Block)) : Nat → Block :=
  fun x => (l.lookup x).getD default

/-- A concrete state from finite arenas (used by the concrete scenarios
below). -/
def mkState (cl : List (Nat × Conn)) (bl : List (Nat × Block)) (fresh : Nat)
    (recUndo : Bool := true) (grp : Option Nat := none) : ConnState :=
  { conns := connsOf cl, blocks := blocksOf bl, fresh := fresh,
    recordUndo := recUndo, eventGroup := grp }

/-- Follow `Block.getParent` links `k` times (the descendant relation reads
back as an ancestor walk). -/
def parentAt (st : ConnState) : Nat → Nat → Option Nat
  | 0, b => some b
  | k + 1, b =>
    match (st.blocks b).parent with
    | some p => parentAt st k p
    | none => none

/-- Run a sequence of `connect` calls. -/
def runConnects (fuel : Nat) (κ : Checker) : List (Nat × Nat) → ConnState →
    Except Err ConnState
  | [], st => Except.ok st
  | (a, b) :: ops, st =>
    match connect fuel κ a b st with
    | Except.error e => Except.error e
    | Except.ok st1 => runConnects fuel κ ops st1

/-- Allocation bound grows and the static fields of already-allocated
connections and blocks are unchanged. -/
def StaticsOk (st st' : ConnState) : Prop :=
  st.fresh ≤ st'.fresh ∧
  (∀ x, x < st.fresh →
    (st'.conns x).type = (st.conns x).type ∧
    (st'.conns x).sourceBlock = (st.conns x).sourceBlock ∧
    (st'.conns x).check = (st.conns x).check ∧
    (st'.conns x).disposed = (st.conns x).disposed) ∧
  (∀ b, b < st.fresh →
    (st'.blocks b).outputConnection = (st.blocks b).outputConnection ∧
    (st'.blocks b).previousConnection = (st.blocks b).previousConnection ∧
    (st'.blocks b).nextConnection = (st.blocks b).nextConnection ∧
    (st'.blocks b).inputList = (st.blocks b).inputList ∧
    (st'.blocks b).isShadow = (st.blocks b).isShadow ∧
    (st'.blocks b).payload = (st.blocks b).payload)

/-- Old connections outside `S` keep their link and their template. -/
def ConnsExcept (S : List Nat) (st st' : ConnState) : Prop :=
  ∀ x, x < st.fresh → x ∉ S →
    (st'.conns x).targetConnection = (st.conns x).targetConnection ∧
    (st'.conns x).shadowDom = (st.conns x).shadowDom

/-- Old blocks outside `S` keep their parent link and workspace. -/
def BlksExcept (S : List Nat) (st st' : ConnState) : Prop :=
  ∀ b, b < st.fresh → b ∉ S →
    (st'.blocks b).parent = (st.blocks b).parent ∧
    (st'.blocks b).workspace = (st.blocks b).workspace

/-- The event-machinery flags are unchanged. -/
def Quiet (st st' : ConnState) : Prop :=
  st'.eventsEnabled = st.eventsEnabled ∧ st'.recordUndo = st.recordUndo ∧
  st'.eventGroup = st.eventGroup

/-- Bundled frame facts for one protocol step: statics preserved, links and
templates only change on connections in `SC`, parent/workspace only change
on blocks in `SB`, event flags unchanged. -/
def Effects (SC SB : List Nat) (st st' : ConnState) : Prop :=
  StaticsOk st st' ∧ ConnsExcept SC st st' ∧ BlksExcept SB st st' ∧ Quiet st st'


/-- Event-group discipline of one call: the current group is restored on
return and, when a group was already open on entry, the call opens no new
group (the group-id counter is untouched) and every event it appends to
the log is recorded under the entry group. -/
def GroupsOk (st st' : ConnState) : Prop :=
  st'.eventGroup = st.eventGroup ∧
  ∀ g, st.eventGroup = some g →
    st'.nextGroup = st.nextGroup ∧
    ∃ ext, st'.log = st.log ++ ext ∧ ∀ e ∈ ext, e.group = some g


/-- `GroupsOk` for every operation of the protocol at one fuel level (the
induction package for the event-group discipline). -/
def GroupsOkAll (fuel : Nat) : Prop :=
  (∀ (κ : Checker) (c o : Nat) (st st' : ConnState),
    connect fuel κ c o st = Except.ok st' → GroupsOk st st') ∧
  (∀ (κ : Checker) (p c : Nat) (st st' : ConnState),
    connect_ fuel κ p c st = Except.ok st' → GroupsOk st st') ∧
  (∀ (κ : Checker) (nb op : Nat) (st : ConnState) (r : ConnState × Bool),
    spliceStack fuel κ nb op st = Except.ok r → GroupsOk st r.1) ∧
  (∀ (κ : Checker) (c : Nat) (st st' : ConnState),
    disconnect fuel κ c st = Except.ok st' → GroupsOk st st') ∧
  (∀ (κ : Checker) (c : Nat) (st st' : ConnState),
    respawnShadow fuel κ c st = Except.ok st' → GroupsOk st st') ∧
  (∀ (κ : Checker) (b : Nat) (st st' : ConnState),
    unplug fuel κ b st = Except.ok st' → GroupsOk st st') ∧
  (∀ (κ : Checker) (b : Nat) (st st' : ConnState),
    blockDispose fuel κ b st = Except.ok st' → GroupsOk st st') ∧
  (∀ (κ : Checker) (c : Nat) (st st' : ConnState),
    connDispose fuel κ c st = Except.ok st' → GroupsOk st st') ∧
  (∀ (κ : Checker) (c : Nat) (st st' : ConnState),
    onCheckChanged fuel κ c st = Except.ok st' → GroupsOk st st') ∧
  (∀ (κ : Checker) (c : Nat) (a : CheckArg) (st st' : ConnState),
    setCheck fuel κ c a st = Except.ok st' → GroupsOk st st')


instance (st : ConnState) (a b : Nat) : Decidable (LinkWF st a b) := by
  unfold LinkWF
  infer_instance

instance (b : Block) : Decidable (blockWF b) := by
  unfold blockWF
  infer_instance

instance (d : ShadowDom) : Decidable (domWF d) := by
  unfold domWF
  infer_instance

/-- The link clause of `StInv` at one connection, in executable form: the
target, when present, forms a well-formed link. -/
def linkCheck (st : ConnState) (a : Nat) : Bool :=
  match (st.conns a).targetConnection with
  | some b => decide (LinkWF st a b)
  | none => true

/-- The ownership clause of `StInv` at one block, in executable form. -/
def coherentCheck (st : ConnState) (b : Nat) : Bool :=
  (match (st.blocks b).outputConnection with
   | some o => decide (o < st.fresh) && decide ((st.conns o).sourceBlock = b) &&
       decide ((st.conns o).type = ConnType.outputValue)
   | none => true) &&
  (match (st.blocks b).previousConnection with
   | some o => decide (o < st.fresh) && decide ((st.conns o).sourceBlock = b) &&
       decide ((st.conns o).type = ConnType.previousStatement)
   | none => true) &&
  (match (st.blocks b).nextConnection with
   | some o => decide (o < st.fresh) && decide ((st.conns o).sourceBlock = b) &&
       decide ((st.conns o).type = ConnType.nextStatement)
   | none => true)

/-- The template clause of `StInv` at one connection, in executable form. -/
def shadowCheck (st : ConnState) (c : Nat) : Bool :=
  match (st.conns c).shadowDom with
  | some d => decide (domWF d)
  | none => true

/-- Projection of a protocol result: the `targetConnection` of connection
`c`, or `none` when the run failed. -/
def tgtAfter (r : Except Err ConnState) (c : Nat) : Option (Option Nat) :=
  match r with
  | Except.ok s => some ((s.conns c).targetConnection)
  | Except.error _ => none

/-- Projection of a protocol result: the stored template of connection `c`. -/
def domAfter (r : Except Err ConnState) (c : Nat) : Option (Option ShadowDom) :=
  match r with
  | Except.ok s => some ((s.conns c).shadowDom)
  | Except.error _ => none

/-- Projection of a protocol result: the `disposed` flag of connection `c`. -/
def dispAfter (r : Except Err ConnState) (c : Nat) : Option Bool :=
  match r with
  | Except.ok s => some ((s.conns c).disposed)
  | Except.error _ => none

/-- Projection of a protocol result: the compatibility tags of connection
`c`. -/
def checkAfter (r : Except Err ConnState) (c : Nat) :
    Option (Option (List String)) :=
  match r with
  | Except.ok s => some ((s.conns c).check)
  | Except.error _ => none

/-- Projection of a protocol result: follow `k` parent links up from block
`b` (`parentAt`). -/
def ancestorAfter (r : Except Err ConnState) (k b : Nat) : Option (Option Nat) :=
  match r with
  | Except.ok s => some (parentAt s k b)
  | Except.error _ => none

/-- Whether a protocol run failed, and how. -/
def errOf (r : Except Err ConnState) : Option Err :=
  match r with
  | Except.ok _ => none
  | Except.error e => some e

/-- The state a successful protocol run returns (a dummy empty state for a
failed run). -/
def okOf (r : Except Err ConnState) : ConnState :=
  match r with
  | Except.ok s => s
  | Except.error _ => mkState [] [] 0

/-- Modelled from the spec: a checker that rejects every pair — the
protocol must cope with an arbitrary verdict of the external checker. -/
def rejectAll : Checker := fun _ _ _ => false

/-- The closing steps of the attach sequence `connect_`, after orphan
resolution: capture the move event, link the pair reciprocally, reparent
the child block, fire the event. -/
def connectFinish (st2 : ConnState) (p c childBlock parentBlock : Nat) :
    Except Err ConnState :=
  let ev := if st2.eventsEnabled then some (mkMove st2 childBlock) else none
  match connectReciprocally st2 (some p) (some c) with
  | Except.error e => Except.error e
  | Except.ok st3 =>
    let st4 := st3.setBlockParent childBlock (some parentBlock)
    Except.ok (match ev with
      | some e => recordFire st4 e
      | none => st4)

/-- Concrete scenario: a value link `10 ↔ 11` whose superior input
connection carries a placeholder template. -/
def templatePairState : ConnState := mkState
  [(10, { sourceBlock := 0, type := ConnType.inputValue,
          targetConnection := some 11,
          shadowDom := some { hasOutput := true, hasPrevious := false,
                              payload := 7 } }),
   (11, { sourceBlock := 1, type := ConnType.outputValue,
          targetConnection := some 10 })]
  [(0, { inputList := [some 10] }),
   (1, { outputConnection := some 11, parent := some 0 })]
  12

/-- Concrete scenario: two vacant value connections whose `disposed` flags
are both set. -/
def disposedPairState : ConnState := mkState
  [(10, { sourceBlock := 0, type := ConnType.inputValue, disposed := true }),
   (11, { sourceBlock := 1, type := ConnType.outputValue, disposed := true })]
  [(0, { inputList := [some 10] }),
   (1, { outputConnection := some 11 })]
  12

/-- Concrete scenario: a linked value pair with compatibility tags on both
sides. -/
def taggedPairState : ConnState := mkState
  [(10, { sourceBlock := 0, type := ConnType.inputValue,
          targetConnection := some 11, check := some ["Number"] }),
   (11, { sourceBlock := 1, type := ConnType.outputValue,
          targetConnection := some 10, check := some ["Number"] })]
  [(0, { inputList := [some 10] }),
   (1, { outputConnection := some 11, parent := some 0 })]
  12

/-- Concrete scenario: two free value blocks, each exposing an output and
one input. -/
def twoValueBlocksState : ConnState := mkState
  [(10, { sourceBlock := 0, type := ConnType.inputValue }),
   (11, { sourceBlock := 0, type := ConnType.outputValue }),
   (12, { sourceBlock := 1, type := ConnType.inputValue }),
   (13, { sourceBlock := 1, type := ConnType.outputValue })]
  [(0, { outputConnection := some 11, inputList := [some 10] }),
   (1, { outputConnection := some 13, inputList := [some 12] })]
  14

/-- Concrete scenario: an ordinary (non-placeholder) child block attached
to a superior input connection. -/
def ordinaryPairState : ConnState := mkState
  [(10, { sourceBlock := 0, type := ConnType.inputValue,
          targetConnection := some 11 }),
   (11, { sourceBlock := 1, type := ConnType.outputValue,
          targetConnection := some 10 })]
  [(0, { inputList := [some 10] }),
   (1, { outputConnection := some 11, parent := some 0 })]
  12

/-- Concrete scenario: a placeholder (shadow) block occupying a superior
input connection, plus a free ordinary block about to take its place. -/
def shadowOccupantState : ConnState := mkState
  [(10, { sourceBlock := 0, type := ConnType.inputValue,
          targetConnection := some 11 }),
   (11, { sourceBlock := 1, type := ConnType.outputValue,
          targetConnection := some 10 }),
   (12, { sourceBlock := 2, type := ConnType.outputValue })]
  [(0, { inputList := [some 10] }),
   (1, { outputConnection := some 11, isShadow := true, parent := some 0,
         payload := 5 }),
   (2, { outputConnection := some 12 })]
  13

/-- Concrete scenario: a placeholder (shadow) child block attached to a
superior input connection. -/
def shadowChildPairState : ConnState := mkState
  [(10, { sourceBlock := 0, type := ConnType.inputValue,
          targetConnection := some 11 }),
   (11, { sourceBlock := 1, type := ConnType.outputValue,
          targetConnection := some 10 })]
  [(0, { inputList := [some 10] }),
   (1, { outputConnection := some 11, isShadow := true, parent := some 0 })]
  12

@[simp] theorem upd_same {α : Type} (f : Nat → α) (k : Nat) (v : α) : upd f k v k = v := by
  simp [upd]

@[simp] theorem upd_other {α : Type} (f : Nat → α) (k x : Nat) (v : α) (h : x ≠ k) :
    upd f k v x = f x := by
  simp [upd, h]

theorem saneChecker_ok : CheckerOk saneChecker := by
  intro st a b h
  simp only [saneChecker, Bool.and_eq_true, decide_eq_true_eq] at h
  exact ⟨h.1.1.1.1.1.1.1.1, h.1.1.1.1.1.1.1.2, h.1.1.1.1.1.1.2, h.1.1.1.1.1.2,
    h.1.1.1.1.2, h.1.1.1.2, h.1.1.2, h.1.2⟩

namespace ConnState

@[simp] theorem setTarget_fresh (st : ConnState) (c : Nat) (v : Option Nat) :
    (st.setTarget c v).fresh = st.fresh := rfl
@[simp] theorem setTarget_blocks (st : ConnState) (c : Nat) (v : Option Nat) :
    (st.setTarget c v).blocks = st.blocks := rfl
@[simp] theorem setTarget_eventGroup (st : ConnState) (c : Nat) (v : Option Nat) :
    (st.setTarget c v).eventGroup = st.eventGroup := rfl
@[simp] theorem setTarget_nextGroup (st : ConnState) (c : Nat) (v : Option Nat) :
    (st.setTarget c v).nextGroup = st.nextGroup := rfl
@[simp] theorem setTarget_log (st : ConnState) (c : Nat) (v : Option Nat) :
    (st.setTarget c v).log = st.log := rfl
@[simp] theorem setTarget_pendingBumps (st : ConnState) (c : Nat) (v : Option Nat) :
    (st.setTarget c v).pendingBumps = st.pendingBumps := rfl
@[simp] theorem setTarget_eventsEnabled (st : ConnState) (c : Nat) (v : Option Nat) :
    (st.setTarget c v).eventsEnabled = st.eventsEnabled := rfl
@[simp] theorem setTarget_recordUndo (st : ConnState) (c : Nat) (v : Option Nat) :
    (st.setTarget c v).recordUndo = st.recordUndo := rfl
@[simp] theorem setTarget_conns_same (st : ConnState) (c : Nat) (v : Option Nat) :
    (st.setTarget c v).conns c = { st.conns c with targetConnection := v } := by
  simp [setTarget]
@[simp] theorem setTarget_conns_other (st : ConnState) (c x : Nat) (v : Option Nat)
    (h : x ≠ c) : (st.setTarget c v).conns x = st.conns x := by
  simp [setTarget, h]

@[simp] theorem setShadowDom_fresh (st : ConnState) (c : Nat) (v : Option ShadowDom) :
    (st.setShadowDom c v).fresh = st.fresh := rfl
@[simp] theorem setShadowDom_blocks (st : ConnState) (c : Nat) (v : Option ShadowDom) :
    (st.setShadowDom c v).blocks = st.blocks := rfl
@[simp] theorem setShadowDom_eventGroup (st : ConnState) (c : Nat) (v : Option ShadowDom) :
    (st.setShadowDom c v).eventGroup = st.eventGroup := rfl
@[simp] theorem setShadowDom_nextGroup (st : ConnState) (c : Nat) (v : Option ShadowDom) :
    (st.setShadowDom c v).nextGroup = st.nextGroup := rfl
@[simp] theorem setShadowDom_log (st : ConnState) (c : Nat) (v : Option ShadowDom) :
    (st.setShadowDom c v).log = st.log := rfl
@[simp] theorem setShadowDom_pendingBumps (st : ConnState) (c : Nat) (v : Option ShadowDom) :
    (st.setShadowDom c v).pendingBumps = st.pendingBumps := rfl
@[simp] theorem setShadowDom_eventsEnabled (st : ConnState) (c : Nat) (v : Option ShadowDom) :
    (st.setShadowDom c v).eventsEnabled = st.eventsEnabled := rfl
@[simp] theorem setShadowDom_recordUndo (st : ConnState) (c : Nat) (v : Option ShadowDom) :
    (st.setShadowDom c v).recordUndo = st.recordUndo := rfl
@[simp] theorem setShadowDom_conns_same (st : ConnState) (c : Nat) (v : Option ShadowDom) :
    (st.setShadowDom c v).conns c = { st.conns c with shadowDom := v } := by
  simp [setShadowDom]
@[simp] theorem setShadowDom_conns_other (st : ConnState) (c x : Nat) (v : Option ShadowDom)
    (h : x ≠ c) : (st.setShadowDom c v).conns x = st.conns x := by
  simp [setShadowDom, h]

@[simp] theorem setCheckField_fresh (st : ConnState) (c : Nat) (v : Option (List String)) :
    (st.setCheckField c v).fresh = st.fresh := rfl
@[simp] theorem setCheckField_blocks (st : ConnState) (c : Nat) (v : Option (List String)) :
    (st.setCheckField c v).blocks = st.blocks := rfl
@[simp] theorem setCheckField_conns_same (st : ConnState) (c : Nat) (v : Option (List String)) :
    (st.setCheckField c v).conns c = { st.conns c with check := v } := by
  simp [setCheckField]
@[simp] theorem setCheckField_conns_other (st : ConnState) (c x : Nat)
    (v : Option (List String)) (h : x ≠ c) :
    (st.setCheckField c v).conns x = st.conns x := by
  simp [setCheckField, h]

@[simp] theorem setDisposed_fresh (st : ConnState) (c : Nat) :
    (st.setDisposed c).fresh = st.fresh := rfl
@[simp] theorem setDisposed_blocks (st : ConnState) (c : Nat) :
    (st.setDisposed c).blocks = st.blocks := rfl
@[simp] theorem setDisposed_conns_same (st : ConnState) (c : Nat) :
    (st.setDisposed c).conns c = { st.conns c with disposed := true } := by
  simp [setDisposed]
@[simp] theorem setDisposed_conns_other (st : ConnState) (c x : Nat) (h : x ≠ c) :
    (st.setDisposed c).conns x = st.conns x := by
  simp [setDisposed, h]

@[simp] theorem setBlockParent_conns (st : ConnState) (b : Nat) (p : Option Nat) :
    (st.setBlockParent b p).conns = st.conns := rfl
@[simp] theorem setBlockParent_fresh (st : ConnState) (b : Nat) (p : Option Nat) :
    (st.setBlockParent b p).fresh = st.fresh := rfl
@[simp] theorem setBlockParent_eventGroup (st : ConnState) (b : Nat) (p : Option Nat) :
    (st.setBlockParent b p).eventGroup = st.eventGroup := rfl
@[simp] theorem setBlockParent_nextGroup (st : ConnState) (b : Nat) (p : Option Nat) :
    (st.setBlockParent b p).nextGroup = st.nextGroup := rfl
@[simp] theorem setBlockParent_log (st : ConnState) (b : Nat) (p : Option Nat) :
    (st.setBlockParent b p).log = st.log := rfl
@[simp] theorem setBlockParent_pendingBumps (st : ConnState) (b : Nat) (p : Option Nat) :
    (st.setBlockParent b p).pendingBumps = st.pendingBumps := rfl
@[simp] theorem setBlockParent_eventsEnabled (st : ConnState) (b : Nat) (p : Option Nat) :
    (st.setBlockParent b p).eventsEnabled = st.eventsEnabled := rfl
@[simp] theorem setBlockParent_recordUndo (st : ConnState) (b : Nat) (p : Option Nat) :
    (st.setBlockParent b p).recordUndo = st.recordUndo := rfl
@[simp] theorem setBlockParent_blocks_same (st : ConnState) (b : Nat) (p : Option Nat) :
    (st.setBlockParent b p).blocks b = { st.blocks b with parent := p } := by
  simp [setBlockParent]
@[simp] theorem setBlockParent_blocks_other (st : ConnState) (b x : Nat) (p : Option Nat)
    (h : x ≠ b) : (st.setBlockParent b p).blocks x = st.blocks x := by
  simp [setBlockParent, h]

@[simp] theorem markDead_conns (st : ConnState) (b : Nat) :
    (st.markDead b).conns = st.conns := rfl
@[simp] theorem markDead_fresh (st : ConnState) (b : Nat) :
    (st.markDead b).fresh = st.fresh := rfl
@[simp] theorem markDead_eventGroup (st : ConnState) (b : Nat) :
    (st.markDead b).eventGroup = st.eventGroup := rfl
@[simp] theorem markDead_nextGroup (st : ConnState) (b : Nat) :
    (st.markDead b).nextGroup = st.nextGroup := rfl
@[simp] theorem markDead_log (st : ConnState) (b : Nat) :
    (st.markDead b).log = st.log := rfl
@[simp] theorem markDead_pendingBumps (st : ConnState) (b : Nat) :
    (st.markDead b).pendingBumps = st.pendingBumps := rfl
@[simp] theorem markDead_eventsEnabled (st : ConnState) (b : Nat) :
    (st.markDead b).eventsEnabled = st.eventsEnabled := rfl
@[simp] theorem markDead_recordUndo (st : ConnState) (b : Nat) :
    (st.markDead b).recordUndo = st.recordUndo := rfl
@[simp] theorem markDead_blocks_same (st : ConnState) (b : Nat) :
    (st.markDead b).blocks b =
      { st.blocks b with workspace := false, parent := none } := by
  simp [markDead]
@[simp] theorem markDead_blocks_other (st : ConnState) (b x : Nat) (h : x ≠ b) :
    (st.markDead b).blocks x = st.blocks x := by
  simp [markDead, h]

@[simp] theorem setGroupNew_conns (st : ConnState) : st.setGroupNew.conns = st.conns := rfl
@[simp] theorem setGroupNew_blocks (st : ConnState) : st.setGroupNew.blocks = st.blocks := rfl
@[simp] theorem setGroupNew_fresh (st : ConnState) : st.setGroupNew.fresh = st.fresh := rfl
@[simp] theorem setGroupNew_eventGroup (st : ConnState) :
    st.setGroupNew.eventGroup = some st.nextGroup := rfl
@[simp] theorem setGroupNew_nextGroup (st : ConnState) :
    st.setGroupNew.nextGroup = st.nextGroup + 1 := rfl
@[simp] theorem setGroupNew_log (st : ConnState) : st.setGroupNew.log = st.log := rfl
@[simp] theorem setGroupNew_pendingBumps (st : ConnState) :
    st.setGroupNew.pendingBumps = st.pendingBumps := rfl
@[simp] theorem setGroupNew_eventsEnabled (st : ConnState) :
    st.setGroupNew.eventsEnabled = st.eventsEnabled := rfl
@[simp] theorem setGroupNew_recordUndo (st : ConnState) :
    st.setGroupNew.recordUndo = st.recordUndo := rfl

@[simp] theorem setGroupOff_conns (st : ConnState) : st.setGroupOff.conns = st.conns := rfl
@[simp] theorem setGroupOff_blocks (st : ConnState) : st.setGroupOff.blocks = st.blocks := rfl
@[simp] theorem setGroupOff_fresh (st : ConnState) : st.setGroupOff.fresh = st.fresh := rfl
@[simp] theorem setGroupOff_eventGroup (st : ConnState) :
    st.setGroupOff.eventGroup = none := rfl
@[simp] theorem setGroupOff_nextGroup (st : ConnState) :
    st.setGroupOff.nextGroup = st.nextGroup := rfl
@[simp] theorem setGroupOff_log (st : ConnState) : st.setGroupOff.log = st.log := rfl
@[simp] theorem setGroupOff_pendingBumps (st : ConnState) :
    st.setGroupOff.pendingBumps = st.pendingBumps := rfl
@[simp] theorem setGroupOff_eventsEnabled (st : ConnState) :
    st.setGroupOff.eventsEnabled = st.eventsEnabled := rfl
@[simp] theorem setGroupOff_recordUndo (st : ConnState) :
    st.setGroupOff.recordUndo = st.recordUndo := rfl

end ConnState

@[simp] theorem recordFire_conns (st : ConnState) (e : MoveEvent) :
    (recordFire st e).conns = st.conns := rfl
@[simp] theorem recordFire_blocks (st : ConnState) (e : MoveEvent) :
    (recordFire st e).blocks = st.blocks := rfl
@[simp] theorem recordFire_fresh (st : ConnState) (e : MoveEvent) :
    (recordFire st e).fresh = st.fresh := rfl
@[simp] theorem recordFire_eventGroup (st : ConnState) (e : MoveEvent) :
    (recordFire st e).eventGroup = st.eventGroup := rfl
@[simp] theorem recordFire_nextGroup (st : ConnState) (e : MoveEvent) :
    (recordFire st e).nextGroup = st.nextGroup := rfl
@[simp] theorem recordFire_log (st : ConnState) (e : MoveEvent) :
    (recordFire st e).log =
      st.log ++ [{ e with newParent := (st.blocks e.block).parent }] := rfl
@[simp] theorem recordFire_pendingBumps (st : ConnState) (e : MoveEvent) :
    (recordFire st e).pendingBumps = st.pendingBumps := rfl
@[simp] theorem recordFire_eventsEnabled (st : ConnState) (e : MoveEvent) :
    (recordFire st e).eventsEnabled = st.eventsEnabled := rfl
@[simp] theorem recordFire_recordUndo (st : ConnState) (e : MoveEvent) :
    (recordFire st e).recordUndo = st.recordUndo := rfl

@[simp] theorem isSuperior_setGroupNew (st : ConnState) (c : Nat) :
    isSuperior st.setGroupNew c = isSuperior st c := rfl
@[simp] theorem isConnected_setGroupNew (st : ConnState) (c : Nat) :
    isConnected st.setGroupNew c = isConnected st c := rfl

/-- C2: for a valid superior/inferior pair (neither disposed, checker
accepting both orientations alike), `connect(A,B)` and `connect(B,A)`
produce identical resulting states: superiority is decided statically by
kind via `isSuperior` (`INPUT_VALUE` and `NEXT_STATEMENT` are superior),
and the attach sequence always runs on the superior side regardless of
which side `connect` was invoked on. -/
theorem C2_superiority_symmetry :
    (∀ (st : ConnState) (c : Nat),
      isSuperior st c = true ↔
        ((st.conns c).type = ConnType.inputValue ∨
         (st.conns c).type = ConnType.nextStatement)) ∧
    (∀ (fuel : Nat) (κ : Checker) (A B : Nat) (st : ConnState),
      isSuperior st A = true → isSuperior st B = false →
      (st.conns A).disposed = false → (st.conns B).disposed = false →
      κ st A B = true → κ st A B = κ st B A →
      ((st.conns A).targetConnection = some B ↔
        (st.conns B).targetConnection = some A) →
      connect fuel κ A B st = connect fuel κ B A st) := by
  constructor
  · intro st c
    simp [isSuperior]
  · intro fuel κ A B st hA hB _ _ _ hκ hrecip
    cases fuel with
    | zero => simp [connect]
    | succ f =>
      by_cases hAB : (st.conns A).targetConnection = some B
      · have hBA := hrecip.mp hAB
        simp [connect, hAB, hBA]
      · have hBA : ¬((st.conns B).targetConnection = some A) :=
          fun h => hAB (hrecip.mpr h)
        simp only [connect, if_neg hAB, if_neg hBA, ← hκ]
        by_cases hk : κ st A B = true
        · simp only [hk, if_true]
          rcases hg : st.eventGroup with _ | g <;>
            simp [ConnState.getGroup, hg, hA, hB]
        · simp only [Bool.not_eq_true] at hk
          simp [hk]

@[simp] theorem setCheckField_eventGroup (st : ConnState) (c : Nat)
    (v : Option (List String)) : (st.setCheckField c v).eventGroup = st.eventGroup := rfl
@[simp] theorem setCheckField_nextGroup (st : ConnState) (c : Nat)
    (v : Option (List String)) : (st.setCheckField c v).nextGroup = st.nextGroup := rfl
@[simp] theorem setCheckField_log (st : ConnState) (c : Nat)
    (v : Option (List String)) : (st.setCheckField c v).log = st.log := rfl
@[simp] theorem setCheckField_eventsEnabled (st : ConnState) (c : Nat)
    (v : Option (List String)) : (st.setCheckField c v).eventsEnabled = st.eventsEnabled := rfl
@[simp] theorem setCheckField_recordUndo (st : ConnState) (c : Nat)
    (v : Option (List String)) : (st.setCheckField c v).recordUndo = st.recordUndo := rfl
@[simp] theorem setCheckField_pendingBumps (st : ConnState) (c : Nat)
    (v : Option (List String)) : (st.setCheckField c v).pendingBumps = st.pendingBumps := rfl

@[simp] theorem setDisposed_eventGroup (st : ConnState) (c : Nat) :
    (st.setDisposed c).eventGroup = st.eventGroup := rfl
@[simp] theorem setDisposed_nextGroup (st : ConnState) (c : Nat) :
    (st.setDisposed c).nextGroup = st.nextGroup := rfl
@[simp] theorem setDisposed_log (st : ConnState) (c : Nat) :
    (st.setDisposed c).log = st.log := rfl
@[simp] theorem setDisposed_eventsEnabled (st : ConnState) (c : Nat) :
    (st.setDisposed c).eventsEnabled = st.eventsEnabled := rfl
@[simp] theorem setDisposed_recordUndo (st : ConnState) (c : Nat) :
    (st.setDisposed c).recordUndo = st.recordUndo := rfl
@[simp] theorem setDisposed_pendingBumps (st : ConnState) (c : Nat) :
    (st.setDisposed c).pendingBumps = st.pendingBumps := rfl

@[simp] theorem domToBlock_eventGroup (st : ConnState) (d : ShadowDom) :
    (domToBlock st d).1.eventGroup = st.eventGroup := rfl
@[simp] theorem domToBlock_nextGroup (st : ConnState) (d : ShadowDom) :
    (domToBlock st d).1.nextGroup = st.nextGroup := rfl
@[simp] theorem domToBlock_log (st : ConnState) (d : ShadowDom) :
    (domToBlock st d).1.log = st.log := rfl
@[simp] theorem domToBlock_eventsEnabled (st : ConnState) (d : ShadowDom) :
    (domToBlock st d).1.eventsEnabled = st.eventsEnabled := rfl
@[simp] theorem domToBlock_recordUndo (st : ConnState) (d : ShadowDom) :
    (domToBlock st d).1.recordUndo = st.recordUndo := rfl
@[simp] theorem domToBlock_pendingBumps (st : ConnState) (d : ShadowDom) :
    (domToBlock st d).1.pendingBumps = st.pendingBumps := rfl
@[simp] theorem domToBlock_fresh (st : ConnState) (d : ShadowDom) :
    (domToBlock st d).1.fresh = st.fresh + 3 := rfl
@[simp] theorem domToBlock_snd (st : ConnState) (d : ShadowDom) :
    (domToBlock st d).2 = st.fresh := rfl

@[simp] theorem mkMove_group (st : ConnState) (b : Nat) :
    (mkMove st b).group = st.eventGroup := rfl

theorem GroupsOk_refl (st : ConnState) : GroupsOk st st :=
  ⟨rfl, fun _ _ => ⟨rfl, [], by simp, by simp⟩⟩

theorem GroupsOk_trans {s1 s2 s3 : ConnState} (h1 : GroupsOk s1 s2)
    (h2 : GroupsOk s2 s3) : GroupsOk s1 s3 := by
  refine ⟨h2.1.trans h1.1, fun g hg => ?_⟩
  obtain ⟨hn1, e1, hl1, hg1⟩ := h1.2 g hg
  obtain ⟨hn2, e2, hl2, hg2⟩ := h2.2 g (h1.1.symm ▸ hg)
  refine ⟨hn2.trans hn1, e1 ++ e2, by simp [hl2, hl1], ?_⟩
  intro e he
  rcases List.mem_append.mp he with h | h
  · exact hg1 e h
  · exact hg2 e h

theorem GroupsOk_of_untouched {st st' : ConnState}
    (h1 : st'.eventGroup = st.eventGroup) (h2 : st'.nextGroup = st.nextGroup)
    (h3 : st'.log = st.log) : GroupsOk st st' :=
  ⟨h1, fun _ _ => ⟨h2, [], by simp [h3], by simp⟩⟩

theorem GroupsOk_recordFire (st : ConnState) (e : MoveEvent)
    (he : e.group = st.eventGroup) : GroupsOk st (recordFire st e) := by
  refine ⟨rfl, fun g hg => ⟨rfl, [{ e with newParent := (st.blocks e.block).parent }],
    by simp [recordFire], ?_⟩⟩
  intro x hx
  simp at hx
  simp [hx, he, hg]

theorem groups_disconnectInternal (st : ConnState) (c pb cb : Nat) (st' : ConnState)
    (h : disconnectInternal st c pb cb = Except.ok st') : GroupsOk st st' := by
  simp only [disconnectInternal] at h
  split at h
  · exact Except.noConfusion h
  · cases h
    by_cases he : st.eventsEnabled = true
    · simp only [he, if_true]
      refine GroupsOk_trans (GroupsOk_of_untouched rfl rfl rfl)
        (GroupsOk_recordFire _ _ ?_)
      simp
    · simp only [Bool.not_eq_true] at he
      simp only [he, Bool.false_eq_true, if_false]
      exact GroupsOk_of_untouched rfl rfl rfl

theorem groups_unplug_succ (f : Nat) (ih : GroupsOkAll f) (κ : Checker) (b : Nat)
    (st st' : ConnState) (h : unplug (f + 1) κ b st = Except.ok st') :
    GroupsOk st st' := by
  obtain ⟨ihc, ihc2, ihs, ihd, ihr, ihu, ihb, ihcd, iho, ihsc⟩ := ih
  simp only [unplug] at h
  split at h
  · split at h
    · exact ihd κ _ st st' h
    · cases h; exact GroupsOk_refl _
  · split at h
    · split at h
      · exact ihd κ _ st st' h
      · cases h; exact GroupsOk_refl _
    · cases h; exact GroupsOk_refl _

theorem groups_blockDispose_succ (f : Nat) (ih : GroupsOkAll f) (κ : Checker) (b : Nat)
    (st st' : ConnState) (h : blockDispose (f + 1) κ b st = Except.ok st') :
    GroupsOk st st' := by
  simp only [blockDispose] at h
  split at h
  · exact Except.noConfusion h
  next st1 hu =>
    cases h
    exact GroupsOk_trans (ih.2.2.2.2.2.1 κ b st st1 hu)
      (GroupsOk_of_untouched (by simp) (by simp) (by simp))

theorem groups_connDispose_succ (f : Nat) (ih : GroupsOkAll f) (κ : Checker) (c : Nat)
    (st st' : ConnState) (h : connDispose (f + 1) κ c st = Except.ok st') :
    GroupsOk st st' := by
  simp only [connDispose] at h
  split at h
  · exact Except.noConfusion h
  next st1 heq =>
    cases h
    refine @GroupsOk_trans _ (st1) _ ?_
      (GroupsOk_of_untouched (by simp) (by simp) (by simp))
    split at heq
    · split at heq
      next tb htb =>
        split at heq
        · exact GroupsOk_trans (GroupsOk_of_untouched rfl rfl rfl)
            (ih.2.2.2.2.2.2.1 κ tb (st.setShadowDom c none) st1 heq)
        · exact GroupsOk_trans (GroupsOk_of_untouched rfl rfl rfl)
            (ih.2.2.2.2.2.1 κ tb (st.setShadowDom c none) st1 heq)
      next htb =>
        cases heq
        exact GroupsOk_of_untouched rfl rfl rfl
    · cases heq; exact GroupsOk_refl _

theorem groups_respawnShadow_succ (f : Nat) (ih : GroupsOkAll f) (κ : Checker) (c : Nat)
    (st st' : ConnState) (h : respawnShadow (f + 1) κ c st = Except.ok st') :
    GroupsOk st st' := by
  simp only [respawnShadow] at h
  split at h
  next dom hdom =>
    split at h
    · split at h
      next out hout =>
        exact GroupsOk_trans (GroupsOk_of_untouched (by simp) (by simp) (by simp))
          (ih.1 κ c out _ st' h)
      next hout =>
        split at h
        next prev hprev =>
          exact GroupsOk_trans (GroupsOk_of_untouched (by simp) (by simp) (by simp))
            (ih.1 κ c prev _ st' h)
        next hprev => exact Except.noConfusion h
    · cases h; exact GroupsOk_refl _
  next hdom => cases h; exact GroupsOk_refl _

theorem groups_onCheckChanged_succ (f : Nat) (ih : GroupsOkAll f) (κ : Checker) (c : Nat)
    (st st' : ConnState) (h : onCheckChanged (f + 1) κ c st = Except.ok st') :
    GroupsOk st st' := by
  simp only [onCheckChanged] at h
  split at h
  next tc htc =>
    split at h
    · exact ih.2.2.2.2.2.1 κ _ st st' h
    · cases h; exact GroupsOk_refl _
  next htc => cases h; exact GroupsOk_refl _

theorem groups_setCheck_succ (f : Nat) (ih : GroupsOkAll f) (κ : Checker) (c : Nat)
    (a : CheckArg) (st st' : ConnState) (h : setCheck (f + 1) κ c a st = Except.ok st') :
    GroupsOk st st' := by
  simp only [setCheck] at h
  cases a with
  | noneArg =>
    simp only at h
    cases h
    exact GroupsOk_of_untouched (by simp) (by simp) (by simp)
  | single t =>
    simp only at h
    exact GroupsOk_trans (GroupsOk_of_untouched (by simp) (by simp) (by simp))
      (ih.2.2.2.2.2.2.2.2.1 κ c _ st' h)
  | list ts =>
    simp only at h
    exact GroupsOk_trans (GroupsOk_of_untouched (by simp) (by simp) (by simp))
      (ih.2.2.2.2.2.2.2.2.1 κ c _ st' h)

theorem groups_disconnect_succ (f : Nat) (ih : GroupsOkAll f) (κ : Checker) (c : Nat)
    (st st' : ConnState) (h : disconnect (f + 1) κ c st = Except.ok st') :
    GroupsOk st st' := by
  simp only [disconnect] at h
  split at h
  · exact Except.noConfusion h
  next oc hoc =>
    split at h
    · exact Except.noConfusion h
    · split at h
      · exact Except.noConfusion h
      next st2 hdi =>
        split at h
        · exact Except.noConfusion h
        next st3 hrs =>
          rcases hg : st.eventGroup with _ | g0
          · simp only [ConnState.getGroup, hg, Option.isNone_none, if_true] at hdi hrs h
            cases h
            refine ⟨by simp [hg], fun g hgg => ?_⟩
            rw [hg] at hgg
            exact Option.noConfusion hgg
          · simp only [ConnState.getGroup, hg, Option.isNone_some, Bool.false_eq_true,
              if_false] at hdi hrs h
            cases h
            exact GroupsOk_trans (groups_disconnectInternal st c _ _ _ hdi)
              (ih.2.2.2.2.1 κ _ _ _ hrs)

theorem groups_spliceStack_succ (f : Nat) (ih : GroupsOkAll f) (κ : Checker)
    (nb op : Nat) (st : ConnState) (r : ConnState × Bool)
    (h : spliceStack (f + 1) κ nb op st = Except.ok r) : GroupsOk st r.1 := by
  simp only [spliceStack] at h
  split at h
  · cases h; exact GroupsOk_refl _
  next nc hnc =>
    split at h
    next tc htc =>
      split at h
      · split at h
        · split at h
          · exact Except.noConfusion h
          next st1 hcn => cases h; exact ih.1 κ nc op st st1 hcn
        · cases h; exact GroupsOk_refl _
      · exact ih.2.2.1 κ _ op st r h
    next htc =>
      split at h
      · split at h
        · exact Except.noConfusion h
        next st1 hcn => cases h; exact ih.1 κ nc op st st1 hcn
      · cases h; exact GroupsOk_refl _

theorem groups_connect_succ (f : Nat) (ih : GroupsOkAll f) (κ : Checker) (c o : Nat)
    (st st' : ConnState) (h : connect (f + 1) κ c o st = Except.ok st') :
    GroupsOk st st' := by
  simp only [connect] at h
  split at h
  · cases h; exact GroupsOk_refl _
  · split at h
    · split at h
      · exact Except.noConfusion h
      next st2 hcc =>
        rcases hg : st.eventGroup with _ | g0
        · simp only [ConnState.getGroup, hg, Option.isNone_none, if_true] at hcc h
          cases h
          refine ⟨by simp [hg], fun g hgg => ?_⟩
          rw [hg] at hgg
          exact Option.noConfusion hgg
        · simp only [ConnState.getGroup, hg, Option.isNone_some, Bool.false_eq_true,
            if_false] at hcc h
          cases h
          split at hcc
          · exact ih.2.1 κ c o _ _ hcc
          · exact ih.2.1 κ o c _ _ hcc
    · cases h; exact GroupsOk_refl _

theorem groups_connect_aux_succ (f : Nat) (ih : GroupsOkAll f) (κ : Checker)
    (p c : Nat) (st st' : ConnState) (h : connect_ (f + 1) κ p c st = Except.ok st') :
    GroupsOk st st' := by
  simp only [connect_] at h
  split at h
  · exact Except.noConfusion h
  next st1 heq1 =>
    have g1 : GroupsOk st st1 := by
      split at heq1
      · exact ih.2.2.2.1 κ c st st1 heq1
      · cases heq1; exact GroupsOk_refl _
    split at h
    · exact Except.noConfusion h
    next st2 heq2 =>
      have g2 : GroupsOk st1 st2 := by
        split at heq2
        · cases heq2; exact GroupsOk_refl _
        next orphanConn horph =>
          split at heq2
          · split at heq2
            · exact Except.noConfusion heq2
            next stB hbd =>
              cases heq2
              exact @GroupsOk_trans _ (st1.setShadowDom p none) _
                (GroupsOk_of_untouched rfl rfl rfl)
                (@GroupsOk_trans _ (stB) _ (ih.2.2.2.2.2.2.1 κ _ _ stB hbd)
                  (GroupsOk_of_untouched rfl rfl rfl))
          · split at heq2
            · split at heq2
              · exact Except.noConfusion heq2
              next out hout =>
                split at heq2
                next connection hlcr =>
                  split at heq2
                  · exact Except.noConfusion heq2
                  next stB hcn =>
                    cases heq2
                    exact @GroupsOk_trans _ (st1.setShadowDom p none) _
                      (GroupsOk_of_untouched rfl rfl rfl)
                      (@GroupsOk_trans _ (stB) _ (ih.1 κ out connection _ stB hcn)
                        (GroupsOk_of_untouched rfl rfl rfl))
                next hlcr =>
                  split at heq2
                  · exact Except.noConfusion heq2
                  next stC hdc =>
                    cases heq2
                    refine @GroupsOk_trans _ (st1.setShadowDom p none) _
                      (GroupsOk_of_untouched rfl rfl rfl)
                      (@GroupsOk_trans _ (stC) _ (ih.2.2.2.1 κ p _ stC hdc) ?_)
                    split
                    · exact GroupsOk_of_untouched rfl rfl rfl
                    · exact GroupsOk_of_untouched rfl rfl rfl
            · split at heq2
              · split at heq2
                · exact Except.noConfusion heq2
                next prev hprev =>
                  split at heq2
                  · exact Except.noConfusion heq2
                  next stB hsp =>
                    cases heq2
                    exact @GroupsOk_trans _ (st1.setShadowDom p none) _
                      (GroupsOk_of_untouched rfl rfl rfl)
                      (@GroupsOk_trans _ (stB) _
                        (ih.2.2.1 κ _ prev _ (stB, true) hsp)
                        (GroupsOk_of_untouched rfl rfl rfl))
                  next stB hsp =>
                    split at heq2
                    · exact Except.noConfusion heq2
                    next stC hdc =>
                      cases heq2
                      refine @GroupsOk_trans _ (st1.setShadowDom p none) _
                        (GroupsOk_of_untouched rfl rfl rfl)
                        (@GroupsOk_trans _ (stB) _
                          (ih.2.2.1 κ _ prev _ (stB, false) hsp)
                          (@GroupsOk_trans _ (stC) _
                            (ih.2.2.2.1 κ p stB stC hdc) ?_))
                      split
                      · exact GroupsOk_of_untouched rfl rfl rfl
                      · exact GroupsOk_of_untouched rfl rfl rfl
              · split at heq2
                · exact Except.noConfusion heq2
                next stC hdc =>
                  cases heq2
                  refine @GroupsOk_trans _ (st1.setShadowDom p none) _
                    (GroupsOk_of_untouched rfl rfl rfl)
                    (@GroupsOk_trans _ (stC) _ (ih.2.2.2.1 κ p _ stC hdc) ?_)
                  split
                  · exact GroupsOk_of_untouched rfl rfl rfl
                  · exact GroupsOk_of_untouched rfl rfl rfl
      simp only [connectReciprocally] at h
      cases h
      refine GroupsOk_trans (GroupsOk_trans g1 g2) ?_
      by_cases he : st2.eventsEnabled = true
      · simp only [he, if_true]
        refine GroupsOk_trans (GroupsOk_of_untouched rfl rfl rfl)
          (GroupsOk_recordFire _ _ ?_)
        simp
      · simp only [Bool.not_eq_true] at he
        simp only [he, Bool.false_eq_true, if_false]
        exact GroupsOk_of_untouched rfl rfl rfl

theorem groupsOk_all : ∀ fuel : Nat, GroupsOkAll fuel := by
  intro fuel
  induction fuel with
  | zero =>
    refine ⟨?_, ?_, ?_, ?_, ?_, ?_, ?_, ?_, ?_, ?_⟩ <;> intro κ
    · intro c o st st' h; simp [connect] at h
    · intro p c st st' h; simp [connect_] at h
    · intro nb op st r h; simp [spliceStack] at h
    · intro c st st' h; simp [disconnect] at h
    · intro c st st' h; simp [respawnShadow] at h
    · intro b st st' h; simp [unplug] at h
    · intro b st st' h; simp [blockDispose] at h
    · intro c st st' h; simp [connDispose] at h
    · intro c st st' h; simp [onCheckChanged] at h
    · intro c a st st' h; simp [setCheck] at h
  | succ f ih =>
    refine ⟨fun κ c o st st' h => groups_connect_succ f ih κ c o st st' h,
      fun κ p c st st' h => groups_connect_aux_succ f ih κ p c st st' h,
      fun κ nb op st r h => groups_spliceStack_succ f ih κ nb op st r h,
      fun κ c st st' h => groups_disconnect_succ f ih κ c st st' h,
      fun κ c st st' h => groups_respawnShadow_succ f ih κ c st st' h,
      fun κ b st st' h => groups_unplug_succ f ih κ b st st' h,
      fun κ b st st' h => groups_blockDispose_succ f ih κ b st st' h,
      fun κ c st st' h => groups_connDispose_succ f ih κ c st st' h,
      fun κ c st st' h => groups_onCheckChanged_succ f ih κ c st st' h,
      fun κ c a st st' h => groups_setCheck_succ f ih κ c a st st' h⟩

/-- C8: every `connect` or `disconnect` call obeys the event-group
discipline: the entry group is restored on return (a call that found no
open group opened one at entry and closed it at exit), and when a group
was already open at entry the call opens no group of its own (the
group-id counter is untouched) and every event recorded during the call —
including those of nested cascade calls such as child pre-disconnect,
orphan re-homing and shadow respawn — carries the outermost open group. -/
theorem C8_event_group_nesting :
    (∀ (fuel : Nat) (κ : Checker) (c o : Nat) (st st' : ConnState),
      connect fuel κ c o st = Except.ok st' → GroupsOk st st') ∧
    (∀ (fuel : Nat) (κ : Checker) (c : Nat) (st st' : ConnState),
      disconnect fuel κ c st = Except.ok st' → GroupsOk st st') :=
  ⟨fun fuel κ c o st st' h => (groupsOk_all fuel).1 κ c o st st' h,
   fun fuel κ c st st' h => (groupsOk_all fuel).2.2.2.1 κ c st st' h⟩

theorem oppositeTy_ne {a b : ConnType} (h : oppositeTy a b) : a ≠ b := by
  rcases h with ⟨h1, h2⟩ | ⟨h1, h2⟩ | ⟨h1, h2⟩ | ⟨h1, h2⟩ <;> rw [h1, h2] <;> simp

theorem infOwnOk_transport {st st' : ConnState} {x : Nat}
    (hty : (st'.conns x).type = (st.conns x).type)
    (hsrc : (st'.conns x).sourceBlock = (st.conns x).sourceBlock)
    (hout : (st'.blocks (st.conns x).sourceBlock).outputConnection =
      (st.blocks (st.conns x).sourceBlock).outputConnection)
    (hprev : (st'.blocks (st.conns x).sourceBlock).previousConnection =
      (st.blocks (st.conns x).sourceBlock).previousConnection)
    (h : infOwnOk st x) : infOwnOk st' x := by
  unfold infOwnOk at h ⊢
  rw [hty, hsrc, hout, hprev]
  exact h

theorem LinkWF_transport {st st' : ConnState} {a b : Nat} (h : LinkWF st a b)
    (hfresh : st.fresh ≤ st'.fresh)
    (htb : (st'.conns b).targetConnection = (st.conns b).targetConnection)
    (htya : (st'.conns a).type = (st.conns a).type)
    (htyb : (st'.conns b).type = (st.conns b).type)
    (hsa : (st'.conns a).sourceBlock = (st.conns a).sourceBlock)
    (hsb : (st'.conns b).sourceBlock = (st.conns b).sourceBlock)
    (houta : (st'.blocks (st.conns a).sourceBlock).outputConnection =
      (st.blocks (st.conns a).sourceBlock).outputConnection)
    (hpreva : (st'.blocks (st.conns a).sourceBlock).previousConnection =
      (st.blocks (st.conns a).sourceBlock).previousConnection)
    (houtb : (st'.blocks (st.conns b).sourceBlock).outputConnection =
      (st.blocks (st.conns b).sourceBlock).outputConnection)
    (hprevb : (st'.blocks (st.conns b).sourceBlock).previousConnection =
      (st.blocks (st.conns b).sourceBlock).previousConnection) :
    LinkWF st' a b := by
  obtain ⟨h1, h2, h3, h4, h5, h6, h7, h8, h9⟩ := h
  refine ⟨htb.trans h1, by rw [htya, htyb]; exact h2,
    infOwnOk_transport htya hsa houta hpreva h3,
    infOwnOk_transport htyb hsb houtb hprevb h4,
    lt_of_lt_of_le h5 hfresh, lt_of_lt_of_le h6 hfresh,
    by rw [hsa]; exact lt_of_lt_of_le h7 hfresh,
    by rw [hsb]; exact lt_of_lt_of_le h8 hfresh,
    by rw [hsa, hsb]; exact h9⟩

theorem StInv_of_eq {st st' : ConnState} (h1 : st'.conns = st.conns)
    (h2 : st'.blocks = st.blocks) (h3 : st'.fresh = st.fresh)
    (h : StInv st) : StInv st' := by
  unfold StInv LinkWF infOwnOk blockWF CoherentB domWF at h ⊢
  rw [h1, h2, h3]
  exact h

@[simp] theorem setBlockParent_output (st : ConnState) (b : Nat) (p : Option Nat)
    (x : Nat) : ((st.setBlockParent b p).blocks x).outputConnection =
      (st.blocks x).outputConnection := by
  by_cases hx : x = b <;> simp [ConnState.setBlockParent, upd, hx]
@[simp] theorem setBlockParent_previous (st : ConnState) (b : Nat) (p : Option Nat)
    (x : Nat) : ((st.setBlockParent b p).blocks x).previousConnection =
      (st.blocks x).previousConnection := by
  by_cases hx : x = b <;> simp [ConnState.setBlockParent, upd, hx]
@[simp] theorem setBlockParent_next (st : ConnState) (b : Nat) (p : Option Nat)
    (x : Nat) : ((st.setBlockParent b p).blocks x).nextConnection =
      (st.blocks x).nextConnection := by
  by_cases hx : x = b <;> simp [ConnState.setBlockParent, upd, hx]
@[simp] theorem setBlockParent_inputList (st : ConnState) (b : Nat) (p : Option Nat)
    (x : Nat) : ((st.setBlockParent b p).blocks x).inputList =
      (st.blocks x).inputList := by
  by_cases hx : x = b <;> simp [ConnState.setBlockParent, upd, hx]
@[simp] theorem setBlockParent_isShadow (st : ConnState) (b : Nat) (p : Option Nat)
    (x : Nat) : ((st.setBlockParent b p).blocks x).isShadow =
      (st.blocks x).isShadow := by
  by_cases hx : x = b <;> simp [ConnState.setBlockParent, upd, hx]
@[simp] theorem setBlockParent_payload (st : ConnState) (b : Nat) (p : Option Nat)
    (x : Nat) : ((st.setBlockParent b p).blocks x).payload =
      (st.blocks x).payload := by
  by_cases hx : x = b <;> simp [ConnState.setBlockParent, upd, hx]

@[simp] theorem markDead_output (st : ConnState) (b : Nat) (x : Nat) :
    ((st.markDead b).blocks x).outputConnection = (st.blocks x).outputConnection := by
  by_cases hx : x = b <;> simp [ConnState.markDead, upd, hx]
@[simp] theorem markDead_previous (st : ConnState) (b : Nat) (x : Nat) :
    ((st.markDead b).blocks x).previousConnection = (st.blocks x).previousConnection := by
  by_cases hx : x = b <;> simp [ConnState.markDead, upd, hx]
@[simp] theorem markDead_next (st : ConnState) (b : Nat) (x : Nat) :
    ((st.markDead b).blocks x).nextConnection = (st.blocks x).nextConnection := by
  by_cases hx : x = b <;> simp [ConnState.markDead, upd, hx]
@[simp] theorem markDead_inputList (st : ConnState) (b : Nat) (x : Nat) :
    ((st.markDead b).blocks x).inputList = (st.blocks x).inputList := by
  by_cases hx : x = b <;> simp [ConnState.markDead, upd, hx]
@[simp] theorem markDead_isShadow (st : ConnState) (b : Nat) (x : Nat) :
    ((st.markDead b).blocks x).isShadow = (st.blocks x).isShadow := by
  by_cases hx : x = b <;> simp [ConnState.markDead, upd, hx]
@[simp] theorem markDead_payload (st : ConnState) (b : Nat) (x : Nat) :
    ((st.markDead b).blocks x).payload = (st.blocks x).payload := by
  by_cases hx : x = b <;> simp [ConnState.markDead, upd, hx]

theorem StInv_setBlockParent (st : ConnState) (b : Nat) (p : Option Nat)
    (h : StInv st) : StInv (st.setBlockParent b p) := by
  obtain ⟨hl, hw, hc, hd⟩ := h
  refine ⟨?_, ?_, ?_, ?_⟩
  · intro a b' ht
    simp only [ConnState.setBlockParent_conns] at ht
    exact LinkWF_transport (hl a b' ht) (le_refl _) rfl rfl rfl rfl rfl
      (by simp) (by simp) (by simp) (by simp)
  · intro x
    have hbw := hw x
    unfold blockWF at hbw ⊢
    simpa using hbw
  · intro x
    obtain ⟨hc1, hc2, hc3⟩ := hc x
    refine ⟨fun o ho => ?_, fun o ho => ?_, fun o ho => ?_⟩
    · simp only [setBlockParent_output] at ho
      simpa using hc1 o ho
    · simp only [setBlockParent_previous] at ho
      simpa using hc2 o ho
    · simp only [setBlockParent_next] at ho
      simpa using hc3 o ho
  · intro c d hcd
    exact hd c d hcd

theorem StInv_markDead (st : ConnState) (b : Nat) (h : StInv st) :
    StInv (st.markDead b) := by
  obtain ⟨hl, hw, hc, hd⟩ := h
  refine ⟨?_, ?_, ?_, ?_⟩
  · intro a b' ht
    simp only [ConnState.markDead_conns] at ht
    exact LinkWF_transport (hl a b' ht) (le_refl _) rfl rfl rfl rfl rfl
      (by simp) (by simp) (by simp) (by simp)
  · intro x
    have hbw := hw x
    unfold blockWF at hbw ⊢
    simpa using hbw
  · intro x
    obtain ⟨hc1, hc2, hc3⟩ := hc x
    refine ⟨fun o ho => ?_, fun o ho => ?_, fun o ho => ?_⟩
    · simp only [markDead_output] at ho
      simpa using hc1 o ho
    · simp only [markDead_previous] at ho
      simpa using hc2 o ho
    · simp only [markDead_next] at ho
      simpa using hc3 o ho
  · intro c d hcd
    exact hd c d hcd

@[simp] theorem setTarget_type (st : ConnState) (c : Nat) (v : Option Nat) (x : Nat) :
    ((st.setTarget c v).conns x).type = (st.conns x).type := by
  by_cases hx : x = c <;> simp [ConnState.setTarget, upd, hx]
@[simp] theorem setTarget_src (st : ConnState) (c : Nat) (v : Option Nat) (x : Nat) :
    ((st.setTarget c v).conns x).sourceBlock = (st.conns x).sourceBlock := by
  by_cases hx : x = c <;> simp [ConnState.setTarget, upd, hx]
@[simp] theorem setTarget_check (st : ConnState) (c : Nat) (v : Option Nat) (x : Nat) :
    ((st.setTarget c v).conns x).check = (st.conns x).check := by
  by_cases hx : x = c <;> simp [ConnState.setTarget, upd, hx]
@[simp] theorem setTarget_disposed (st : ConnState) (c : Nat) (v : Option Nat) (x : Nat) :
    ((st.setTarget c v).conns x).disposed = (st.conns x).disposed := by
  by_cases hx : x = c <;> simp [ConnState.setTarget, upd, hx]
@[simp] theorem setTarget_dom (st : ConnState) (c : Nat) (v : Option Nat) (x : Nat) :
    ((st.setTarget c v).conns x).shadowDom = (st.conns x).shadowDom := by
  by_cases hx : x = c <;> simp [ConnState.setTarget, upd, hx]

@[simp] theorem setShadowDom_type (st : ConnState) (c : Nat) (v : Option ShadowDom)
    (x : Nat) : ((st.setShadowDom c v).conns x).type = (st.conns x).type := by
  by_cases hx : x = c <;> simp [ConnState.setShadowDom, upd, hx]
@[simp] theorem setShadowDom_src (st : ConnState) (c : Nat) (v : Option ShadowDom)
    (x : Nat) : ((st.setShadowDom c v).conns x).sourceBlock = (st.conns x).sourceBlock := by
  by_cases hx : x = c <;> simp [ConnState.setShadowDom, upd, hx]
@[simp] theorem setShadowDom_check (st : ConnState) (c : Nat) (v : Option ShadowDom)
    (x : Nat) : ((st.setShadowDom c v).conns x).check = (st.conns x).check := by
  by_cases hx : x = c <;> simp [ConnState.setShadowDom, upd, hx]
@[simp] theorem setShadowDom_disposed (st : ConnState) (c : Nat) (v : Option ShadowDom)
    (x : Nat) : ((st.setShadowDom c v).conns x).disposed = (st.conns x).disposed := by
  by_cases hx : x = c <;> simp [ConnState.setShadowDom, upd, hx]
@[simp] theorem setShadowDom_tgt (st : ConnState) (c : Nat) (v : Option ShadowDom)
    (x : Nat) : ((st.setShadowDom c v).conns x).targetConnection =
      (st.conns x).targetConnection := by
  by_cases hx : x = c <;> simp [ConnState.setShadowDom, upd, hx]

@[simp] theorem setCheckField_type (st : ConnState) (c : Nat) (v : Option (List String))
    (x : Nat) : ((st.setCheckField c v).conns x).type = (st.conns x).type := by
  by_cases hx : x = c <;> simp [ConnState.setCheckField, upd, hx]
@[simp] theorem setCheckField_src (st : ConnState) (c : Nat) (v : Option (List String))
    (x : Nat) : ((st.setCheckField c v).conns x).sourceBlock = (st.conns x).sourceBlock := by
  by_cases hx : x = c <;> simp [ConnState.setCheckField, upd, hx]
@[simp] theorem setCheckField_tgt (st : ConnState) (c : Nat) (v : Option (List String))
    (x : Nat) : ((st.setCheckField c v).conns x).targetConnection =
      (st.conns x).targetConnection := by
  by_cases hx : x = c <;> simp [ConnState.setCheckField, upd, hx]
@[simp] theorem setCheckField_dom (st : ConnState) (c : Nat) (v : Option (List String))
    (x : Nat) : ((st.setCheckField c v).conns x).shadowDom = (st.conns x).shadowDom := by
  by_cases hx : x = c <;> simp [ConnState.setCheckField, upd, hx]

theorem StInv_setShadowDom (st : ConnState) (c : Nat) (v : Option ShadowDom)
    (hv : ∀ d, v = some d → domWF d) (h : StInv st) : StInv (st.setShadowDom c v) := by
  obtain ⟨hl, hw, hc, hd⟩ := h
  refine ⟨?_, ?_, ?_, ?_⟩
  · intro a b' ht
    rw [setShadowDom_tgt] at ht
    exact LinkWF_transport (hl a b' ht) (le_refl _) (by simp) (by simp) (by simp)
      (by simp) (by simp) (by simp) (by simp) (by simp) (by simp)
  · intro x
    exact hw x
  · intro x
    obtain ⟨hc1, hc2, hc3⟩ := hc x
    exact ⟨fun o ho => by simpa using hc1 o ho, fun o ho => by simpa using hc2 o ho,
      fun o ho => by simpa using hc3 o ho⟩
  · intro x d hcd
    by_cases hx : x = c
    · subst hx
      rw [ConnState.setShadowDom_conns_same] at hcd
      exact hv d hcd
    · rw [ConnState.setShadowDom_conns_other st c x v hx] at hcd
      exact hd x d hcd

theorem StInv_clear_pair (st : ConnState) (c oc : Nat) (hInv : StInv st)
    (hT : (st.conns c).targetConnection = some oc) :
    StInv ((st.setTarget oc none).setTarget c none) := by
  obtain ⟨hl, hw, hc, hd⟩ := hInv
  have hM : (st.conns oc).targetConnection = some c := (hl c oc hT).1
  refine ⟨?_, ?_, ?_, ?_⟩
  · intro a b' ht
    by_cases hac : a = c
    · rw [hac, ConnState.setTarget_conns_same] at ht
      simp at ht
    · by_cases haoc : a = oc
      · have hocc : oc ≠ c := fun he => hac (haoc.trans he)
        rw [haoc, ConnState.setTarget_conns_other _ _ _ _ hocc,
          ConnState.setTarget_conns_same] at ht
        simp at ht
      · have ht0 : (st.conns a).targetConnection = some b' := by
          rw [ConnState.setTarget_conns_other _ _ _ _ hac,
            ConnState.setTarget_conns_other _ _ _ _ haoc] at ht
          exact ht
        have hwf := hl a b' ht0
        have hbc : b' ≠ c := by
          intro hbe
          subst hbe
          have := hwf.1
          rw [hT] at this
          exact haoc (Option.some_injective _ this).symm
        have hboc : b' ≠ oc := by
          intro hbe
          subst hbe
          have := hwf.1
          rw [hM] at this
          exact hac (Option.some_injective _ this).symm
        refine LinkWF_transport hwf (le_refl _) ?_ (by simp) (by simp) (by simp)
          (by simp) (by simp) (by simp) (by simp) (by simp)
        rw [ConnState.setTarget_conns_other _ _ _ _ hbc,
          ConnState.setTarget_conns_other _ _ _ _ hboc]
  · intro x
    exact hw x
  · intro x
    obtain ⟨hc1, hc2, hc3⟩ := hc x
    exact ⟨fun o ho => by simpa using hc1 o ho, fun o ho => by simpa using hc2 o ho,
      fun o ho => by simpa using hc3 o ho⟩
  · intro x d hcd
    rw [setTarget_dom, setTarget_dom] at hcd
    exact hd x d hcd

theorem StInv_link (st : ConnState) (p c : Nat) (hInv : StInv st)
    (hp : (st.conns p).targetConnection = none)
    (hc0 : (st.conns c).targetConnection = none)
    (hop : oppositeTy (st.conns p).type (st.conns c).type)
    (hip : infOwnOk st p) (hic : infOwnOk st c)
    (hbp : p < st.fresh) (hbc : c < st.fresh)
    (hsp : (st.conns p).sourceBlock < st.fresh)
    (hsc : (st.conns c).sourceBlock < st.fresh)
    (hdp : (st.conns p).sourceBlock ≠ (st.conns c).sourceBlock) :
    StInv ((st.setTarget p (some c)).setTarget c (some p)) := by
  obtain ⟨hl, hw, hcx, hd⟩ := hInv
  have hpc : p ≠ c := by
    intro he
    exact (oppositeTy_ne hop) (by rw [he])
  refine ⟨?_, ?_, ?_, ?_⟩
  · intro a b' ht
    by_cases hac : a = c
    · subst hac
      rw [ConnState.setTarget_conns_same] at ht
      simp at ht
      subst ht
      refine ⟨by rw [ConnState.setTarget_conns_other _ _ _ _ hpc,
          ConnState.setTarget_conns_same], ?_, ?_, ?_, ?_, ?_, ?_, ?_, ?_⟩
      · simpa using (by
          rcases hop with ⟨u, v⟩ | ⟨u, v⟩ | ⟨u, v⟩ | ⟨u, v⟩ <;>
            simp [oppositeTy, u, v])
      · exact infOwnOk_transport (by simp) (by simp) (by simp) (by simp) hic
      · exact infOwnOk_transport (by simp) (by simp) (by simp) (by simp) hip
      · simpa using hbc
      · simpa using hbp
      · simpa using hsc
      · simpa using hsp
      · simpa using hdp.symm
    · by_cases hap : a = p
      · subst hap
        rw [ConnState.setTarget_conns_other _ _ _ _ hpc,
          ConnState.setTarget_conns_same] at ht
        simp at ht
        subst ht
        refine ⟨by rw [ConnState.setTarget_conns_same], ?_, ?_, ?_, ?_, ?_, ?_, ?_, ?_⟩
        · simpa using hop
        · exact infOwnOk_transport (by simp) (by simp) (by simp) (by simp) hip
        · exact infOwnOk_transport (by simp) (by simp) (by simp) (by simp) hic
        · simpa using hbp
        · simpa using hbc
        · simpa using hsp
        · simpa using hsc
        · simpa using hdp
      · have ht0 : (st.conns a).targetConnection = some b' := by
          rw [ConnState.setTarget_conns_other _ _ _ _ hac,
            ConnState.setTarget_conns_other _ _ _ _ hap] at ht
          exact ht
        have hwf := hl a b' ht0
        have hbp' : b' ≠ p := by
          intro hbe
          subst hbe
          rw [hwf.1] at hp
          exact Option.noConfusion hp
        have hbc' : b' ≠ c := by
          intro hbe
          subst hbe
          rw [hwf.1] at hc0
          exact Option.noConfusion hc0
        refine LinkWF_transport hwf (le_refl _) ?_ (by simp) (by simp) (by simp)
          (by simp) (by simp) (by simp) (by simp) (by simp)
        rw [ConnState.setTarget_conns_other _ _ _ _ hbc',
          ConnState.setTarget_conns_other _ _ _ _ hbp']
  · intro x
    exact hw x
  · intro x
    obtain ⟨hc1, hc2, hc3⟩ := hcx x
    exact ⟨fun o ho => by simpa using hc1 o ho, fun o ho => by simpa using hc2 o ho,
      fun o ho => by simpa using hc3 o ho⟩
  · intro x d hcd
    rw [setTarget_dom, setTarget_dom] at hcd
    exact hd x d hcd

theorem domToBlock_conns_old (st : ConnState) (d : ShadowDom) (x : Nat)
    (h1 : x ≠ st.fresh + 1) (h2 : x ≠ st.fresh + 2) :
    (domToBlock st d).1.conns x = st.conns x := by
  by_cases ho : d.hasOutput <;> by_cases hp : d.hasPrevious <;>
    simp [domToBlock, upd, ho, hp, h1, h2]

theorem domToBlock_conns_out (st : ConnState) (d : ShadowDom)
    (ho : d.hasOutput = true) :
    (domToBlock st d).1.conns (st.fresh + 1) =
      { sourceBlock := st.fresh, type := ConnType.outputValue } := by
  have hne : st.fresh + 1 ≠ st.fresh + 2 := by omega
  by_cases hp : d.hasPrevious <;> simp [domToBlock, upd, ho, hp, hne]

theorem domToBlock_conns_out_none (st : ConnState) (d : ShadowDom)
    (ho : d.hasOutput = false) :
    (domToBlock st d).1.conns (st.fresh + 1) = st.conns (st.fresh + 1) := by
  have hne : st.fresh + 1 ≠ st.fresh + 2 := by omega
  by_cases hp : d.hasPrevious <;> simp [domToBlock, upd, ho, hp, hne]

theorem domToBlock_conns_prev (st : ConnState) (d : ShadowDom)
    (hp : d.hasPrevious = true) :
    (domToBlock st d).1.conns (st.fresh + 2) =
      { sourceBlock := st.fresh, type := ConnType.previousStatement } := by
  by_cases ho : d.hasOutput <;> simp [domToBlock, upd, ho, hp]

theorem domToBlock_conns_prev_none (st : ConnState) (d : ShadowDom)
    (hp : d.hasPrevious = false) :
    (domToBlock st d).1.conns (st.fresh + 2) = st.conns (st.fresh + 2) := by
  have hne : st.fresh + 2 ≠ st.fresh + 1 := by omega
  by_cases ho : d.hasOutput <;> simp [domToBlock, upd, ho, hp, hne]

theorem domToBlock_blocks_old (st : ConnState) (d : ShadowDom) (x : Nat)
    (h1 : x ≠ st.fresh) : (domToBlock st d).1.blocks x = st.blocks x := by
  simp [domToBlock, upd, h1]

theorem domToBlock_blocks_new (st : ConnState) (d : ShadowDom) :
    (domToBlock st d).1.blocks st.fresh =
      { outputConnection := if d.hasOutput then some (st.fresh + 1) else none,
        previousConnection := if d.hasPrevious then some (st.fresh + 2) else none,
        nextConnection := none, inputList := [], isShadow := true, parent := none,
        workspace := true, payload := d.payload } := by
  simp [domToBlock, upd]

theorem domToBlock_conns_tgt_none (st : ConnState) (d : ShadowDom) (x : Nat)
    (hx : (st.conns x).targetConnection = none) :
    ((domToBlock st d).1.conns x).targetConnection = none := by
  by_cases h1 : x = st.fresh + 1
  · subst h1
    by_cases ho : d.hasOutput
    · rw [domToBlock_conns_out st d ho]
    · rw [domToBlock_conns_out_none st d (Bool.not_eq_true _ ▸ ho)]
      exact hx
  · by_cases h2 : x = st.fresh + 2
    · subst h2
      by_cases hp : d.hasPrevious
      · rw [domToBlock_conns_prev st d hp]
      · rw [domToBlock_conns_prev_none st d (Bool.not_eq_true _ ▸ hp)]
        exact hx
    · rw [domToBlock_conns_old st d x h1 h2]
      exact hx

theorem StInv_domToBlock (st : ConnState) (d : ShadowDom) (hdwf : domWF d)
    (h : StInv st) : StInv (domToBlock st d).1 := by
  obtain ⟨hl, hw, hc, hd⟩ := h
  refine ⟨?_, ?_, ?_, ?_⟩
  · intro a b' ht
    have ht0 : (st.conns a).targetConnection = some b' := by
      by_cases h1 : a = st.fresh + 1
      · subst h1
        by_cases ho : d.hasOutput
        · rw [domToBlock_conns_out st d ho] at ht
          exact Option.noConfusion ht
        · rwa [domToBlock_conns_out_none st d (Bool.not_eq_true _ ▸ ho)] at ht
      · by_cases h2 : a = st.fresh + 2
        · subst h2
          by_cases hp : d.hasPrevious
          · rw [domToBlock_conns_prev st d hp] at ht
            exact Option.noConfusion ht
          · rwa [domToBlock_conns_prev_none st d (Bool.not_eq_true _ ▸ hp)] at ht
        · rwa [domToBlock_conns_old st d a h1 h2] at ht
    have hwf := hl a b' ht0
    have hba : a < st.fresh := hwf.2.2.2.2.1
    have hbb : b' < st.fresh := hwf.2.2.2.2.2.1
    have hsa : (st.conns a).sourceBlock < st.fresh := hwf.2.2.2.2.2.2.1
    have hsb : (st.conns b').sourceBlock < st.fresh := hwf.2.2.2.2.2.2.2.1
    have hca : (domToBlock st d).1.conns a = st.conns a :=
      domToBlock_conns_old st d a (by omega) (by omega)
    have hcb : (domToBlock st d).1.conns b' = st.conns b' :=
      domToBlock_conns_old st d b' (by omega) (by omega)
    refine LinkWF_transport hwf (by rw [domToBlock_fresh]; omega) (by rw [hcb])
      (by rw [hca]) (by rw [hcb]) (by rw [hca]) (by rw [hcb]) ?_ ?_ ?_ ?_ <;>
      rw [domToBlock_blocks_old st d _ (by omega)]
  · intro x
    by_cases hx : x = st.fresh
    · subst hx
      rw [domToBlock_blocks_new]
      unfold domWF at hdwf
      unfold blockWF
      by_cases ho : d.hasOutput
      · by_cases hp : d.hasPrevious
        · exact absurd ⟨ho, hp⟩ hdwf
        · simp [ho, hp]
      · simp [ho]
    · rw [domToBlock_blocks_old st d x hx]
      exact hw x
  · intro x
    by_cases hx : x = st.fresh
    · subst hx
      refine ⟨fun o ho => ?_, fun o ho => ?_, fun o ho => ?_⟩
      · rw [domToBlock_blocks_new] at ho
        by_cases hop : d.hasOutput
        · simp [hop] at ho
          subst ho
          rw [domToBlock_conns_out st d hop]
          refine ⟨by rw [domToBlock_fresh]; omega, rfl, rfl⟩
        · simp [hop] at ho
      · rw [domToBlock_blocks_new] at ho
        by_cases hpp : d.hasPrevious
        · simp [hpp] at ho
          subst ho
          rw [domToBlock_conns_prev st d hpp]
          refine ⟨by rw [domToBlock_fresh]; omega, rfl, rfl⟩
        · simp [hpp] at ho
      · rw [domToBlock_blocks_new] at ho
        simp at ho
    · obtain ⟨hc1, hc2, hc3⟩ := hc x
      refine ⟨fun o ho => ?_, fun o ho => ?_, fun o ho => ?_⟩
      · rw [domToBlock_blocks_old st d x hx] at ho
        obtain ⟨hb1, hb2, hb3⟩ := hc1 o ho
        rw [domToBlock_conns_old st d o (by omega) (by omega)]
        exact ⟨by rw [domToBlock_fresh]; omega, hb2, hb3⟩
      · rw [domToBlock_blocks_old st d x hx] at ho
        obtain ⟨hb1, hb2, hb3⟩ := hc2 o ho
        rw [domToBlock_conns_old st d o (by omega) (by omega)]
        exact ⟨by rw [domToBlock_fresh]; omega, hb2, hb3⟩
      · rw [domToBlock_blocks_old st d x hx] at ho
        obtain ⟨hb1, hb2, hb3⟩ := hc3 o ho
        rw [domToBlock_conns_old st d o (by omega) (by omega)]
        exact ⟨by rw [domToBlock_fresh]; omega, hb2, hb3⟩
  · intro x dd hcd
    by_cases h1 : x = st.fresh + 1
    · subst h1
      by_cases ho : d.hasOutput
      · rw [domToBlock_conns_out st d ho] at hcd
        exact Option.noConfusion hcd
      · rw [domToBlock_conns_out_none st d (Bool.not_eq_true _ ▸ ho)] at hcd
        exact hd _ dd hcd
    · by_cases h2 : x = st.fresh + 2
      · subst h2
        by_cases hp : d.hasPrevious
        · rw [domToBlock_conns_prev st d hp] at hcd
          exact Option.noConfusion hcd
        · rw [domToBlock_conns_prev_none st d (Bool.not_eq_true _ ▸ hp)] at hcd
          exact hd _ dd hcd
      · rw [domToBlock_conns_old st d x h1 h2] at hcd
        exact hd x dd hcd

theorem StInv_of_pointwise {st st' : ConnState} (hInv : StInv st)
    (hfresh : st.fresh ≤ st'.fresh)
    (hct : ∀ x, (st'.conns x).targetConnection = (st.conns x).targetConnection)
    (hcy : ∀ x, (st'.conns x).type = (st.conns x).type)
    (hcs : ∀ x, (st'.conns x).sourceBlock = (st.conns x).sourceBlock)
    (hcd : ∀ x, (st'.conns x).shadowDom = (st.conns x).shadowDom)
    (hbo : ∀ x, (st'.blocks x).outputConnection = (st.blocks x).outputConnection)
    (hbp : ∀ x, (st'.blocks x).previousConnection = (st.blocks x).previousConnection)
    (hbn : ∀ x, (st'.blocks x).nextConnection = (st.blocks x).nextConnection) :
    StInv st' := by
  obtain ⟨hl, hw, hc, hd⟩ := hInv
  refine ⟨?_, ?_, ?_, ?_⟩
  · intro a b' ht
    rw [hct a] at ht
    exact LinkWF_transport (hl a b' ht) hfresh (hct b') (hcy a) (hcy b') (hcs a)
      (hcs b') (hbo _) (hbp _) (hbo _) (hbp _)
  · intro x
    have hbw := hw x
    unfold blockWF at hbw ⊢
    rw [hbo x, hbp x]
    exact hbw
  · intro x
    obtain ⟨hc1, hc2, hc3⟩ := hc x
    refine ⟨fun o ho => ?_, fun o ho => ?_, fun o ho => ?_⟩
    · rw [hbo x] at ho
      obtain ⟨u1, u2, u3⟩ := hc1 o ho
      exact ⟨lt_of_lt_of_le u1 hfresh, (hcs o).trans u2, (hcy o).trans u3⟩
    · rw [hbp x] at ho
      obtain ⟨u1, u2, u3⟩ := hc2 o ho
      exact ⟨lt_of_lt_of_le u1 hfresh, (hcs o).trans u2, (hcy o).trans u3⟩
    · rw [hbn x] at ho
      obtain ⟨u1, u2, u3⟩ := hc3 o ho
      exact ⟨lt_of_lt_of_le u1 hfresh, (hcs o).trans u2, (hcy o).trans u3⟩
  · intro x dd hcdx
    rw [hcd x] at hcdx
    exact hd x dd hcdx

theorem connect_aux_vacated_spec (f : Nat) (κ : Checker) (p c : Nat)
    (st st' : ConnState) (hp : (st.conns p).targetConnection = none)
    (hc : (st.conns c).targetConnection = none)
    (h : connect_ f κ p c st = Except.ok st') :
    st' = (if st.eventsEnabled then
        recordFire (((st.setTarget p (some c)).setTarget c (some p)).setBlockParent
          (st.conns c).sourceBlock (some ((st.conns p).sourceBlock)))
          (mkMove st ((st.conns c).sourceBlock))
      else ((st.setTarget p (some c)).setTarget c (some p)).setBlockParent
        (st.conns c).sourceBlock (some ((st.conns p).sourceBlock))) := by
  cases f with
  | zero => simp [connect_] at h
  | succ f1 =>
    have h1 : isConnected st c = false := by simp [isConnected, hc]
    simp only [connect_, h1, Bool.false_eq_true, if_false, hp] at h
    simp only [connectReciprocally] at h
    by_cases he : st.eventsEnabled = true
    · simp only [he, if_true] at h ⊢
      cases h
      rfl
    · simp only [Bool.not_eq_true] at he
      simp only [he, Bool.false_eq_true, if_false] at h ⊢
      cases h
      rfl

theorem connect_aux_vacated_core (f : Nat) (κ : Checker) (p c : Nat)
    (st st' : ConnState) (hp : (st.conns p).targetConnection = none)
    (hc : (st.conns c).targetConnection = none)
    (h : connect_ f κ p c st = Except.ok st') :
    st'.conns = ((st.setTarget p (some c)).setTarget c (some p)).conns ∧
    st'.blocks = (((st.setTarget p (some c)).setTarget c (some p)).setBlockParent
      (st.conns c).sourceBlock (some ((st.conns p).sourceBlock))).blocks ∧
    st'.fresh = st.fresh ∧ st'.pendingBumps = st.pendingBumps ∧
    st'.eventsEnabled = st.eventsEnabled ∧ st'.recordUndo = st.recordUndo ∧
    st'.eventGroup = st.eventGroup ∧ st'.nextGroup = st.nextGroup := by
  have he := connect_aux_vacated_spec f κ p c st st' hp hc h
  by_cases hev : st.eventsEnabled = true <;>
    simp only [hev, Bool.false_eq_true, if_true, if_false,
      Bool.not_eq_true] at he <;>
    subst he <;>
    refine ⟨rfl, rfl, rfl, rfl, rfl, rfl, rfl, rfl⟩

theorem connect_vacated_core (f : Nat) (κ : Checker) (a b : Nat)
    (st st' : ConnState)
    (ha : (st.conns a).targetConnection = none)
    (hb : (st.conns b).targetConnection = none)
    (h : connect f κ a b st = Except.ok st') :
    (κ st a b = false ∧ st' = st) ∨
    (κ st a b = true ∧
      ((isSuperior st a = true ∧
        st'.conns = ((st.setTarget a (some b)).setTarget b (some a)).conns ∧
        st'.blocks = (((st.setTarget a (some b)).setTarget b (some a)).setBlockParent
          (st.conns b).sourceBlock (some ((st.conns a).sourceBlock))).blocks) ∨
       (isSuperior st a = false ∧
        st'.conns = ((st.setTarget b (some a)).setTarget a (some b)).conns ∧
        st'.blocks = (((st.setTarget b (some a)).setTarget a (some b)).setBlockParent
          (st.conns a).sourceBlock (some ((st.conns b).sourceBlock))).blocks)) ∧
      st'.fresh = st.fresh ∧ st'.pendingBumps = st.pendingBumps ∧
      st'.eventsEnabled = st.eventsEnabled ∧ st'.recordUndo = st.recordUndo ∧
      st'.eventGroup = st.eventGroup) := by
  cases f with
  | zero => simp [connect] at h
  | succ f1 =>
    have hne : ¬((st.conns a).targetConnection = some b) := by
      rw [ha]
      exact fun hh => Option.noConfusion hh
    simp only [connect, if_neg hne] at h
    by_cases hk : κ st a b = true
    · simp only [hk, if_true] at h
      refine Or.inr ⟨hk, ?_⟩
      rcases hg : st.eventGroup with _ | g0
      · simp only [ConnState.getGroup, hg, Option.isNone_none, if_true] at h
        cases hx : (if isSuperior st.setGroupNew a then connect_ f1 κ a b st.setGroupNew
            else connect_ f1 κ b a st.setGroupNew) with
        | error e => rw [hx] at h; exact Except.noConfusion h
        | ok st2 =>
          rw [hx] at h
          cases h
          by_cases hs : isSuperior st a = true
          · rw [if_pos (by simpa using hs)] at hx
            obtain ⟨e1, e2, e3, e4, e5, e6, e7, e8⟩ :=
              connect_aux_vacated_core f1 κ a b st.setGroupNew _
                (by simpa using ha) (by simpa using hb) hx
            exact ⟨Or.inl ⟨hs, e1, e2⟩, e3, e4, e5, e6, by simp [hg]⟩
          · rw [if_neg (by simpa using hs)] at hx
            obtain ⟨e1, e2, e3, e4, e5, e6, e7, e8⟩ :=
              connect_aux_vacated_core f1 κ b a st.setGroupNew _
                (by simpa using hb) (by simpa using ha) hx
            refine ⟨Or.inr ⟨Bool.not_eq_true _ ▸ hs, e1, e2⟩, e3, e4, e5, e6, by simp [hg]⟩
      · simp only [ConnState.getGroup, hg, Option.isNone_some, Bool.false_eq_true,
          if_false] at h
        cases hx : (if isSuperior st a then connect_ f1 κ a b st
            else connect_ f1 κ b a st) with
        | error e => rw [hx] at h; exact Except.noConfusion h
        | ok st2 =>
          rw [hx] at h
          cases h
          by_cases hs : isSuperior st a = true
          · rw [if_pos hs] at hx
            obtain ⟨e1, e2, e3, e4, e5, e6, e7, e8⟩ :=
              connect_aux_vacated_core f1 κ a b st _ ha hb hx
            exact ⟨Or.inl ⟨hs, e1, e2⟩, e3, e4, e5, e6, e7.trans hg⟩
          · rw [if_neg hs] at hx
            obtain ⟨e1, e2, e3, e4, e5, e6, e7, e8⟩ :=
              connect_aux_vacated_core f1 κ b a st _ hb ha hx
            exact ⟨Or.inr ⟨Bool.not_eq_true _ ▸ hs, e1, e2⟩, e3, e4, e5, e6, e7.trans hg⟩
    · simp only [Bool.not_eq_true] at hk
      simp only [hk, Bool.false_eq_true, if_false] at h
      cases h
      exact Or.inl ⟨hk, rfl⟩

theorem respawn_post_facts (κ : Checker) (st : ConnState) (dom : ShadowDom)
    (q infc : Nat) (st' : ConnState)
    (hqb : q < st.fresh) (hq : (st.conns q).targetConnection = none)
    (hdom : (st.conns q).shadowDom = some dom)
    (hinfc1 : st.fresh < infc) (hinfc2 : infc < st.fresh + 3)
    (hsrcinfc : ((domToBlock st dom).1.conns infc).sourceBlock = st.fresh)
    (hk : κ (domToBlock st dom).1 q infc = true)
    (e1 : st'.conns = (((domToBlock st dom).1.setTarget q (some infc)).setTarget
      infc (some q)).conns)
    (e2 : st'.blocks = ((((domToBlock st dom).1.setTarget q (some infc)).setTarget
      infc (some q)).setBlockParent (((domToBlock st dom).1.conns infc).sourceBlock)
      (some (((domToBlock st dom).1.conns q).sourceBlock))).blocks)
    (e3 : st'.fresh = (domToBlock st dom).1.fresh)
    (e4 : st'.pendingBumps = (domToBlock st dom).1.pendingBumps)
    (e5 : st'.eventsEnabled = (domToBlock st dom).1.eventsEnabled)
    (e6 : st'.recordUndo = (domToBlock st dom).1.recordUndo) :
    (∀ x, x < st.fresh → x ≠ q →
      (st'.conns x).targetConnection = (st.conns x).targetConnection) ∧
    ((st'.conns q).targetConnection = none ∨
      ∃ nc, st.fresh ≤ nc ∧ (st'.conns q).targetConnection = some nc) ∧
    (∀ x, x < st.fresh →
      (st'.conns x).shadowDom = (st.conns x).shadowDom ∧
      (st'.conns x).type = (st.conns x).type ∧
      (st'.conns x).sourceBlock = (st.conns x).sourceBlock ∧
      (st'.conns x).check = (st.conns x).check ∧
      (st'.conns x).disposed = (st.conns x).disposed) ∧
    (∀ x, x < st.fresh → st'.blocks x = st.blocks x) ∧
    st.fresh ≤ st'.fresh ∧
    st'.pendingBumps = st.pendingBumps ∧
    st'.eventsEnabled = st.eventsEnabled ∧ st'.recordUndo = st.recordUndo ∧
    ((st.conns q).shadowDom = none → st' = st) ∧
    (StInv st → CheckerOk κ → StInv st') := by
  have hqi : q ≠ infc := by omega
  have hold : ∀ x, x < st.fresh → (domToBlock st dom).1.conns x = st.conns x :=
    fun x hx => domToBlock_conns_old st dom x (by omega) (by omega)
  have holdb : ∀ x, x < st.fresh → (domToBlock st dom).1.blocks x = st.blocks x :=
    fun x hx => domToBlock_blocks_old st dom x (by omega)
  refine ⟨?_, ?_, ?_, ?_, ?_, ?_, ?_, ?_, ?_, ?_⟩
  · intro x hx hxq
    have hxi : x ≠ infc := by omega
    rw [e1, ConnState.setTarget_conns_other _ _ _ _ hxi,
      ConnState.setTarget_conns_other _ _ _ _ hxq, hold x hx]
  · refine Or.inr ⟨infc, by omega, ?_⟩
    rw [e1, ConnState.setTarget_conns_other _ _ _ _ hqi,
      ConnState.setTarget_conns_same]
  · intro x hx
    rw [e1]
    simp only [setTarget_dom, setTarget_type, setTarget_src, setTarget_check,
      setTarget_disposed]
    rw [hold x hx]
    exact ⟨rfl, rfl, rfl, rfl, rfl⟩
  · intro x hx
    rw [e2, hsrcinfc]
    rw [ConnState.setBlockParent_blocks_other _ _ _ _ (by omega : x ≠ st.fresh)]
    simp only [ConnState.setTarget_blocks]
    exact holdb x hx
  · rw [e3, domToBlock_fresh]
    omega
  · rw [e4, domToBlock_pendingBumps]
  · rw [e5, domToBlock_eventsEnabled]
  · rw [e6, domToBlock_recordUndo]
  · intro hn
    rw [hn] at hdom
    exact Option.noConfusion hdom
  · intro hi hck
    have hi1 : StInv (domToBlock st dom).1 :=
      StInv_domToBlock st dom (hi.2.2.2 q dom hdom) hi
    have hq1 : ((domToBlock st dom).1.conns q).targetConnection = none :=
      domToBlock_conns_tgt_none st dom q hq
    have hpt : ((domToBlock st dom).1.conns infc).targetConnection = none := by
      rcases (by omega : infc = st.fresh + 1 ∨ infc = st.fresh + 2) with he | he
      · subst he
        by_cases ho : dom.hasOutput
        · rw [domToBlock_conns_out st dom ho]
        · rw [domToBlock_conns_out_none st dom (Bool.not_eq_true _ ▸ ho)]
          rcases hhh : (st.conns (st.fresh + 1)).targetConnection with _ | y
          · rfl
          · have := (hi.1 _ _ hhh).2.2.2.2.1
            omega
      · subst he
        by_cases hp : dom.hasPrevious
        · rw [domToBlock_conns_prev st dom hp]
        · rw [domToBlock_conns_prev_none st dom (Bool.not_eq_true _ ▸ hp)]
          rcases hhh : (st.conns (st.fresh + 2)).targetConnection with _ | y
          · rfl
          · have := (hi.1 _ _ hhh).2.2.2.2.1
            omega
    obtain ⟨o1, o2, o3, o4, o5, o6, o7, o8⟩ := hck _ q infc hk
    have hi2 := StInv_link (domToBlock st dom).1 q infc hi1 hq1 hpt o1 o2 o3 o4 o5 o6 o7 o8
    have hi3 := StInv_setBlockParent
      (((domToBlock st dom).1.setTarget q (some infc)).setTarget infc (some q))
      (((domToBlock st dom).1.conns infc).sourceBlock)
      (some (((domToBlock st dom).1.conns q).sourceBlock)) hi2
    refine StInv_of_pointwise hi3 ?_ ?_ ?_ ?_ ?_ ?_ ?_ ?_
    · rw [e3]
      simp
    · intro x
      rw [e1]
      rfl
    · intro x
      rw [e1]
      rfl
    · intro x
      rw [e1]
      rfl
    · intro x
      rw [e1]
      rfl
    · intro x
      rw [e2]
    · intro x
      rw [e2]
    · intro x
      rw [e2]

theorem respawn_vacated_spec (f : Nat) (κ : Checker) (q : Nat) (st st' : ConnState)
    (hq : (st.conns q).targetConnection = none) (hqb : q < st.fresh)
    (hsup : isSuperior st q = true)
    (h : respawnShadow f κ q st = Except.ok st') :
    (∀ x, x < st.fresh → x ≠ q →
      (st'.conns x).targetConnection = (st.conns x).targetConnection) ∧
    ((st'.conns q).targetConnection = none ∨
      ∃ nc, st.fresh ≤ nc ∧ (st'.conns q).targetConnection = some nc) ∧
    (∀ x, x < st.fresh →
      (st'.conns x).shadowDom = (st.conns x).shadowDom ∧
      (st'.conns x).type = (st.conns x).type ∧
      (st'.conns x).sourceBlock = (st.conns x).sourceBlock ∧
      (st'.conns x).check = (st.conns x).check ∧
      (st'.conns x).disposed = (st.conns x).disposed) ∧
    (∀ x, x < st.fresh → st'.blocks x = st.blocks x) ∧
    st.fresh ≤ st'.fresh ∧
    st'.pendingBumps = st.pendingBumps ∧
    st'.eventsEnabled = st.eventsEnabled ∧ st'.recordUndo = st.recordUndo ∧
    ((st.conns q).shadowDom = none → st' = st) ∧
    (StInv st → CheckerOk κ → StInv st') := by
  cases f with
  | zero => simp [respawnShadow] at h
  | succ f1 =>
    simp only [respawnShadow] at h
    split at h
    next dom hdom =>
      split at h
      next hcond =>
        have hold : ∀ x, x < st.fresh → (domToBlock st dom).1.conns x = st.conns x :=
          fun x hx => domToBlock_conns_old st dom x (by omega) (by omega)
        have holdb : ∀ x, x < st.fresh →
            (domToBlock st dom).1.blocks x = st.blocks x :=
          fun x hx => domToBlock_blocks_old st dom x (by omega)
        have hq1 : ((domToBlock st dom).1.conns q).targetConnection = none :=
          domToBlock_conns_tgt_none st dom q hq
        have hss : isSuperior (domToBlock st dom).1 q = true := by
          unfold isSuperior at hsup ⊢
          rw [hold q hqb]
          exact hsup
        split at h
        next out hout =>
          rw [domToBlock_snd, domToBlock_blocks_new] at hout
          by_cases ho : dom.hasOutput
          · simp only [ho, if_true] at hout
            have hout2 : out = st.fresh + 1 := (Option.some_injective _ hout).symm
            subst hout2
            have hpt : ((domToBlock st dom).1.conns
                (st.fresh + 1)).targetConnection = none := by
              rw [domToBlock_conns_out st dom ho]
            rcases connect_vacated_core f1 κ q (st.fresh + 1) (domToBlock st dom).1
                st' hq1 hpt h with ⟨hk, rfl⟩ | ⟨hk, hrt, e3, e4, e5, e6, e7⟩
            · refine ⟨fun x hx hxq => by rw [hold x hx], Or.inl hq1,
                fun x hx => by rw [hold x hx]; exact ⟨rfl, rfl, rfl, rfl, rfl⟩,
                fun x hx => holdb x hx, by rw [domToBlock_fresh]; omega,
                by simp, by simp, by simp,
                fun hn => Option.noConfusion (hdom.symm.trans hn),
                fun hi hck => StInv_domToBlock st dom (hi.2.2.2 q dom hdom) hi⟩
            · rcases hrt with ⟨hs, e1, e2⟩ | ⟨hs, e1, e2⟩
              · exact respawn_post_facts κ st dom q (st.fresh + 1) st' hqb hq hdom
                  (by omega) (by omega)
                  (by rw [domToBlock_conns_out st dom ho]) hk e1 e2 e3 e4 e5 e6
              · rw [hs] at hss
                exact Bool.noConfusion hss
          · simp only [ho, Bool.false_eq_true, if_false] at hout
            exact Option.noConfusion hout
        next hout =>
          split at h
          next prev hprev =>
            rw [domToBlock_snd, domToBlock_blocks_new] at hprev
            by_cases hp : dom.hasPrevious
            · simp only [hp, if_true] at hprev
              have hprev2 : prev = st.fresh + 2 := (Option.some_injective _ hprev).symm
              subst hprev2
              have hpt : ((domToBlock st dom).1.conns
                  (st.fresh + 2)).targetConnection = none := by
                rw [domToBlock_conns_prev st dom hp]
              rcases connect_vacated_core f1 κ q (st.fresh + 2) (domToBlock st dom).1
                  st' hq1 hpt h with ⟨hk, rfl⟩ | ⟨hk, hrt, e3, e4, e5, e6, e7⟩
              · refine ⟨fun x hx hxq => by rw [hold x hx], Or.inl hq1,
                  fun x hx => by rw [hold x hx]; exact ⟨rfl, rfl, rfl, rfl, rfl⟩,
                  fun x hx => holdb x hx, by rw [domToBlock_fresh]; omega,
                  by simp, by simp, by simp,
                  fun hn => Option.noConfusion (hdom.symm.trans hn),
                  fun hi hck => StInv_domToBlock st dom (hi.2.2.2 q dom hdom) hi⟩
              · rcases hrt with ⟨hs, e1, e2⟩ | ⟨hs, e1, e2⟩
                · exact respawn_post_facts κ st dom q (st.fresh + 2) st' hqb hq hdom
                    (by omega) (by omega)
                    (by rw [domToBlock_conns_prev st dom hp]) hk e1 e2 e3 e4 e5 e6
                · rw [hs] at hss
                  exact Bool.noConfusion hss
            · simp only [hp, Bool.false_eq_true, if_false] at hprev
              exact Option.noConfusion hprev
          next hprev => exact Except.noConfusion h
      next hcond =>
        cases h
        exact ⟨fun x _ _ => rfl, Or.inl hq, fun x _ => ⟨rfl, rfl, rfl, rfl, rfl⟩,
          fun x _ => rfl, le_refl _, rfl, rfl, rfl, fun _ => rfl, fun hi _ => hi⟩
    next hdom =>
      cases h
      exact ⟨fun x _ _ => rfl, Or.inl hq, fun x _ => ⟨rfl, rfl, rfl, rfl, rfl⟩,
        fun x _ => rfl, le_refl _, rfl, rfl, rfl, fun _ => rfl, fun hi _ => hi⟩

theorem disconnectInternal_core (st : ConnState) (c pb cb oc : Nat)
    (hT : (st.conns c).targetConnection = some oc) (st' : ConnState)
    (h : disconnectInternal st c pb cb = Except.ok st') :
    st'.conns = ((st.setTarget oc none).setTarget c none).conns ∧
    st'.blocks = (((st.setTarget oc none).setTarget c none).setBlockParent
      cb none).blocks ∧
    st'.fresh = st.fresh ∧ st'.pendingBumps = st.pendingBumps ∧
    st'.eventsEnabled = st.eventsEnabled ∧ st'.recordUndo = st.recordUndo ∧
    st'.eventGroup = st.eventGroup ∧ st'.nextGroup = st.nextGroup := by
  simp only [disconnectInternal] at h
  split at h
  next heq =>
    rw [hT] at heq
    exact Option.noConfusion heq
  next oc' heq =>
    have hoc : oc' = oc := Option.some_injective _ (heq.symm.trans hT)
    subst hoc
    cases h
    by_cases hev : st.eventsEnabled = true
    · simp only [hev, if_true]
      refine ⟨?_, ?_, ?_, ?_, ?_, ?_, ?_, ?_⟩ <;> trivial
    · simp only [Bool.not_eq_true] at hev
      simp only [hev, Bool.false_eq_true, if_false]
      refine ⟨?_, ?_, ?_, ?_, ?_, ?_, ?_, ?_⟩ <;> trivial

theorem disconnect_assemble (κ : Checker) (st st2 st3 st' : ConnState)
    (c oc pside iside : Nat)
    (hT : (st.conns c).targetConnection = some oc)
    (hcb : c < st.fresh) (hocb : oc < st.fresh) (hneq : c ≠ oc)
    (hsides : (pside = c ∧ iside = oc) ∨ (pside = oc ∧ iside = c))
    (hc2 : st2.conns = ((st.setTarget oc none).setTarget c none).conns)
    (hb2 : st2.blocks = (((st.setTarget oc none).setTarget c none).setBlockParent
      ((st.conns iside).sourceBlock) none).blocks)
    (hf2 : st2.fresh = st.fresh) (hp2 : st2.pendingBumps = st.pendingBumps)
    (he2 : st2.eventsEnabled = st.eventsEnabled)
    (hu2 : st2.recordUndo = st.recordUndo)
    (hr1 : ∀ x, x < st2.fresh → x ≠ pside →
      (st3.conns x).targetConnection = (st2.conns x).targetConnection)
    (hr2 : (st3.conns pside).targetConnection = none ∨
      ∃ nc, st2.fresh ≤ nc ∧ (st3.conns pside).targetConnection = some nc)
    (hr3 : ∀ x, x < st2.fresh →
      (st3.conns x).shadowDom = (st2.conns x).shadowDom ∧
      (st3.conns x).type = (st2.conns x).type ∧
      (st3.conns x).sourceBlock = (st2.conns x).sourceBlock ∧
      (st3.conns x).check = (st2.conns x).check ∧
      (st3.conns x).disposed = (st2.conns x).disposed)
    (hr4 : ∀ x, x < st2.fresh → st3.blocks x = st2.blocks x)
    (hr5 : st2.fresh ≤ st3.fresh)
    (hr6 : st3.pendingBumps = st2.pendingBumps)
    (hr7 : st3.eventsEnabled = st2.eventsEnabled)
    (hr8 : st3.recordUndo = st2.recordUndo)
    (hr9 : (st2.conns pside).shadowDom = none → st3 = st2)
    (hr10 : StInv st2 → CheckerOk κ → StInv st3)
    (hs1 : st'.conns = st3.conns) (hs2 : st'.blocks = st3.blocks)
    (hs3 : st'.fresh = st3.fresh) (hs4 : st'.pendingBumps = st3.pendingBumps)
    (hs5 : st'.eventsEnabled = st3.eventsEnabled)
    (hs6 : st'.recordUndo = st3.recordUndo) :
    (st'.conns iside).targetConnection = none ∧
    ((st'.conns pside).targetConnection = none ∨
      ∃ nc, st.fresh ≤ nc ∧ (st'.conns pside).targetConnection = some nc) ∧
    ((st.conns pside).shadowDom = none → (st'.conns pside).targetConnection = none) ∧
    (∀ x, x < st.fresh → x ≠ c → x ≠ oc →
      (st'.conns x).targetConnection = (st.conns x).targetConnection) ∧
    (∀ x, x < st.fresh →
      (st'.conns x).shadowDom = (st.conns x).shadowDom ∧
      (st'.conns x).type = (st.conns x).type ∧
      (st'.conns x).sourceBlock = (st.conns x).sourceBlock ∧
      (st'.conns x).check = (st.conns x).check ∧
      (st'.conns x).disposed = (st.conns x).disposed) ∧
    (∀ x, x < st.fresh → x ≠ (st.conns iside).sourceBlock →
      st'.blocks x = st.blocks x) ∧
    ((st.conns iside).sourceBlock < st.fresh →
      st'.blocks ((st.conns iside).sourceBlock) =
        { st.blocks ((st.conns iside).sourceBlock) with parent := none }) ∧
    st.fresh ≤ st'.fresh ∧
    st'.pendingBumps = st.pendingBumps ∧
    st'.eventsEnabled = st.eventsEnabled ∧ st'.recordUndo = st.recordUndo ∧
    (StInv st → CheckerOk κ → StInv st') := by
  have hpi : pside ≠ iside := by
    rcases hsides with ⟨h1, h2⟩ | ⟨h1, h2⟩ <;> rw [h1, h2] <;>
      first | exact hneq | exact hneq.symm
  have hib : iside < st.fresh := by
    rcases hsides with ⟨h1, h2⟩ | ⟨h1, h2⟩ <;> rw [h2] <;> assumption
  have hpb : pside < st.fresh := by
    rcases hsides with ⟨h1, h2⟩ | ⟨h1, h2⟩ <;> rw [h1] <;> assumption
  have hchain_i : (st2.conns iside).targetConnection = none := by
    rw [hc2]
    rcases hsides with ⟨h1, h2⟩ | ⟨h1, h2⟩ <;> rw [h2]
    · rw [ConnState.setTarget_conns_other _ _ _ _ (Ne.symm hneq),
        ConnState.setTarget_conns_same]
    · rw [ConnState.setTarget_conns_same]
  have hchain_p : (st2.conns pside).targetConnection = none := by
    rw [hc2]
    rcases hsides with ⟨h1, h2⟩ | ⟨h1, h2⟩ <;> rw [h1]
    · rw [ConnState.setTarget_conns_same]
    · rw [ConnState.setTarget_conns_other _ _ _ _ (Ne.symm hneq),
        ConnState.setTarget_conns_same]
  refine ⟨?_, ?_, ?_, ?_, ?_, ?_, ?_, ?_, ?_, ?_, ?_, ?_⟩
  · rw [hs1, hr1 iside (by omega) (Ne.symm hpi)]
    exact hchain_i
  · rcases hr2 with h2 | ⟨nc, hnc1, hnc2⟩
    · exact Or.inl (by rw [hs1]; exact h2)
    · exact Or.inr ⟨nc, by omega, by rw [hs1]; exact hnc2⟩
  · intro hdn
    have : (st2.conns pside).shadowDom = none := by
      rw [hc2, setTarget_dom, setTarget_dom]
      exact hdn
    rw [hs1, hr9 this]
    exact hchain_p
  · intro x hx hxc hxoc
    rw [hs1, hr1 x (by omega) (by rcases hsides with ⟨h1, _⟩ | ⟨h1, _⟩ <;> rw [h1] <;>
      assumption), hc2, ConnState.setTarget_conns_other _ _ _ _ hxc,
      ConnState.setTarget_conns_other _ _ _ _ hxoc]
  · intro x hx
    have h3 := hr3 x (by omega)
    rw [hs1]
    refine ⟨?_, ?_, ?_, ?_, ?_⟩
    · rw [h3.1, hc2, setTarget_dom, setTarget_dom]
    · rw [h3.2.1, hc2, setTarget_type, setTarget_type]
    · rw [h3.2.2.1, hc2, setTarget_src, setTarget_src]
    · rw [h3.2.2.2.1, hc2, setTarget_check, setTarget_check]
    · rw [h3.2.2.2.2, hc2, setTarget_disposed, setTarget_disposed]
  · intro x hx hxs
    rw [hs2, hr4 x (by omega), hb2,
      ConnState.setBlockParent_blocks_other _ _ _ _ hxs]
    rfl
  · intro hsb
    rw [hs2, hr4 _ (by omega), hb2, ConnState.setBlockParent_blocks_same]
    rfl
  · omega
  · rw [hs4, hr6, hp2]
  · rw [hs5, hr7, he2]
  · rw [hs6, hr8, hu2]
  · intro hi hck
    have hi2 : StInv st2 := by
      have hiA := StInv_clear_pair st c oc hi hT
      have hiB := StInv_setBlockParent ((st.setTarget oc none).setTarget c none)
        ((st.conns iside).sourceBlock) none hiA
      refine StInv_of_pointwise hiB ?_ ?_ ?_ ?_ ?_ ?_ ?_ ?_
      · simp [hf2]
      · intro x
        rw [hc2]
        rfl
      · intro x
        rw [hc2]
        rfl
      · intro x
        rw [hc2]
        rfl
      · intro x
        rw [hc2]
        rfl
      · intro x
        rw [hb2]
      · intro x
        rw [hb2]
      · intro x
        rw [hb2]
    have hi3 : StInv st3 := hr10 hi2 hck
    refine StInv_of_pointwise hi3 (by omega) ?_ ?_ ?_ ?_ ?_ ?_ ?_
    · intro x
      rw [hs1]
    · intro x
      rw [hs1]
    · intro x
      rw [hs1]
    · intro x
      rw [hs1]
    · intro x
      rw [hs2]
    · intro x
      rw [hs2]
    · intro x
      rw [hs2]

theorem disconnect_spec (f : Nat) (κ : Checker) (c oc pside iside : Nat)
    (st st' : ConnState)
    (hT : (st.conns c).targetConnection = some oc)
    (hM : (st.conns oc).targetConnection = some c)
    (hroute : (isSuperior st c = true ∧ pside = c ∧ iside = oc) ∨
      (isSuperior st c = false ∧ pside = oc ∧ iside = c))
    (hPsup : isSuperior st pside = true)
    (hcb : c < st.fresh) (hocb : oc < st.fresh) (hneq : c ≠ oc)
    (h : disconnect f κ c st = Except.ok st') :
    (st'.conns iside).targetConnection = none ∧
    ((st'.conns pside).targetConnection = none ∨
      ∃ nc, st.fresh ≤ nc ∧ (st'.conns pside).targetConnection = some nc) ∧
    ((st.conns pside).shadowDom = none → (st'.conns pside).targetConnection = none) ∧
    (∀ x, x < st.fresh → x ≠ c → x ≠ oc →
      (st'.conns x).targetConnection = (st.conns x).targetConnection) ∧
    (∀ x, x < st.fresh →
      (st'.conns x).shadowDom = (st.conns x).shadowDom ∧
      (st'.conns x).type = (st.conns x).type ∧
      (st'.conns x).sourceBlock = (st.conns x).sourceBlock ∧
      (st'.conns x).check = (st.conns x).check ∧
      (st'.conns x).disposed = (st.conns x).disposed) ∧
    (∀ x, x < st.fresh → x ≠ (st.conns iside).sourceBlock →
      st'.blocks x = st.blocks x) ∧
    ((st.conns iside).sourceBlock < st.fresh →
      st'.blocks ((st.conns iside).sourceBlock) =
        { st.blocks ((st.conns iside).sourceBlock) with parent := none }) ∧
    st.fresh ≤ st'.fresh ∧
    st'.pendingBumps = st.pendingBumps ∧
    st'.eventsEnabled = st.eventsEnabled ∧ st'.recordUndo = st.recordUndo ∧
    (StInv st → CheckerOk κ → StInv st') := by
  cases f with
  | zero => simp [disconnect] at h
  | succ f1 =>
    simp only [disconnect] at h
    split at h
    next heq =>
      rw [hT] at heq
      exact Option.noConfusion heq
    next oc' heq =>
      have hoc : oc = oc' := Option.some_injective _ (hT.symm.trans heq)
      subst hoc
      rw [if_neg (fun hcond => hcond hM)] at h
      rcases hroute with ⟨hs, hp, hi⟩ | ⟨hs, hp, hi⟩
      · rw [hp] at hPsup
        rw [hp, hi]
        rw [if_pos hs] at h
        split at h
        · exact Except.noConfusion h
        next st2 hdi =>
          split at h
          · exact Except.noConfusion h
          next st3 hrs =>
            rcases hg : st.eventGroup with _ | g0
            · simp only [ConnState.getGroup, hg, Option.isNone_none, if_true]
                at hdi hrs h
              cases h
              obtain ⟨e1, e2, e3, e4, e5, e6, e7, e8⟩ :=
                disconnectInternal_core st.setGroupNew c _ _ oc hT _ hdi
              have hq2 : (st2.conns c).targetConnection = none := by
                rw [e1, ConnState.setTarget_conns_same]
              have hqb2 : c < st2.fresh := by
                rw [e3]
                exact hcb
              have hsup2 : isSuperior st2 c = true := by
                unfold isSuperior at hs ⊢
                rw [e1, setTarget_type, setTarget_type, ConnState.setGroupNew_conns]
                exact hs
              obtain ⟨r1, r2, r3, r4, r5, r6, r7, r8, r9, r10⟩ :=
                respawn_vacated_spec f1 κ c st2 st3 hq2 hqb2 hsup2 hrs
              refine disconnect_assemble κ st st2 st3 _ c oc c oc hT hcb hocb hneq
                (Or.inl ⟨rfl, rfl⟩) e1 e2 e3 e4 e5 e6
                (by rw [e3]; exact fun x hx hxp => r1 x (by rw [e3]; exact hx) hxp)
                ?_ (by rw [e3]; exact fun x hx => r3 x (by rw [e3]; exact hx))
                (by rw [e3]; exact fun x hx => r4 x (by rw [e3]; exact hx))
                (by omega) r6 r7 r8 r9
                (fun hi2 hck => r10 hi2 hck) rfl rfl rfl rfl rfl rfl
              · rcases r2 with hh | ⟨nc, hnc1, hnc2⟩
                · exact Or.inl hh
                · exact Or.inr ⟨nc, by omega, hnc2⟩
            · simp only [ConnState.getGroup, hg, Option.isNone_some,
                Bool.false_eq_true, if_false] at hdi hrs h
              cases h
              obtain ⟨e1, e2, e3, e4, e5, e6, e7, e8⟩ :=
                disconnectInternal_core st c _ _ oc hT _ hdi
              have hq2 : (st2.conns c).targetConnection = none := by
                rw [e1, ConnState.setTarget_conns_same]
              have hqb2 : c < st2.fresh := by
                rw [e3]
                exact hcb
              have hsup2 : isSuperior st2 c = true := by
                unfold isSuperior at hs ⊢
                rw [e1, setTarget_type, setTarget_type]
                exact hs
              obtain ⟨r1, r2, r3, r4, r5, r6, r7, r8, r9, r10⟩ :=
                respawn_vacated_spec f1 κ c st2 _ hq2 hqb2 hsup2 hrs
              refine disconnect_assemble κ st st2 _ _ c oc c oc hT hcb hocb hneq
                (Or.inl ⟨rfl, rfl⟩) e1 e2 e3 e4 e5 e6
                (by rw [e3]; exact fun x hx hxp => r1 x (by rw [e3]; exact hx) hxp)
                ?_ (by rw [e3]; exact fun x hx => r3 x (by rw [e3]; exact hx))
                (by rw [e3]; exact fun x hx => r4 x (by rw [e3]; exact hx))
                (by omega) r6 r7 r8 r9
                (fun hi2 hck => r10 hi2 hck) rfl rfl rfl rfl rfl rfl
              · rcases r2 with hh | ⟨nc, hnc1, hnc2⟩
                · exact Or.inl hh
                · exact Or.inr ⟨nc, by omega, hnc2⟩
      · rw [hp] at hPsup
        rw [hp, hi]
        have hsneg : ¬(isSuperior st c = true) := by
          rw [hs]
          exact fun hh => Bool.noConfusion hh
        rw [if_neg hsneg] at h
        split at h
        · exact Except.noConfusion h
        next st2 hdi =>
          split at h
          · exact Except.noConfusion h
          next st3 hrs =>
            rcases hg : st.eventGroup with _ | g0
            · simp only [ConnState.getGroup, hg, Option.isNone_none, if_true]
                at hdi hrs h
              cases h
              obtain ⟨e1, e2, e3, e4, e5, e6, e7, e8⟩ :=
                disconnectInternal_core st.setGroupNew c _ _ oc hT _ hdi
              have hq2 : (st2.conns oc).targetConnection = none := by
                rw [e1, ConnState.setTarget_conns_other _ _ _ _ (Ne.symm hneq),
                  ConnState.setTarget_conns_same]
              have hqb2 : oc < st2.fresh := by
                rw [e3]
                exact hocb
              have hsup2 : isSuperior st2 oc = true := by
                unfold isSuperior at hPsup ⊢
                rw [e1, setTarget_type, setTarget_type, ConnState.setGroupNew_conns]
                exact hPsup
              obtain ⟨r1, r2, r3, r4, r5, r6, r7, r8, r9, r10⟩ :=
                respawn_vacated_spec f1 κ oc st2 _ hq2 hqb2 hsup2 hrs
              refine disconnect_assemble κ st st2 _ _ c oc oc c hT hcb hocb hneq
                (Or.inr ⟨rfl, rfl⟩) e1 e2 e3 e4 e5 e6
                (by rw [e3]; exact fun x hx hxp => r1 x (by rw [e3]; exact hx) hxp)
                ?_ (by rw [e3]; exact fun x hx => r3 x (by rw [e3]; exact hx))
                (by rw [e3]; exact fun x hx => r4 x (by rw [e3]; exact hx))
                (by omega) r6 r7 r8 r9
                (fun hi2 hck => r10 hi2 hck) rfl rfl rfl rfl rfl rfl
              · rcases r2 with hh | ⟨nc, hnc1, hnc2⟩
                · exact Or.inl hh
                · exact Or.inr ⟨nc, by omega, hnc2⟩
            · simp only [ConnState.getGroup, hg, Option.isNone_some,
                Bool.false_eq_true, if_false] at hdi hrs h
              cases h
              obtain ⟨e1, e2, e3, e4, e5, e6, e7, e8⟩ :=
                disconnectInternal_core st c _ _ oc hT _ hdi
              have hq2 : (st2.conns oc).targetConnection = none := by
                rw [e1, ConnState.setTarget_conns_other _ _ _ _ (Ne.symm hneq),
                  ConnState.setTarget_conns_same]
              have hqb2 : oc < st2.fresh := by
                rw [e3]
                exact hocb
              have hsup2 : isSuperior st2 oc = true := by
                unfold isSuperior at hPsup ⊢
                rw [e1, setTarget_type, setTarget_type]
                exact hPsup
              obtain ⟨r1, r2, r3, r4, r5, r6, r7, r8, r9, r10⟩ :=
                respawn_vacated_spec f1 κ oc st2 _ hq2 hqb2 hsup2 hrs
              refine disconnect_assemble κ st st2 _ _ c oc oc c hT hcb hocb hneq
                (Or.inr ⟨rfl, rfl⟩) e1 e2 e3 e4 e5 e6
                (by rw [e3]; exact fun x hx hxp => r1 x (by rw [e3]; exact hx) hxp)
                ?_ (by rw [e3]; exact fun x hx => r3 x (by rw [e3]; exact hx))
                (by rw [e3]; exact fun x hx => r4 x (by rw [e3]; exact hx))
                (by omega) r6 r7 r8 r9
                (fun hi2 hck => r10 hi2 hck) rfl rfl rfl rfl rfl rfl
              · rcases r2 with hh | ⟨nc, hnc1, hnc2⟩
                · exact Or.inl hh
                · exact Or.inr ⟨nc, by omega, hnc2⟩

theorem unplug_eq (f : Nat) (κ : Checker) (B : Nat) (st : ConnState) (ic : Nat)
    (hfield : (st.blocks B).outputConnection = some ic ∨
      ((st.blocks B).outputConnection = none ∧
        (st.blocks B).previousConnection = some ic))
    (hconn : isConnected st ic = true) :
    unplug (f + 1) κ B st = disconnect f κ ic st := by
  rcases hfield with hf | ⟨hf0, hf⟩
  · simp only [unplug, hf, hconn, if_true]
  · simp only [unplug, hf0, hf, hconn, if_true]

theorem blockDispose_linked_spec (f : Nat) (κ : Checker) (B ic pc : Nat)
    (st st' : ConnState)
    (hfield : (st.blocks B).outputConnection = some ic ∨
      ((st.blocks B).outputConnection = none ∧
        (st.blocks B).previousConnection = some ic))
    (hT : (st.conns ic).targetConnection = some pc)
    (hM : (st.conns pc).targetConnection = some ic)
    (hsic : isSuperior st ic = false) (hPsup : isSuperior st pc = true)
    (hicb : ic < st.fresh) (hpcb : pc < st.fresh) (hneq : ic ≠ pc)
    (hBsrc : (st.conns ic).sourceBlock = B) (hBb : B < st.fresh)
    (hpdom : (st.conns pc).shadowDom = none)
    (h : blockDispose f κ B st = Except.ok st') :
    (st'.conns ic).targetConnection = none ∧
    (st'.conns pc).targetConnection = none ∧
    (∀ x, x < st.fresh → x ≠ ic → x ≠ pc →
      (st'.conns x).targetConnection = (st.conns x).targetConnection) ∧
    (∀ x, x < st.fresh →
      (st'.conns x).shadowDom = (st.conns x).shadowDom ∧
      (st'.conns x).type = (st.conns x).type ∧
      (st'.conns x).sourceBlock = (st.conns x).sourceBlock ∧
      (st'.conns x).check = (st.conns x).check ∧
      (st'.conns x).disposed = (st.conns x).disposed) ∧
    (∀ x, x < st.fresh → x ≠ B → st'.blocks x = st.blocks x) ∧
    st'.blocks B = { st.blocks B with parent := none, workspace := false } ∧
    st.fresh ≤ st'.fresh ∧
    st'.pendingBumps = st.pendingBumps ∧
    st'.eventsEnabled = st.eventsEnabled ∧ st'.recordUndo = st.recordUndo ∧
    (StInv st → CheckerOk κ → StInv st') := by
  cases f with
  | zero => simp [blockDispose] at h
  | succ f1 =>
    simp only [blockDispose] at h
    split at h
    · exact Except.noConfusion h
    next st1 hu =>
      cases h
      cases f1 with
      | zero => simp [unplug] at hu
      | succ f2 =>
        rw [unplug_eq f2 κ B st ic hfield (by simp [isConnected, hT])] at hu
        obtain ⟨d1, d2, d3, d4, d5, d6, d7, d8, d9, d10, d11, d12⟩ :=
          disconnect_spec f2 κ ic pc pc ic st st1 hT hM
            (Or.inr ⟨hsic, rfl, rfl⟩) hPsup hicb hpcb hneq hu
        have h7 : st1.blocks B = { st.blocks B with parent := none } := by
          have := d7 (by rw [hBsrc]; exact hBb)
          rw [hBsrc] at this
          exact this
        refine ⟨?_, ?_, ?_, ?_, ?_, ?_, ?_, ?_, ?_, ?_, ?_⟩
        · rw [ConnState.markDead_conns]; exact d1
        · rw [ConnState.markDead_conns]; exact d3 hpdom
        · intro x hx hxic hxpc
          rw [ConnState.markDead_conns]; exact d4 x hx hxic hxpc
        · intro x hx
          rw [ConnState.markDead_conns]; exact d5 x hx
        · intro x hx hxB
          rw [ConnState.markDead_blocks_other _ _ _ hxB]
          exact d6 x hx (by rw [hBsrc]; exact hxB)
        · rw [ConnState.markDead_blocks_same, h7]
        · rw [ConnState.markDead_fresh]; exact d8
        · rw [ConnState.markDead_pendingBumps]; exact d9
        · rw [ConnState.markDead_eventsEnabled]; exact d10
        · rw [ConnState.markDead_recordUndo]; exact d11
        · intro hI hK
          exact StInv_markDead _ B (d12 hI hK)

theorem StInv_recordFire (st : ConnState) (e : MoveEvent) (h : StInv st) :
    StInv (recordFire st e) :=
  StInv_of_eq (by simp) (by simp) (by simp) h

theorem oppositeTy_symm {a b : ConnType} (h : oppositeTy a b) : oppositeTy b a := by
  rcases h with ⟨h1, h2⟩ | ⟨h1, h2⟩ | ⟨h1, h2⟩ | ⟨h1, h2⟩ <;> rw [h1, h2] <;>
    simp [oppositeTy]

theorem connect_aux_childLinked_spec (f : Nat) (κ : Checker) (p c q : Nat)
    (st st' : ConnState)
    (hp : (st.conns p).targetConnection = none)
    (hcT : (st.conns c).targetConnection = some q)
    (hqM : (st.conns q).targetConnection = some c)
    (hcsup : isSuperior st c = false) (hqsup : isSuperior st q = true)
    (hcb : c < st.fresh) (hqb : q < st.fresh) (hcq : c ≠ q)
    (hpb : p < st.fresh) (hpc : p ≠ c) (hpq : p ≠ q)
    (h : connect_ f κ p c st = Except.ok st') :
    (st'.conns p).targetConnection = some c ∧
    (st'.conns c).targetConnection = some p ∧
    ((st'.conns q).targetConnection = none ∨
      ∃ z, st.fresh ≤ z ∧ (st'.conns q).targetConnection = some z) ∧
    ((st.conns q).shadowDom = none → (st'.conns q).targetConnection = none) ∧
    (∀ x, x < st.fresh → x ≠ p → x ≠ c → x ≠ q →
      (st'.conns x).targetConnection = (st.conns x).targetConnection) ∧
    (∀ x, x < st.fresh →
      (st'.conns x).shadowDom = (st.conns x).shadowDom ∧
      (st'.conns x).type = (st.conns x).type ∧
      (st'.conns x).sourceBlock = (st.conns x).sourceBlock ∧
      (st'.conns x).check = (st.conns x).check ∧
      (st'.conns x).disposed = (st.conns x).disposed) ∧
    (∀ x, x < st.fresh → x ≠ (st.conns c).sourceBlock →
      st'.blocks x = st.blocks x) ∧
    ((st.conns c).sourceBlock < st.fresh →
      st'.blocks ((st.conns c).sourceBlock) =
        { st.blocks ((st.conns c).sourceBlock) with
            parent := some ((st.conns p).sourceBlock) }) ∧
    st.fresh ≤ st'.fresh ∧
    st'.pendingBumps = st.pendingBumps ∧
    st'.eventsEnabled = st.eventsEnabled ∧ st'.recordUndo = st.recordUndo ∧
    (StInv st → CheckerOk κ →
      oppositeTy (st.conns p).type (st.conns c).type →
      infOwnOk st p →
      (st.conns p).sourceBlock < st.fresh →
      (st.conns p).sourceBlock ≠ (st.conns c).sourceBlock →
      StInv st') := by
  cases f with
  | zero => simp [connect_] at h
  | succ f2 =>
    have hic : isConnected st c = true := by simp [isConnected, hcT]
    simp only [connect_, hic, if_true] at h
    split at h
    · exact Except.noConfusion h
    next st1 hd =>
      obtain ⟨d1, d2, d3, d4, d5, d6, d7, d8, d9, d10, d11, d12⟩ :=
        disconnect_spec f2 κ c q q c st st1 hcT hqM
          (Or.inr ⟨hcsup, rfl, rfl⟩) hqsup hcb hqb hcq hd
      have hp1 : (st1.conns p).targetConnection = none := by
        rw [d4 p hpb hpc hpq]; exact hp
      simp only [hp1, connectReciprocally] at h
      have hcs : (st1.conns c).sourceBlock = (st.conns c).sourceBlock :=
        (d5 c hcb).2.2.1
      have hps : (st1.conns p).sourceBlock = (st.conns p).sourceBlock :=
        (d5 p hpb).2.2.1
      have hA : ∀ x, (((st1.setTarget p (some c)).setTarget c
            (some p)).setBlockParent ((st.conns c).sourceBlock)
            (some ((st.conns p).sourceBlock))).conns x =
          ((st1.setTarget p (some c)).setTarget c (some p)).conns x := by
        intro x; rw [ConnState.setBlockParent_conns]
      have hAp : ((st1.setTarget p (some c)).setTarget c (some p)).conns p =
          { st1.conns p with targetConnection := some c } := by
        rw [ConnState.setTarget_conns_other _ _ _ _ hpc,
          ConnState.setTarget_conns_same]
      have hAc : ((st1.setTarget p (some c)).setTarget c (some p)).conns c =
          { (st1.setTarget p (some c)).conns c with
              targetConnection := some p } := by
        rw [ConnState.setTarget_conns_same]
      have hAo : ∀ x, x ≠ p → x ≠ c →
          ((st1.setTarget p (some c)).setTarget c (some p)).conns x =
          st1.conns x := by
        intro x hxp hxc
        rw [ConnState.setTarget_conns_other _ _ _ _ hxc,
          ConnState.setTarget_conns_other _ _ _ _ hxp]
      have hInvKey : StInv st → CheckerOk κ →
          oppositeTy (st.conns p).type (st.conns c).type →
          infOwnOk st p →
          (st.conns p).sourceBlock < st.fresh →
          (st.conns p).sourceBlock ≠ (st.conns c).sourceBlock →
          StInv (((st1.setTarget p (some c)).setTarget c
            (some p)).setBlockParent ((st.conns c).sourceBlock)
            (some ((st.conns p).sourceBlock))) := by
        intro hI hK hop hiop hpsb hpcb2
        have hI1 : StInv st1 := d12 hI hK
        have hsc : (st.conns c).sourceBlock < st.fresh :=
          (hI.1 c q hcT).2.2.2.2.2.2.1
        have hioc : infOwnOk st c := (hI.1 c q hcT).2.2.1
        have hioc1 : infOwnOk st1 c :=
          infOwnOk_transport (d5 c hcb).2.1 hcs (by rw [d7 hsc])
            (by rw [d7 hsc]) hioc
        have hiop1 : infOwnOk st1 p :=
          infOwnOk_transport (d5 p hpb).2.1 hps (by rw [d6 _ hpsb hpcb2])
            (by rw [d6 _ hpsb hpcb2]) hiop
        have hlink : StInv ((st1.setTarget p (some c)).setTarget c (some p)) := by
          refine StInv_link st1 p c hI1 hp1 d1 ?_ hiop1 hioc1
            (lt_of_lt_of_le hpb d8) (lt_of_lt_of_le hcb d8) ?_ ?_ ?_
          · rw [(d5 p hpb).2.1, (d5 c hcb).2.1]; exact hop
          · rw [hps]; exact lt_of_lt_of_le hpsb d8
          · rw [hcs]; exact lt_of_lt_of_le hsc d8
          · rw [hps, hcs]; exact hpcb2
        exact StInv_setBlockParent _ _ _ hlink
      by_cases hev : st1.eventsEnabled = true
      · simp only [hev, if_true] at h
        cases h
        refine ⟨?_, ?_, ?_, ?_, ?_, ?_, ?_, ?_, ?_, ?_, ?_, ?_, ?_⟩
        · rw [recordFire_conns, hA, hAp]
        · rw [recordFire_conns, hA, hAc]
        · rw [recordFire_conns, hA, hAo q hpq.symm (fun hh => hcq hh.symm)]
          exact d2
        · intro hdom
          rw [recordFire_conns, hA, hAo q hpq.symm (fun hh => hcq hh.symm)]
          exact d3 hdom
        · intro x hx hxp hxc hxq
          rw [recordFire_conns, hA, hAo x hxp hxc]
          exact d4 x hx hxc hxq
        · intro x hx
          simp only [recordFire_conns, ConnState.setBlockParent_conns,
            setTarget_dom, setTarget_type, setTarget_src, setTarget_check,
            setTarget_disposed]
          exact d5 x hx
        · intro x hx hxcb
          rw [recordFire_blocks, ConnState.setBlockParent_blocks_other _ _ _ _
            hxcb, ConnState.setTarget_blocks, ConnState.setTarget_blocks]
          exact d6 x hx hxcb
        · intro hcbf
          rw [recordFire_blocks, ConnState.setBlockParent_blocks_same,
            ConnState.setTarget_blocks, ConnState.setTarget_blocks, d7 hcbf]
        · rw [recordFire_fresh, ConnState.setBlockParent_fresh,
            ConnState.setTarget_fresh, ConnState.setTarget_fresh]
          exact d8
        · rw [recordFire_pendingBumps, ConnState.setBlockParent_pendingBumps,
            ConnState.setTarget_pendingBumps, ConnState.setTarget_pendingBumps]
          exact d9
        · rw [recordFire_eventsEnabled, ConnState.setBlockParent_eventsEnabled,
            ConnState.setTarget_eventsEnabled, ConnState.setTarget_eventsEnabled]
          exact d10
        · rw [recordFire_recordUndo, ConnState.setBlockParent_recordUndo,
            ConnState.setTarget_recordUndo, ConnState.setTarget_recordUndo]
          exact d11
        · intro hI hK hop hiop hpsb hpcb2
          exact StInv_recordFire _ _ (hInvKey hI hK hop hiop hpsb hpcb2)
      · simp only [Bool.not_eq_true] at hev
        simp only [hev, Bool.false_eq_true, if_false] at h
        cases h
        refine ⟨?_, ?_, ?_, ?_, ?_, ?_, ?_, ?_, ?_, ?_, ?_, ?_, ?_⟩
        · rw [hA, hAp]
        · rw [hA, hAc]
        · rw [hA, hAo q hpq.symm (fun hh => hcq hh.symm)]
          exact d2
        · intro hdom
          rw [hA, hAo q hpq.symm (fun hh => hcq hh.symm)]
          exact d3 hdom
        · intro x hx hxp hxc hxq
          rw [hA, hAo x hxp hxc]
          exact d4 x hx hxc hxq
        · intro x hx
          simp only [ConnState.setBlockParent_conns, setTarget_dom,
            setTarget_type, setTarget_src, setTarget_check, setTarget_disposed]
          exact d5 x hx
        · intro x hx hxcb
          rw [ConnState.setBlockParent_blocks_other _ _ _ _ hxcb,
            ConnState.setTarget_blocks, ConnState.setTarget_blocks]
          exact d6 x hx hxcb
        · intro hcbf
          rw [ConnState.setBlockParent_blocks_same,
            ConnState.setTarget_blocks, ConnState.setTarget_blocks, d7 hcbf]
        · rw [ConnState.setBlockParent_fresh, ConnState.setTarget_fresh,
            ConnState.setTarget_fresh]
          exact d8
        · rw [ConnState.setBlockParent_pendingBumps,
            ConnState.setTarget_pendingBumps, ConnState.setTarget_pendingBumps]
          exact d9
        · rw [ConnState.setBlockParent_eventsEnabled,
            ConnState.setTarget_eventsEnabled, ConnState.setTarget_eventsEnabled]
          exact d10
        · rw [ConnState.setBlockParent_recordUndo,
            ConnState.setTarget_recordUndo, ConnState.setTarget_recordUndo]
          exact d11
        · intro hI hK hop hiop hpsb hpcb2
          exact hInvKey hI hK hop hiop hpsb hpcb2

theorem superior_opposite (st : ConnState) (a b : Nat)
    (hop : oppositeTy (st.conns a).type (st.conns b).type) :
    isSuperior st a = !(isSuperior st b) := by
  rcases hop with ⟨u, v⟩ | ⟨u, v⟩ | ⟨u, v⟩ | ⟨u, v⟩ <;> simp [isSuperior, u, v]

theorem connect_link_spec (f : Nat) (κ : Checker) (a b s i : Nat)
    (st st' : ConnState)
    (hInv : StInv st) (hok : CheckerOk κ) (hk : κ st a b = true)
    (hroute : (isSuperior st a = true ∧ s = a ∧ i = b) ∨
      (isSuperior st a = false ∧ s = b ∧ i = a))
    (hs0 : (st.conns s).targetConnection = none)
    (h : connect f κ a b st = Except.ok st') :
    (st'.conns s).targetConnection = some i ∧
    (st'.conns i).targetConnection = some s ∧
    (∀ x, x < st.fresh → x ≠ s → x ≠ i →
      (st.conns x).targetConnection ≠ some i →
      (st'.conns x).targetConnection = (st.conns x).targetConnection) ∧
    (∀ x, x < st.fresh → (st.conns x).targetConnection = some i →
      ((st'.conns x).targetConnection = none ∨
        ∃ z, st.fresh ≤ z ∧ (st'.conns x).targetConnection = some z)) ∧
    (∀ x, x < st.fresh → (st.conns x).targetConnection = some i →
      (st.conns x).shadowDom = none →
      (st'.conns x).targetConnection = none) ∧
    (∀ x, x < st.fresh →
      (st'.conns x).shadowDom = (st.conns x).shadowDom ∧
      (st'.conns x).type = (st.conns x).type ∧
      (st'.conns x).sourceBlock = (st.conns x).sourceBlock ∧
      (st'.conns x).check = (st.conns x).check ∧
      (st'.conns x).disposed = (st.conns x).disposed) ∧
    (∀ x, x < st.fresh → x ≠ (st.conns i).sourceBlock →
      st'.blocks x = st.blocks x) ∧
    (st'.blocks ((st.conns i).sourceBlock) =
      { st.blocks ((st.conns i).sourceBlock) with
          parent := some ((st.conns s).sourceBlock) }) ∧
    st.fresh ≤ st'.fresh ∧
    st'.pendingBumps = st.pendingBumps ∧
    st'.eventsEnabled = st.eventsEnabled ∧ st'.recordUndo = st.recordUndo ∧
    StInv st' := by
  obtain ⟨hopab, hioa, hiob, hab1, hab2, hsab1, hsab2, hsabne⟩ := hok st a b hk
  have hfacts : oppositeTy (st.conns s).type (st.conns i).type ∧
      infOwnOk st s ∧ infOwnOk st i ∧ s < st.fresh ∧ i < st.fresh ∧
      (st.conns s).sourceBlock < st.fresh ∧
      (st.conns i).sourceBlock < st.fresh ∧
      (st.conns s).sourceBlock ≠ (st.conns i).sourceBlock ∧
      isSuperior st s = true ∧ isSuperior st i = false := by
    rcases hroute with ⟨ha, h1, h2⟩ | ⟨ha, h1, h2⟩ <;> subst h1 <;> subst h2
    · have hbinf : isSuperior st i = false := by
        have hso := superior_opposite st s i hopab
        rw [ha] at hso
        cases hbv : isSuperior st i with
        | false => rfl
        | true => rw [hbv] at hso; simp at hso
      exact ⟨hopab, hioa, hiob, hab1, hab2, hsab1, hsab2, hsabne, ha, hbinf⟩
    · have hbsup : isSuperior st s = true := by
        have hso := superior_opposite st i s hopab
        rw [ha] at hso
        cases hbv : isSuperior st s with
        | true => rfl
        | false => rw [hbv] at hso; simp at hso
      exact ⟨oppositeTy_symm hopab, hiob, hioa, hab2, hab1, hsab2, hsab1,
        fun he => hsabne he.symm, hbsup, ha⟩
  obtain ⟨hop, hios, hioi, hsb', hib', hssb, hisb, hsne, hssup, hisub⟩ := hfacts
  have hsi : s ≠ i := by
    intro he
    rw [he, hisub] at hssup
    exact Bool.noConfusion hssup
  cases f with
  | zero => simp [connect] at h
  | succ f1 =>
    have hnr : ¬((st.conns a).targetConnection = some b) := by
      rcases hroute with ⟨ha, h1, h2⟩ | ⟨ha, h1, h2⟩
      · rw [← h1, hs0]
        exact fun hh => Option.noConfusion hh
      · rw [← h2]
        intro hh
        have hby := (hInv.1 i b hh).1
        rw [← h1, hs0] at hby
        exact Option.noConfusion hby
    simp only [connect, if_neg hnr, hk, if_true] at h
    have hkey : ∀ (st1g : ConnState), st1g.conns = st.conns →
        st1g.blocks = st.blocks → st1g.fresh = st.fresh →
        st1g.pendingBumps = st.pendingBumps →
        st1g.eventsEnabled = st.eventsEnabled →
        st1g.recordUndo = st.recordUndo →
        ∀ (st2 : ConnState), connect_ f1 κ s i st1g = Except.ok st2 →
        (st2.conns s).targetConnection = some i ∧
        (st2.conns i).targetConnection = some s ∧
        (∀ x, x < st.fresh → x ≠ s → x ≠ i →
          (st.conns x).targetConnection ≠ some i →
          (st2.conns x).targetConnection = (st.conns x).targetConnection) ∧
        (∀ x, x < st.fresh → (st.conns x).targetConnection = some i →
          ((st2.conns x).targetConnection = none ∨
            ∃ z, st.fresh ≤ z ∧ (st2.conns x).targetConnection = some z)) ∧
        (∀ x, x < st.fresh → (st.conns x).targetConnection = some i →
          (st.conns x).shadowDom = none →
          (st2.conns x).targetConnection = none) ∧
        (∀ x, x < st.fresh →
          (st2.conns x).shadowDom = (st.conns x).shadowDom ∧
          (st2.conns x).type = (st.conns x).type ∧
          (st2.conns x).sourceBlock = (st.conns x).sourceBlock ∧
          (st2.conns x).check = (st.conns x).check ∧
          (st2.conns x).disposed = (st.conns x).disposed) ∧
        (∀ x, x < st.fresh → x ≠ (st.conns i).sourceBlock →
          st2.blocks x = st.blocks x) ∧
        (st2.blocks ((st.conns i).sourceBlock) =
          { st.blocks ((st.conns i).sourceBlock) with
              parent := some ((st.conns s).sourceBlock) }) ∧
        st.fresh ≤ st2.fresh ∧
        st2.pendingBumps = st.pendingBumps ∧
        st2.eventsEnabled = st.eventsEnabled ∧
        st2.recordUndo = st.recordUndo ∧
        StInv st2 := by
      intro st1g hgc hgb hgf hgp hge hgr st2 hx
      have hInvG : StInv st1g := StInv_of_eq hgc hgb hgf hInv
      rcases hio : (st.conns i).targetConnection with _ | q
      · obtain ⟨e1, e2, e3, e4, e5, e6, e7, e8⟩ :=
          connect_aux_vacated_core f1 κ s i st1g st2
            (by rw [hgc]; exact hs0) (by rw [hgc]; exact hio) hx
        have hcc : ∀ x, st2.conns x =
            ((st1g.setTarget s (some i)).setTarget i (some s)).conns x := by
          intro x; rw [e1]
        have htgt : ∀ x, x ≠ s → x ≠ i →
            (st2.conns x).targetConnection = (st.conns x).targetConnection := by
          intro x hxs hxi
          rw [hcc x, ConnState.setTarget_conns_other _ _ _ _ hxi,
            ConnState.setTarget_conns_other _ _ _ _ hxs, hgc]
        refine ⟨?_, ?_, ?_, ?_, ?_, ?_, ?_, ?_, ?_, ?_, ?_, ?_, ?_⟩
        · rw [hcc s, ConnState.setTarget_conns_other _ _ _ _ hsi,
            ConnState.setTarget_conns_same]
        · rw [hcc i, ConnState.setTarget_conns_same]
        · intro x hxf hxs hxi hxt
          exact htgt x hxs hxi
        · intro x hxf hxt
          have := (hInv.1 x i hxt).1
          rw [hio] at this
          exact Option.noConfusion this
        · intro x hxf hxt hxd
          have := (hInv.1 x i hxt).1
          rw [hio] at this
          exact Option.noConfusion this
        · intro x hxf
          rw [hcc x]
          refine ⟨?_, ?_, ?_, ?_, ?_⟩ <;>
            simp [setTarget_dom, setTarget_type, setTarget_src,
              setTarget_check, setTarget_disposed, hgc]
        · intro x hxf hxsrc
          rw [e2, ConnState.setBlockParent_blocks_other, ConnState.setTarget_blocks,
            ConnState.setTarget_blocks, hgb]
          rw [hgc]
          exact hxsrc
        · rw [e2]
          have hsame : ((st1g.setTarget s (some i)).setTarget i
              (some s)).setBlockParent ((st1g.conns i).sourceBlock)
              (some ((st1g.conns s).sourceBlock)) =
              ((st1g.setTarget s (some i)).setTarget i
              (some s)).setBlockParent ((st.conns i).sourceBlock)
              (some ((st.conns s).sourceBlock)) := by
            rw [hgc]
          rw [hsame, ConnState.setBlockParent_blocks_same,
            ConnState.setTarget_blocks, ConnState.setTarget_blocks, hgb]
        · rw [e3, hgf]
        · rw [e4, hgp]
        · rw [e5, hge]
        · rw [e6, hgr]
        · have hlink : StInv ((st1g.setTarget s (some i)).setTarget i (some s)) := by
            refine StInv_link st1g s i hInvG (by rw [hgc]; exact hs0)
              (by rw [hgc]; exact hio) ?_ ?_ ?_ ?_ ?_ ?_ ?_ ?_
            · rw [hgc]; exact hop
            · unfold infOwnOk
              rw [hgc, hgb]
              exact hios
            · unfold infOwnOk
              rw [hgc, hgb]
              exact hioi
            · rw [hgf]; exact hsb'
            · rw [hgf]; exact hib'
            · rw [hgc, hgf]; exact hssb
            · rw [hgc, hgf]; exact hisb
            · rw [hgc]; exact hsne
          have hbig : StInv (((st1g.setTarget s (some i)).setTarget i
              (some s)).setBlockParent ((st1g.conns i).sourceBlock)
              (some ((st1g.conns s).sourceBlock))) :=
            StInv_setBlockParent _ _ _ hlink
          exact StInv_of_eq (by rw [e1, ConnState.setBlockParent_conns])
            (by rw [e2]) (by rw [e3, ConnState.setBlockParent_fresh,
              ConnState.setTarget_fresh, ConnState.setTarget_fresh]) hbig
      · have hlq := hInv.1 i q hio
        have hqM : (st.conns q).targetConnection = some i := hlq.1
        have hiq : i ≠ q := by
          intro he
          exact oppositeTy_ne hlq.2.1 (by rw [he])
        have hqb : q < st.fresh := hlq.2.2.2.2.2.1
        have hsq : s ≠ q := by
          intro he
          rw [he, hqM] at hs0
          exact Option.noConfusion hs0
        have hqsup : isSuperior st q = true := by
          have hso := superior_opposite st i q hlq.2.1
          rw [hisub] at hso
          cases hqv : isSuperior st q with
          | true => rfl
          | false => rw [hqv] at hso; simp at hso
        obtain ⟨m1, m2, m3, m4, m5, m6, m7, m8, m9, m10, m11, m12, m13⟩ :=
          connect_aux_childLinked_spec f1 κ s i q st1g st2
            (by rw [hgc]; exact hs0) (by rw [hgc]; exact hio)
            (by rw [hgc]; exact hqM)
            (by unfold isSuperior; rw [hgc]; exact hisub)
            (by unfold isSuperior; rw [hgc]; exact hqsup)
            (by rw [hgf]; exact hib') (by rw [hgf]; exact hqb) hiq
            (by rw [hgf]; exact hsb') hsi hsq hx
        have hq5 : ∀ x, x < st.fresh →
            (st2.conns x).shadowDom = (st.conns x).shadowDom ∧
            (st2.conns x).type = (st.conns x).type ∧
            (st2.conns x).sourceBlock = (st.conns x).sourceBlock ∧
            (st2.conns x).check = (st.conns x).check ∧
            (st2.conns x).disposed = (st.conns x).disposed := by
          intro x hxf
          have := m6 x (by rw [hgf]; exact hxf)
          rw [hgc] at this
          exact this
        refine ⟨m1, m2, ?_, ?_, ?_, hq5, ?_, ?_, ?_, ?_, ?_, ?_, ?_⟩
        · intro x hxf hxs hxi hxt
          have hxq : x ≠ q := by
            intro he
            rw [he, hqM] at hxt
            exact hxt rfl
          have := m5 x (by rw [hgf]; exact hxf) hxs hxi hxq
          rw [hgc] at this
          exact this
        · intro x hxf hxt
          have hxeq : x = q := by
            have hrx := (hInv.1 x i hxt).1
            rw [hio] at hrx
            exact (Option.some_injective _ hrx).symm
          subst hxeq
          rcases m3 with hn | ⟨z, hz1, hz2⟩
          · exact Or.inl hn
          · exact Or.inr ⟨z, by rw [hgf] at hz1; exact hz1, hz2⟩
        · intro x hxf hxt hxd
          have hxeq : x = q := by
            have hrx := (hInv.1 x i hxt).1
            rw [hio] at hrx
            exact (Option.some_injective _ hrx).symm
          subst hxeq
          exact m4 (by rw [hgc]; exact hxd)
        · intro x hxf hxsrc
          have := m7 x (by rw [hgf]; exact hxf) (by rw [hgc]; exact hxsrc)
          rw [hgb] at this
          exact this
        · have := m8 (by rw [hgc, hgf]; exact hisb)
          rw [hgc, hgb] at this
          exact this
        · have := m9
          rw [hgf] at this
          exact this
        · rw [m10, hgp]
        · rw [m11, hge]
        · rw [m12, hgr]
        · refine m13 hInvG hok ?_ ?_ ?_ ?_
          · rw [hgc]; exact hop
          · unfold infOwnOk
            rw [hgc, hgb]
            exact hios
          · rw [hgc, hgf]; exact hssb
          · rw [hgc]; exact hsne
    rcases hg : st.eventGroup with _ | g0
    · simp only [ConnState.getGroup, hg, Option.isNone_none, if_true] at h
      cases hx : (if isSuperior st.setGroupNew a then connect_ f1 κ a b st.setGroupNew
          else connect_ f1 κ b a st.setGroupNew) with
      | error e => rw [hx] at h; exact Except.noConfusion h
      | ok st2 =>
        rw [hx] at h
        cases h
        have hiseq : isSuperior st.setGroupNew a = isSuperior st a := rfl
        have hx2 : connect_ f1 κ s i st.setGroupNew = Except.ok st2 := by
          rcases hroute with ⟨ha, h1, h2⟩ | ⟨ha, h1, h2⟩
          · rw [if_pos (hiseq.trans ha)] at hx
            rw [h1, h2]
            exact hx
          · have hsg : ¬(isSuperior st.setGroupNew a = true) := by
              rw [hiseq, ha]
              exact fun hh => Bool.noConfusion hh
            rw [if_neg hsg] at hx
            rw [h1, h2]
            exact hx
        obtain ⟨k1, k2, k3, k4, k5, k6, k7, k8, k9, k10, k11, k12, k13⟩ :=
          hkey st.setGroupNew rfl rfl rfl rfl rfl rfl st2 hx2
        refine ⟨k1, k2, k3, k4, k5, k6, k7, k8, k9, k10, k11, k12, ?_⟩
        exact StInv_of_eq (by simp) (by simp) (by simp) k13
    · simp only [ConnState.getGroup, hg, Option.isNone_some, Bool.false_eq_true,
        if_false] at h
      cases hx : (if isSuperior st a then connect_ f1 κ a b st
          else connect_ f1 κ b a st) with
      | error e => rw [hx] at h; exact Except.noConfusion h
      | ok st2 =>
        rw [hx] at h
        cases h
        have hx2 : connect_ f1 κ s i st = Except.ok st' := by
          rcases hroute with ⟨ha, h1, h2⟩ | ⟨ha, h1, h2⟩
          · rw [if_pos ha] at hx
            rw [h1, h2]
            exact hx
          · rw [if_neg (by rw [ha]; exact fun hh => Bool.noConfusion hh)] at hx
            rw [h1, h2]
            exact hx
        exact hkey st rfl rfl rfl rfl rfl rfl st' hx2

theorem connect_aux_predisconnect (f2 : Nat) (κ : Checker) (p c : Nat)
    (st st1 : ConnState)
    (hic : isConnected st c = true)
    (hd : disconnect f2 κ c st = Except.ok st1)
    (hic1 : isConnected st1 c = false)
    (hsc : (st1.conns c).sourceBlock = (st.conns c).sourceBlock)
    (hsp : (st1.conns p).sourceBlock = (st.conns p).sourceBlock) :
    connect_ (f2 + 1) κ p c st = connect_ (f2 + 1) κ p c st1 := by
  simp only [connect_, hic, hic1, if_true, Bool.false_eq_true, if_false, hd]
  rw [hsc, hsp]

theorem oppositeTy_right_unique {a b b' : ConnType} (h1 : oppositeTy a b)
    (h2 : oppositeTy a b') : b = b' := by
  rcases h1 with ⟨u, v⟩ | ⟨u, v⟩ | ⟨u, v⟩ | ⟨u, v⟩ <;>
    rcases h2 with ⟨u2, v2⟩ | ⟨u2, v2⟩ | ⟨u2, v2⟩ | ⟨u2, v2⟩ <;>
    simp_all

theorem infOwnOk_of_superior (st : ConnState) (x : Nat)
    (h : isSuperior st x = true) : infOwnOk st x := by
  have h' : (st.conns x).type = ConnType.inputValue ∨
      (st.conns x).type = ConnType.nextStatement := by
    simpa [isSuperior] using h
  constructor <;> intro hty <;> rcases h' with h' | h' <;> rw [hty] at h' <;>
    exact ConnType.noConfusion h'

theorem connect_tail_spec (st2 : ConnState) (p c CB PB : Nat) (st' : ConnState)
    (hpc : p ≠ c)
    (h : (Except.ok (match (if st2.eventsEnabled = true
          then some (mkMove st2 CB) else none) with
        | some e => recordFire (((st2.setTarget p (some c)).setTarget c
            (some p)).setBlockParent CB (some PB)) e
        | none => ((st2.setTarget p (some c)).setTarget c
            (some p)).setBlockParent CB (some PB)) :
        Except Err ConnState) = Except.ok st') :
    st'.conns p = { st2.conns p with targetConnection := some c } ∧
    st'.conns c = { st2.conns c with targetConnection := some p } ∧
    (∀ x, x ≠ p → x ≠ c → st'.conns x = st2.conns x) ∧
    (∀ x, x ≠ CB → st'.blocks x = st2.blocks x) ∧
    st'.blocks CB = { st2.blocks CB with parent := some PB } ∧
    st'.fresh = st2.fresh ∧ st'.pendingBumps = st2.pendingBumps ∧
    st'.eventsEnabled = st2.eventsEnabled ∧ st'.recordUndo = st2.recordUndo ∧
    (StInv ((st2.setTarget p (some c)).setTarget c (some p)) → StInv st') := by
  have hc1 : ((st2.setTarget p (some c)).setTarget c (some p)).conns p =
      { st2.conns p with targetConnection := some c } := by
    rw [ConnState.setTarget_conns_other _ _ _ _ hpc,
      ConnState.setTarget_conns_same]
  have hc2 : ((st2.setTarget p (some c)).setTarget c (some p)).conns c =
      { st2.conns c with targetConnection := some p } := by
    rw [ConnState.setTarget_conns_same,
      ConnState.setTarget_conns_other _ _ _ _ (fun he => hpc he.symm)]
  have hc3 : ∀ x, x ≠ p → x ≠ c →
      ((st2.setTarget p (some c)).setTarget c (some p)).conns x =
      st2.conns x := by
    intro x hxp hxc
    rw [ConnState.setTarget_conns_other _ _ _ _ hxc,
      ConnState.setTarget_conns_other _ _ _ _ hxp]
  by_cases hev : st2.eventsEnabled = true
  · simp only [hev, if_true] at h
    cases h
    refine ⟨?_, ?_, ?_, ?_, ?_, ?_, ?_, ?_, ?_, ?_⟩
    · rw [recordFire_conns, ConnState.setBlockParent_conns, hc1]
    · rw [recordFire_conns, ConnState.setBlockParent_conns, hc2]
    · intro x hxp hxc
      rw [recordFire_conns, ConnState.setBlockParent_conns, hc3 x hxp hxc]
    · intro x hxcb
      rw [recordFire_blocks, ConnState.setBlockParent_blocks_other _ _ _ _ hxcb,
        ConnState.setTarget_blocks, ConnState.setTarget_blocks]
    · rw [recordFire_blocks, ConnState.setBlockParent_blocks_same,
        ConnState.setTarget_blocks, ConnState.setTarget_blocks]
    · rw [recordFire_fresh, ConnState.setBlockParent_fresh,
        ConnState.setTarget_fresh, ConnState.setTarget_fresh]
    · rw [recordFire_pendingBumps, ConnState.setBlockParent_pendingBumps,
        ConnState.setTarget_pendingBumps, ConnState.setTarget_pendingBumps]
    · rw [recordFire_eventsEnabled, ConnState.setBlockParent_eventsEnabled,
        ConnState.setTarget_eventsEnabled, ConnState.setTarget_eventsEnabled]
    · rw [recordFire_recordUndo, ConnState.setBlockParent_recordUndo,
        ConnState.setTarget_recordUndo, ConnState.setTarget_recordUndo]
    · intro hL
      exact StInv_recordFire _ _ (StInv_setBlockParent _ _ _ hL)
  · simp only [Bool.not_eq_true] at hev
    simp only [hev, Bool.false_eq_true, if_false] at h
    cases h
    refine ⟨?_, ?_, ?_, ?_, ?_, ?_, ?_, ?_, ?_, ?_⟩
    · rw [ConnState.setBlockParent_conns, hc1]
    · rw [ConnState.setBlockParent_conns, hc2]
    · intro x hxp hxc
      rw [ConnState.setBlockParent_conns, hc3 x hxp hxc]
    · intro x hxcb
      rw [ConnState.setBlockParent_blocks_other _ _ _ _ hxcb,
        ConnState.setTarget_blocks, ConnState.setTarget_blocks]
    · rw [ConnState.setBlockParent_blocks_same,
        ConnState.setTarget_blocks, ConnState.setTarget_blocks]
    · rw [ConnState.setBlockParent_fresh,
        ConnState.setTarget_fresh, ConnState.setTarget_fresh]
    · rw [ConnState.setBlockParent_pendingBumps,
        ConnState.setTarget_pendingBumps, ConnState.setTarget_pendingBumps]
    · rw [ConnState.setBlockParent_eventsEnabled,
        ConnState.setTarget_eventsEnabled, ConnState.setTarget_eventsEnabled]
    · rw [ConnState.setBlockParent_recordUndo,
        ConnState.setTarget_recordUndo, ConnState.setTarget_recordUndo]
    · intro hL
      exact StInv_setBlockParent _ _ _ hL

theorem connect_aux_shadow_spec (f : Nat) (κ : Checker) (p c oc : Nat)
    (st st' : ConnState)
    (hInv : StInv st) (hok : CheckerOk κ)
    (hpT : (st.conns p).targetConnection = some oc)
    (hc0 : (st.conns c).targetConnection = none)
    (hsh : (st.blocks ((st.conns oc).sourceBlock)).isShadow = true)
    (hpsup : isSuperior st p = true)
    (hioc2 : infOwnOk st c)
    (hop : oppositeTy (st.conns p).type (st.conns c).type)
    (hcb : c < st.fresh)
    (hscb : (st.conns c).sourceBlock < st.fresh)
    (hsne : (st.conns p).sourceBlock ≠ (st.conns c).sourceBlock)
    (h : connect_ f κ p c st = Except.ok st') :
    (st'.conns p).targetConnection = some c ∧
    (st'.conns c).targetConnection = some p ∧
    (st'.conns p).shadowDom = some (blockToDom st ((st.conns oc).sourceBlock)) ∧
    (st'.conns oc).targetConnection = none ∧
    st'.blocks ((st.conns oc).sourceBlock) =
      { st.blocks ((st.conns oc).sourceBlock) with
          parent := none, workspace := false } ∧
    (∀ x, x < st.fresh → x ≠ p → x ≠ c → x ≠ oc →
      (st'.conns x).targetConnection = (st.conns x).targetConnection) ∧
    (∀ x, x < st.fresh →
      (x ≠ p → (st'.conns x).shadowDom = (st.conns x).shadowDom) ∧
      (st'.conns x).type = (st.conns x).type ∧
      (st'.conns x).sourceBlock = (st.conns x).sourceBlock ∧
      (st'.conns x).check = (st.conns x).check ∧
      (st'.conns x).disposed = (st.conns x).disposed) ∧
    (∀ x, x < st.fresh → x ≠ ((st.conns oc).sourceBlock) →
      x ≠ (st.conns c).sourceBlock → st'.blocks x = st.blocks x) ∧
    st'.blocks ((st.conns c).sourceBlock) =
      { st.blocks ((st.conns c).sourceBlock) with
          parent := some ((st.conns p).sourceBlock) } ∧
    st.fresh ≤ st'.fresh ∧
    st'.pendingBumps = st.pendingBumps ∧
    st'.eventsEnabled = st.eventsEnabled ∧ st'.recordUndo = st.recordUndo ∧
    StInv st' := by
  have hlp := hInv.1 p oc hpT
  have hocM : (st.conns oc).targetConnection = some p := hlp.1
  have hpb : p < st.fresh := hlp.2.2.2.2.1
  have hocb : oc < st.fresh := hlp.2.2.2.2.2.1
  have hspb : (st.conns p).sourceBlock < st.fresh := hlp.2.2.2.2.2.2.1
  have hobb : (st.conns oc).sourceBlock < st.fresh := hlp.2.2.2.2.2.2.2.1
  have hioc_oc : infOwnOk st oc := hlp.2.2.2.1
  have hpoc : p ≠ oc := fun he => oppositeTy_ne hlp.2.1 (by rw [he])
  have hpc : p ≠ c := fun he => oppositeTy_ne hop (by rw [he])
  have hcoc : c ≠ oc := by
    intro he
    rw [he, hocM] at hc0
    exact Option.noConfusion hc0
  have hocsub : isSuperior st oc = false := by
    have hso := superior_opposite st p oc hlp.2.1
    rw [hpsup] at hso
    cases hv : isSuperior st oc with
    | false => rfl
    | true => rw [hv] at hso; simp at hso
  have hcsub : isSuperior st c = false := by
    have hso := superior_opposite st p c hop
    rw [hpsup] at hso
    cases hv : isSuperior st c with
    | false => rfl
    | true => rw [hv] at hso; simp at hso
  have htyce : (st.conns c).type = (st.conns oc).type :=
    oppositeTy_right_unique hop hlp.2.1
  have hobnec : (st.conns c).sourceBlock ≠ (st.conns oc).sourceBlock := by
    intro he
    have hsupP : (st.conns c).type = ConnType.outputValue ∨
        (st.conns c).type = ConnType.previousStatement := by
      have h' : ¬((st.conns c).type = ConnType.inputValue ∨
          (st.conns c).type = ConnType.nextStatement) := by
        intro hcon
        have hco : isSuperior st c = true := by simpa [isSuperior] using hcon
        rw [hco] at hcsub
        exact Bool.noConfusion hcsub
      cases hty : (st.conns c).type with
      | inputValue => exact absurd (Or.inl hty) h'
      | nextStatement => exact absurd (Or.inr hty) h'
      | outputValue => exact Or.inl rfl
      | previousStatement => exact Or.inr rfl
    rcases hsupP with hty | hty
    · have h1 := hioc2.1 hty
      have h2 := hioc_oc.1 (by rw [← htyce]; exact hty)
      rw [he, h2] at h1
      exact hcoc (Option.some_injective _ h1).symm
    · have h1 := hioc2.2 hty
      have h2 := hioc_oc.2 (by rw [← htyce]; exact hty)
      rw [he, h2] at h1
      exact hcoc (Option.some_injective _ h1).symm
  have hfield : ((st.blocks ((st.conns oc).sourceBlock)).outputConnection =
        some oc) ∨
      ((st.blocks ((st.conns oc).sourceBlock)).outputConnection = none ∧
        (st.blocks ((st.conns oc).sourceBlock)).previousConnection = some oc) := by
    have hotP : (st.conns oc).type = ConnType.outputValue ∨
        (st.conns oc).type = ConnType.previousStatement := by
      have h' : ¬((st.conns oc).type = ConnType.inputValue ∨
          (st.conns oc).type = ConnType.nextStatement) := by
        intro hcon
        have hco : isSuperior st oc = true := by simpa [isSuperior] using hcon
        rw [hco] at hocsub
        exact Bool.noConfusion hocsub
      cases hty : (st.conns oc).type with
      | inputValue => exact absurd (Or.inl hty) h'
      | nextStatement => exact absurd (Or.inr hty) h'
      | outputValue => exact Or.inl rfl
      | previousStatement => exact Or.inr rfl
    rcases hotP with hty | hty
    · exact Or.inl (hioc_oc.1 hty)
    · refine Or.inr ⟨?_, hioc_oc.2 hty⟩
      have hw := hInv.2.1 ((st.conns oc).sourceBlock)
      unfold blockWF at hw
      have hprev : ((st.blocks ((st.conns oc).sourceBlock)).previousConnection).isSome :=
        by rw [hioc_oc.2 hty]; rfl
      cases ho : (st.blocks ((st.conns oc).sourceBlock)).outputConnection with
      | none => rfl
      | some z =>
        exact absurd ⟨by rw [ho]; rfl, hprev⟩ hw
  cases f with
  | zero => simp [connect_] at h
  | succ f2 =>
    have hic : isConnected st c = false := by simp [isConnected, hc0]
    have hshA : ((st.setShadowDom p none).blocks
        ((st.conns oc).sourceBlock)).isShadow = true := by
      rw [ConnState.setShadowDom_blocks]; exact hsh
    simp only [connect_, hic, Bool.false_eq_true, if_false, hpT, hshA,
      if_true] at h
    split at h
    · exact Except.noConfusion h
    next st2 hst2 =>
      split at hst2
      · exact Except.noConfusion hst2
      next stB hbd =>
        cases hst2
        have hTA : ((st.setShadowDom p none).conns oc).targetConnection =
            some p := by
          rw [ConnState.setShadowDom_conns_other _ _ _ _
            (fun he => hpoc he.symm)]
          exact hocM
        have hMA : ((st.setShadowDom p none).conns p).targetConnection =
            some oc := by
          rw [ConnState.setShadowDom_conns_same]
          exact hpT
        have hsicA : isSuperior (st.setShadowDom p none) oc = false := by
          unfold isSuperior
          rw [ConnState.setShadowDom_conns_other _ _ _ _
            (fun he => hpoc he.symm)]
          unfold isSuperior at hocsub
          exact hocsub
        have hPsupA : isSuperior (st.setShadowDom p none) p = true := by
          unfold isSuperior
          rw [ConnState.setShadowDom_conns_same]
          unfold isSuperior at hpsup
          exact hpsup
        obtain ⟨b1, b2, b3, b4, b5, b6, b7, b8, b9, b10, b11⟩ :=
          blockDispose_linked_spec f2 κ ((st.conns oc).sourceBlock) oc p
            (st.setShadowDom p none) stB
            (by rw [ConnState.setShadowDom_blocks]; exact hfield)
            hTA hMA hsicA hPsupA
            (by rw [ConnState.setShadowDom_fresh]; exact hocb)
            (by rw [ConnState.setShadowDom_fresh]; exact hpb)
            (fun he => hpoc he.symm)
            (by rw [ConnState.setShadowDom_conns_other _ _ _ _
              (fun he => hpoc he.symm)])
            (by rw [ConnState.setShadowDom_fresh]; exact hobb)
            (by rw [ConnState.setShadowDom_conns_same])
            hbd
        simp only [connectReciprocally] at h
        obtain ⟨t1, t2, t3, t4, t5, t6, t7, t8, t9, t10⟩ :=
          connect_tail_spec _ p c _ _ st' hpc h
        have hfreshB : st.fresh ≤ stB.fresh := by
          have := b7
          rw [ConnState.setShadowDom_fresh] at this
          exact this
        have hblocksB_other : ∀ x, x < st.fresh →
            x ≠ (st.conns oc).sourceBlock → stB.blocks x = st.blocks x := by
          intro x hx hxo
          have := b5 x (by rw [ConnState.setShadowDom_fresh]; exact hx) hxo
          rw [ConnState.setShadowDom_blocks] at this
          exact this
        have htgtB : ∀ x, x < st.fresh → x ≠ oc → x ≠ p →
            (stB.conns x).targetConnection = (st.conns x).targetConnection := by
          intro x hx h1 h2
          have := b3 x (by rw [ConnState.setShadowDom_fresh]; exact hx) h1 h2
          rw [setShadowDom_tgt] at this
          exact this
        have hstatB : ∀ x, x < st.fresh →
            ((x ≠ p → (stB.conns x).shadowDom = (st.conns x).shadowDom) ∧
            (stB.conns x).type = (st.conns x).type ∧
            (stB.conns x).sourceBlock = (st.conns x).sourceBlock ∧
            (stB.conns x).check = (st.conns x).check ∧
            (stB.conns x).disposed = (st.conns x).disposed) := by
          intro x hx
          obtain ⟨u1, u2, u3, u4, u5⟩ := b4 x
            (by rw [ConnState.setShadowDom_fresh]; exact hx)
          refine ⟨?_, ?_, ?_, ?_, ?_⟩
          · intro hxp
            rw [u1, ConnState.setShadowDom_conns_other _ _ _ _ hxp]
          · rw [u2, setShadowDom_type]
          · rw [u3, setShadowDom_src]
          · rw [u4, setShadowDom_check]
          · rw [u5, setShadowDom_disposed]
        have hstatS : ∀ x,
            (st'.conns x).shadowDom = ((stB.setShadowDom p
              (some (blockToDom (st.setShadowDom p none)
                ((st.conns oc).sourceBlock)))).conns x).shadowDom ∧
            (st'.conns x).type = ((stB.setShadowDom p
              (some (blockToDom (st.setShadowDom p none)
                ((st.conns oc).sourceBlock)))).conns x).type ∧
            (st'.conns x).sourceBlock = ((stB.setShadowDom p
              (some (blockToDom (st.setShadowDom p none)
                ((st.conns oc).sourceBlock)))).conns x).sourceBlock ∧
            (st'.conns x).check = ((stB.setShadowDom p
              (some (blockToDom (st.setShadowDom p none)
                ((st.conns oc).sourceBlock)))).conns x).check ∧
            (st'.conns x).disposed = ((stB.setShadowDom p
              (some (blockToDom (st.setShadowDom p none)
                ((st.conns oc).sourceBlock)))).conns x).disposed := by
          intro x
          by_cases hxp : x = p
          · rw [hxp, t1]
            exact ⟨rfl, rfl, rfl, rfl, rfl⟩
          · by_cases hxc : x = c
            · rw [hxc, t2]
              exact ⟨rfl, rfl, rfl, rfl, rfl⟩
            · rw [t3 x hxp hxc]
              exact ⟨rfl, rfl, rfl, rfl, rfl⟩
        refine ⟨?_, ?_, ?_, ?_, ?_, ?_, ?_, ?_, ?_, ?_, ?_, ?_, ?_, ?_⟩
        · rw [t1]
        · rw [t2]
        · rw [(hstatS p).1, ConnState.setShadowDom_conns_same]
          rfl
        · rw [t3 oc (fun he => hpoc he.symm) (fun he => hcoc he.symm),
            setShadowDom_tgt]
          exact b1
        · rw [t4 _ (fun he => hobnec he.symm), ConnState.setShadowDom_blocks, b6,
            ConnState.setShadowDom_blocks]
        · intro x hx hxp hxc hxoc
          rw [t3 x hxp hxc, setShadowDom_tgt]
          exact htgtB x hx hxoc hxp
        · intro x hx
          obtain ⟨w1, w2, w3, w4, w5⟩ := hstatB x hx
          obtain ⟨v1, v2, v3, v4, v5⟩ := hstatS x
          refine ⟨?_, ?_, ?_, ?_, ?_⟩
          · intro hxp
            rw [v1, ConnState.setShadowDom_conns_other _ _ _ _ hxp]
            exact w1 hxp
          · rw [v2, setShadowDom_type]
            exact w2
          · rw [v3, setShadowDom_src]
            exact w3
          · rw [v4, setShadowDom_check]
            exact w4
          · rw [v5, setShadowDom_disposed]
            exact w5
        · intro x hx hxob hxsc
          rw [t4 x hxsc, ConnState.setShadowDom_blocks]
          exact hblocksB_other x hx hxob
        · rw [t5, ConnState.setShadowDom_blocks,
            hblocksB_other _ hscb hobnec]
        · rw [t6, ConnState.setShadowDom_fresh]
          exact hfreshB
        · rw [t7, ConnState.setShadowDom_pendingBumps]
          have := b8
          rw [ConnState.setShadowDom_pendingBumps] at this
          exact this
        · rw [t8, ConnState.setShadowDom_eventsEnabled]
          have := b9
          rw [ConnState.setShadowDom_eventsEnabled] at this
          exact this
        · rw [t9, ConnState.setShadowDom_recordUndo]
          have := b10
          rw [ConnState.setShadowDom_recordUndo] at this
          exact this
        · refine t10 ?_
          have hIA : StInv (st.setShadowDom p none) :=
            StInv_setShadowDom st p none (fun d hd => Option.noConfusion hd) hInv
          have hIB : StInv stB := b11 hIA hok
          have hdomWF : domWF (blockToDom (st.setShadowDom p none)
              ((st.conns oc).sourceBlock)) := by
            have hw := hInv.2.1 ((st.conns oc).sourceBlock)
            unfold blockWF at hw
            unfold domWF blockToDom
            rw [ConnState.setShadowDom_blocks]
            exact hw
          have hIS2 : StInv (stB.setShadowDom p
              (some (blockToDom (st.setShadowDom p none)
                ((st.conns oc).sourceBlock)))) :=
            StInv_setShadowDom stB p _
              (fun d hd => (Option.some_injective _ hd) ▸ hdomWF) hIB
          have htypP : ((stB.setShadowDom p (some (blockToDom
              (st.setShadowDom p none) ((st.conns oc).sourceBlock)))).conns
              p).type = (st.conns p).type := by
            rw [setShadowDom_type]
            exact (hstatB p hpb).2.1
          have htypC : ((stB.setShadowDom p (some (blockToDom
              (st.setShadowDom p none) ((st.conns oc).sourceBlock)))).conns
              c).type = (st.conns c).type := by
            rw [setShadowDom_type]
            exact (hstatB c hcb).2.1
          have hsrcP : ((stB.setShadowDom p (some (blockToDom
              (st.setShadowDom p none) ((st.conns oc).sourceBlock)))).conns
              p).sourceBlock = (st.conns p).sourceBlock := by
            rw [setShadowDom_src]
            exact (hstatB p hpb).2.2.1
          have hsrcC : ((stB.setShadowDom p (some (blockToDom
              (st.setShadowDom p none) ((st.conns oc).sourceBlock)))).conns
              c).sourceBlock = (st.conns c).sourceBlock := by
            rw [setShadowDom_src]
            exact (hstatB c hcb).2.2.1
          refine StInv_link _ p c hIS2 ?_ ?_ ?_ ?_ ?_ ?_ ?_ ?_ ?_ ?_
          · rw [setShadowDom_tgt]
            exact b2
          · rw [setShadowDom_tgt]
            exact htgtB c hcb (fun he => hcoc he) hpc.symm ▸ hc0
          · rw [htypP, htypC]
            exact hop
          · refine infOwnOk_of_superior _ p ?_
            unfold isSuperior
            rw [htypP]
            unfold isSuperior at hpsup
            exact hpsup
          · refine infOwnOk_transport htypC hsrcC ?_ ?_ hioc2
            · rw [ConnState.setShadowDom_blocks, hblocksB_other _ hscb hobnec]
            · rw [ConnState.setShadowDom_blocks, hblocksB_other _ hscb hobnec]
          · rw [ConnState.setShadowDom_fresh]
            exact lt_of_lt_of_le hpb hfreshB
          · rw [ConnState.setShadowDom_fresh]
            exact lt_of_lt_of_le hcb hfreshB
          · rw [hsrcP, ConnState.setShadowDom_fresh]
            exact lt_of_lt_of_le hspb hfreshB
          · rw [hsrcC, ConnState.setShadowDom_fresh]
            exact lt_of_lt_of_le hscb hfreshB
          · rw [hsrcP, hsrcC]
            exact hsne

theorem connect_shadow_spec (f : Nat) (κ : Checker) (a b s i oc : Nat)
    (st st' : ConnState)
    (hInv : StInv st) (hok : CheckerOk κ) (hk : κ st a b = true)
    (hroute : (isSuperior st a = true ∧ s = a ∧ i = b) ∨
      (isSuperior st a = false ∧ s = b ∧ i = a))
    (hsT : (st.conns s).targetConnection = some oc)
    (hsh : (st.blocks ((st.conns oc).sourceBlock)).isShadow = true)
    (hineq : i ≠ oc)
    (h : connect f κ a b st = Except.ok st') :
    (st'.conns s).targetConnection = some i ∧
    (st'.conns i).targetConnection = some s ∧
    (st'.conns s).shadowDom = some (blockToDom st ((st.conns oc).sourceBlock)) ∧
    (st'.conns oc).targetConnection = none ∧
    st'.blocks ((st.conns oc).sourceBlock) =
      { st.blocks ((st.conns oc).sourceBlock) with
          parent := none, workspace := false } ∧
    (∀ x, x < st.fresh → x ≠ s → x ≠ i → x ≠ oc →
      (st.conns x).targetConnection ≠ some i →
      (st'.conns x).targetConnection = (st.conns x).targetConnection) ∧
    (∀ x, x < st.fresh → (st.conns x).targetConnection = some i →
      ((st'.conns x).targetConnection = none ∨
        ∃ z, st.fresh ≤ z ∧ (st'.conns x).targetConnection = some z)) ∧
    (∀ x, x < st.fresh → (st.conns x).targetConnection = some i →
      (st.conns x).shadowDom = none →
      (st'.conns x).targetConnection = none) ∧
    (∀ x, x < st.fresh →
      (x ≠ s → (st'.conns x).shadowDom = (st.conns x).shadowDom) ∧
      (st'.conns x).type = (st.conns x).type ∧
      (st'.conns x).sourceBlock = (st.conns x).sourceBlock ∧
      (st'.conns x).check = (st.conns x).check ∧
      (st'.conns x).disposed = (st.conns x).disposed) ∧
    (∀ x, x < st.fresh → x ≠ ((st.conns oc).sourceBlock) →
      x ≠ (st.conns i).sourceBlock → st'.blocks x = st.blocks x) ∧
    st'.blocks ((st.conns i).sourceBlock) =
      { st.blocks ((st.conns i).sourceBlock) with
          parent := some ((st.conns s).sourceBlock) } ∧
    st.fresh ≤ st'.fresh ∧
    st'.pendingBumps = st.pendingBumps ∧
    st'.eventsEnabled = st.eventsEnabled ∧ st'.recordUndo = st.recordUndo ∧
    StInv st' := by
  obtain ⟨hopab, hioa, hiob, hab1, hab2, hsab1, hsab2, hsabne⟩ := hok st a b hk
  have hfacts : oppositeTy (st.conns s).type (st.conns i).type ∧
      infOwnOk st s ∧ infOwnOk st i ∧ s < st.fresh ∧ i < st.fresh ∧
      (st.conns s).sourceBlock < st.fresh ∧
      (st.conns i).sourceBlock < st.fresh ∧
      (st.conns s).sourceBlock ≠ (st.conns i).sourceBlock ∧
      isSuperior st s = true ∧ isSuperior st i = false := by
    rcases hroute with ⟨ha, h1, h2⟩ | ⟨ha, h1, h2⟩ <;> subst h1 <;> subst h2
    · have hbinf : isSuperior st i = false := by
        have hso := superior_opposite st s i hopab
        rw [ha] at hso
        cases hbv : isSuperior st i with
        | false => rfl
        | true => rw [hbv] at hso; simp at hso
      exact ⟨hopab, hioa, hiob, hab1, hab2, hsab1, hsab2, hsabne, ha, hbinf⟩
    · have hbsup : isSuperior st s = true := by
        have hso := superior_opposite st i s hopab
        rw [ha] at hso
        cases hbv : isSuperior st s with
        | true => rfl
        | false => rw [hbv] at hso; simp at hso
      exact ⟨oppositeTy_symm hopab, hiob, hioa, hab2, hab1, hsab2, hsab1,
        fun he => hsabne he.symm, hbsup, ha⟩
  obtain ⟨hop, hios, hioi, hsb', hib', hssb, hisb, hsne, hssup, hisub⟩ := hfacts
  have hsi : s ≠ i := by
    intro he
    rw [he, hisub] at hssup
    exact Bool.noConfusion hssup
  have hlsoc := hInv.1 s oc hsT
  have hocM : (st.conns oc).targetConnection = some s := hlsoc.1
  have hocb : oc < st.fresh := hlsoc.2.2.2.2.2.1
  have hsoc : s ≠ oc := fun he => oppositeTy_ne hlsoc.2.1 (by rw [he])
  cases f with
  | zero => simp [connect] at h
  | succ f1 =>
    have hnr : ¬((st.conns a).targetConnection = some b) := by
      rcases hroute with ⟨ha, h1, h2⟩ | ⟨ha, h1, h2⟩
      · rw [← h1, hsT]
        intro hh
        exact hineq (h2 ▸ (Option.some_injective _ hh).symm)
      · rw [← h2]
        intro hh
        have hby := (hInv.1 i b hh).1
        rw [← h1, hsT] at hby
        exact hineq (Option.some_injective _ hby).symm
    simp only [connect, if_neg hnr, hk, if_true] at h
    have hkey : ∀ (st1g : ConnState), st1g.conns = st.conns →
        st1g.blocks = st.blocks → st1g.fresh = st.fresh →
        st1g.pendingBumps = st.pendingBumps →
        st1g.eventsEnabled = st.eventsEnabled →
        st1g.recordUndo = st.recordUndo →
        ∀ (st2 : ConnState), connect_ f1 κ s i st1g = Except.ok st2 →
        (st2.conns s).targetConnection = some i ∧
        (st2.conns i).targetConnection = some s ∧
        (st2.conns s).shadowDom =
          some (blockToDom st ((st.conns oc).sourceBlock)) ∧
        (st2.conns oc).targetConnection = none ∧
        st2.blocks ((st.conns oc).sourceBlock) =
          { st.blocks ((st.conns oc).sourceBlock) with
              parent := none, workspace := false } ∧
        (∀ x, x < st.fresh → x ≠ s → x ≠ i → x ≠ oc →
          (st.conns x).targetConnection ≠ some i →
          (st2.conns x).targetConnection = (st.conns x).targetConnection) ∧
        (∀ x, x < st.fresh → (st.conns x).targetConnection = some i →
          ((st2.conns x).targetConnection = none ∨
            ∃ z, st.fresh ≤ z ∧ (st2.conns x).targetConnection = some z)) ∧
        (∀ x, x < st.fresh → (st.conns x).targetConnection = some i →
          (st.conns x).shadowDom = none →
          (st2.conns x).targetConnection = none) ∧
        (∀ x, x < st.fresh →
          (x ≠ s → (st2.conns x).shadowDom = (st.conns x).shadowDom) ∧
          (st2.conns x).type = (st.conns x).type ∧
          (st2.conns x).sourceBlock = (st.conns x).sourceBlock ∧
          (st2.conns x).check = (st.conns x).check ∧
          (st2.conns x).disposed = (st.conns x).disposed) ∧
        (∀ x, x < st.fresh → x ≠ ((st.conns oc).sourceBlock) →
          x ≠ (st.conns i).sourceBlock → st2.blocks x = st.blocks x) ∧
        st2.blocks ((st.conns i).sourceBlock) =
          { st.blocks ((st.conns i).sourceBlock) with
              parent := some ((st.conns s).sourceBlock) } ∧
        st.fresh ≤ st2.fresh ∧
        st2.pendingBumps = st.pendingBumps ∧
        st2.eventsEnabled = st.eventsEnabled ∧
        st2.recordUndo = st.recordUndo ∧
        StInv st2 := by
      intro st1g hgc hgb hgf hgp hge hgr st2 hx
      have hInvG : StInv st1g := StInv_of_eq hgc hgb hgf hInv
      rcases hio : (st.conns i).targetConnection with _ | q
      · obtain ⟨a1, a2, a3, a4, a5, a6, a7, a8, a9, a10, a11, a12, a13, a14⟩ :=
          connect_aux_shadow_spec f1 κ s i oc st1g st2 hInvG hok
            (by rw [hgc]; exact hsT) (by rw [hgc]; exact hio)
            (by rw [hgb, hgc]; exact hsh)
            (by unfold isSuperior; rw [hgc]; exact hssup)
            (by unfold infOwnOk; rw [hgc, hgb]; exact hioi)
            (by rw [hgc]; exact hop)
            (by rw [hgf]; exact hib')
            (by rw [hgc, hgf]; exact hisb)
            (by rw [hgc]; exact hsne) hx
        rw [hgc, hgb] at a5 a9
        refine ⟨a1, a2, ?_, a4, a5, ?_, ?_, ?_, ?_, ?_, a9, ?_, ?_, ?_, ?_, a14⟩
        · rw [a3, hgc]
          have hbt : blockToDom st1g ((st.conns oc).sourceBlock) =
              blockToDom st ((st.conns oc).sourceBlock) := by
            unfold blockToDom
            rw [hgb]
          rw [hbt]
        · intro x h1 h2 h3 h4 h5
          have := a6 x (by rw [hgf]; exact h1) h2 h3 h4
          rw [hgc] at this
          exact this
        · intro x h1 h2
          have hrx := (hInv.1 x i h2).1
          rw [hio] at hrx
          exact Option.noConfusion hrx
        · intro x h1 h2
          have hrx := (hInv.1 x i h2).1
          rw [hio] at hrx
          exact Option.noConfusion hrx
        · intro x h1
          have := a7 x (by rw [hgf]; exact h1)
          rw [hgc] at this
          exact this
        · intro x h1 h2 h3
          have := a8 x (by rw [hgf]; exact h1) (by rw [hgc]; exact h2)
            (by rw [hgc]; exact h3)
          rw [hgb] at this
          exact this
        · rw [hgf] at a10
          exact a10
        · rw [a11, hgp]
        · rw [a12, hge]
        · rw [a13, hgr]
      · have hlq := hInv.1 i q hio
        have hqM : (st.conns q).targetConnection = some i := hlq.1
        have hiq : i ≠ q := fun he => oppositeTy_ne hlq.2.1 (by rw [he])
        have hqb : q < st.fresh := hlq.2.2.2.2.2.1
        have hsq : s ≠ q := by
          intro he
          rw [he, hqM] at hsT
          exact hineq (Option.some_injective _ hsT)
        have hqoc : q ≠ oc := by
          intro he
          rw [he, hocM] at hqM
          exact hsi (Option.some_injective _ hqM)
        have hqsup : isSuperior st q = true := by
          have hso := superior_opposite st i q hlq.2.1
          rw [hisub] at hso
          cases hqv : isSuperior st q with
          | true => rfl
          | false => rw [hqv] at hso; simp at hso
        cases f1 with
        | zero => simp [connect_] at hx
        | succ f2 =>
          have hic : isConnected st1g i = true := by
            simp [isConnected, hgc, hio]
          have hdex : ∃ st1, disconnect f2 κ i st1g = Except.ok st1 := by
            have hx' := hx
            simp only [connect_, hic, if_true] at hx'
            split at hx'
            · exact Except.noConfusion hx'
            next st1 hd => exact ⟨st1, hd⟩
          obtain ⟨st1, hd⟩ := hdex
          obtain ⟨d1, d2, d3, d4, d5, d6, d7, d8, d9, d10, d11, d12⟩ :=
            disconnect_spec f2 κ i q q i st1g st1
              (by rw [hgc]; exact hio) (by rw [hgc]; exact hqM)
              (Or.inr ⟨by unfold isSuperior; rw [hgc]; exact hisub, rfl, rfl⟩)
              (by unfold isSuperior; rw [hgc]; exact hqsup)
              (by rw [hgf]; exact hib') (by rw [hgf]; exact hqb) hiq hd
          rw [hgf] at d2 d4 d5 d6 d7 d8
          rw [hgc] at d3 d4 d5 d6 d7
          rw [hgb] at d6 d7
          have hic1 : isConnected st1 i = false := by
            simp [isConnected, d1]
          have hobni : (st.conns i).sourceBlock ≠ (st.conns oc).sourceBlock := by
            intro he
            have hocsub : isSuperior st oc = false := by
              have hso := superior_opposite st s oc hlsoc.2.1
              rw [hssup] at hso
              cases hv : isSuperior st oc with
              | false => rfl
              | true => rw [hv] at hso; simp at hso
            have htyce : (st.conns i).type = (st.conns oc).type :=
              oppositeTy_right_unique hop hlsoc.2.1
            have hioc_oc : infOwnOk st oc := hlsoc.2.2.2.1
            have hsupP : (st.conns i).type = ConnType.outputValue ∨
                (st.conns i).type = ConnType.previousStatement := by
              have h' : ¬((st.conns i).type = ConnType.inputValue ∨
                  (st.conns i).type = ConnType.nextStatement) := by
                intro hcon
                have hco : isSuperior st i = true := by
                  simpa [isSuperior] using hcon
                rw [hco] at hisub
                exact Bool.noConfusion hisub
              cases hty : (st.conns i).type with
              | inputValue => exact absurd (Or.inl hty) h'
              | nextStatement => exact absurd (Or.inr hty) h'
              | outputValue => exact Or.inl rfl
              | previousStatement => exact Or.inr rfl
            rcases hsupP with hty | hty
            · have h1 := hioi.1 hty
              have h2 := hioc_oc.1 (by rw [← htyce]; exact hty)
              rw [he, h2] at h1
              exact hineq (Option.some_injective _ h1).symm
            · have h1 := hioi.2 hty
              have h2 := hioc_oc.2 (by rw [← htyce]; exact hty)
              rw [he, h2] at h1
              exact hineq (Option.some_injective _ h1).symm
          have hsrceq_i : (st1.conns i).sourceBlock =
              (st1g.conns i).sourceBlock := by
            rw [hgc]
            exact (d5 i hib').2.2.1
          have hsrceq_s : (st1.conns s).sourceBlock =
              (st1g.conns s).sourceBlock := by
            rw [hgc]
            exact (d5 s hsb').2.2.1
          rw [connect_aux_predisconnect f2 κ s i st1g st1 hic hd hic1
            hsrceq_i hsrceq_s] at hx
          have hblk_ob : st1.blocks ((st.conns oc).sourceBlock) =
              st.blocks ((st.conns oc).sourceBlock) :=
            d6 _ hlsoc.2.2.2.2.2.2.2.1 (fun he => hobni he.symm)
          have hblk_srci : st1.blocks ((st.conns i).sourceBlock) =
              { st.blocks ((st.conns i).sourceBlock) with parent := none } :=
            d7 hisb
          have hs1T : (st1.conns s).targetConnection = some oc := by
            rw [d4 s hsb' hsi hsq]
            exact hsT
          have hsrcoc1 : (st1.conns oc).sourceBlock =
              (st.conns oc).sourceBlock := (d5 oc hocb).2.2.1
          have hInv1 : StInv st1 := d12 hInvG hok
          obtain ⟨a1, a2, a3, a4, a5, a6, a7, a8, a9, a10, a11, a12, a13, a14⟩ :=
            connect_aux_shadow_spec (f2 + 1) κ s i oc st1 st2 hInv1 hok
              hs1T d1
              (by rw [hsrcoc1, hblk_ob]; exact hsh)
              (by unfold isSuperior; rw [(d5 s hsb').2.1]; exact hssup)
              (by
                refine @infOwnOk_transport (st) (st1) _
                  (d5 i hib').2.1 ((d5 i hib').2.2.1) ?_ ?_ hioi
                · rw [hblk_srci]
                · rw [hblk_srci])
              (by rw [(d5 s hsb').2.1, (d5 i hib').2.1]; exact hop)
              (lt_of_lt_of_le hib' d8)
              (by rw [(d5 i hib').2.2.1]; exact lt_of_lt_of_le hisb d8)
              (by rw [(d5 s hsb').2.2.1, (d5 i hib').2.2.1]; exact hsne)
              hx
          rw [hsrcoc1] at a3 a5 a8
          rw [(d5 i hib').2.2.1] at a8 a9
          rw [(d5 s hsb').2.2.1] at a9
          have hbt1 : blockToDom st1 ((st.conns oc).sourceBlock) =
              blockToDom st ((st.conns oc).sourceBlock) := by
            unfold blockToDom
            rw [hblk_ob]
          refine ⟨a1, a2, ?_, a4, ?_, ?_, ?_, ?_, ?_, ?_, ?_, ?_, ?_, ?_, ?_, a14⟩
          · rw [a3, hbt1]
          · rw [a5, hblk_ob]
          · intro x hx1 hx2 hx3 hx4 hx5
            have hxq : x ≠ q := by
              intro he
              rw [he, hqM] at hx5
              exact hx5 rfl
            have h6 := a6 x (lt_of_lt_of_le hx1 d8) hx2 hx3 hx4
            rw [h6, d4 x hx1 hx3 hxq]
          · intro x hx1 hx2
            have hxeq : x = q := by
              have hrx := (hInv.1 x i hx2).1
              rw [hio] at hrx
              exact (Option.some_injective _ hrx).symm
            have hxs : x ≠ s := by rw [hxeq]; exact fun he => hsq he.symm
            have hxi : x ≠ i := by rw [hxeq]; exact fun he => hiq he.symm
            have hxoc : x ≠ oc := by rw [hxeq]; exact hqoc
            have h6 := a6 x (lt_of_lt_of_le hx1 d8) hxs hxi hxoc
            rw [h6, hxeq]
            rcases d2 with hn | ⟨z, hz1, hz2⟩
            · exact Or.inl hn
            · exact Or.inr ⟨z, hz1, hz2⟩
          · intro x hx1 hx2 hx3
            have hxeq : x = q := by
              have hrx := (hInv.1 x i hx2).1
              rw [hio] at hrx
              exact (Option.some_injective _ hrx).symm
            have hxs : x ≠ s := by rw [hxeq]; exact fun he => hsq he.symm
            have hxi : x ≠ i := by rw [hxeq]; exact fun he => hiq he.symm
            have hxoc : x ≠ oc := by rw [hxeq]; exact hqoc
            have h6 := a6 x (lt_of_lt_of_le hx1 d8) hxs hxi hxoc
            rw [h6, hxeq]
            refine d3 ?_
            rw [← hxeq]
            exact hx3
          · intro x hx1
            obtain ⟨u1, u2, u3, u4, u5⟩ := a7 x (lt_of_lt_of_le hx1 d8)
            obtain ⟨v1, v2, v3, v4, v5⟩ := d5 x hx1
            refine ⟨?_, u2.trans v2, u3.trans v3, u4.trans v4, u5.trans v5⟩
            intro hxs
            rw [u1 hxs, v1]
          · intro x hx1 hx2 hx3
            have h8 := a8 x (lt_of_lt_of_le hx1 d8) hx2 hx3
            rw [h8]
            exact d6 x hx1 hx3
          · rw [a9, hblk_srci]
          · exact le_trans d8 a10
          · rw [a11, d9, hgp]
          · rw [a12, d10, hge]
          · rw [a13, d11, hgr]
      -- close hkey
    rcases hg : st.eventGroup with _ | g0
    · simp only [ConnState.getGroup, hg, Option.isNone_none, if_true] at h
      cases hx : (if isSuperior st.setGroupNew a then connect_ f1 κ a b st.setGroupNew
          else connect_ f1 κ b a st.setGroupNew) with
      | error e => rw [hx] at h; exact Except.noConfusion h
      | ok st2 =>
        rw [hx] at h
        cases h
        have hiseq : isSuperior st.setGroupNew a = isSuperior st a := rfl
        have hx2 : connect_ f1 κ s i st.setGroupNew = Except.ok st2 := by
          rcases hroute with ⟨ha, h1, h2⟩ | ⟨ha, h1, h2⟩
          · rw [if_pos (hiseq.trans ha)] at hx
            rw [h1, h2]
            exact hx
          · have hsg : ¬(isSuperior st.setGroupNew a = true) := by
              rw [hiseq, ha]
              exact fun hh => Bool.noConfusion hh
            rw [if_neg hsg] at hx
            rw [h1, h2]
            exact hx
        obtain ⟨k1, k2, k3, k4, k5, k6, k7, k8, k9, k10, k11, k12, k13, k14,
          k15, k16⟩ := hkey st.setGroupNew rfl rfl rfl rfl rfl rfl st2 hx2
        refine ⟨k1, k2, k3, k4, k5, k6, k7, k8, k9, k10, k11, k12, k13, k14,
          k15, ?_⟩
        exact StInv_of_eq (by simp) (by simp) (by simp) k16
    · simp only [ConnState.getGroup, hg, Option.isNone_some, Bool.false_eq_true,
        if_false] at h
      cases hx : (if isSuperior st a then connect_ f1 κ a b st
          else connect_ f1 κ b a st) with
      | error e => rw [hx] at h; exact Except.noConfusion h
      | ok st2 =>
        rw [hx] at h
        cases h
        have hx2 : connect_ f1 κ s i st = Except.ok st' := by
          rcases hroute with ⟨ha, h1, h2⟩ | ⟨ha, h1, h2⟩
          · rw [if_pos ha] at hx
            rw [h1, h2]
            exact hx
          · rw [if_neg (by rw [ha]; exact fun hh => Bool.noConfusion hh)] at hx
            rw [h1, h2]
            exact hx
        exact hkey st rfl rfl rfl rfl rfl rfl st' hx2

theorem singleConnection_post (κ : Checker) (st : ConnState)
    (block orphanBlock connection out : Nat)
    (hout : (st.blocks orphanBlock).outputConnection = some out)
    (h : singleConnection_ κ st block orphanBlock = some connection) :
    (st.conns connection).type = ConnType.inputValue ∧
    κ st out connection = true := by
  unfold singleConnection_ at h
  simp only [hout] at h
  split at h
  next c hl =>
    cases h
    have hmem : connection ∈ ([connection] : List Nat) :=
      List.mem_singleton_self connection
    rw [← hl] at hmem
    obtain ⟨a, ha, hfa⟩ := List.mem_filterMap.mp hmem
    rcases a with _ | tc
    · exact Option.noConfusion hfa
    · have hfa' : (if ((st.conns tc).type = ConnType.inputValue &&
          κ st out tc) = true then some tc else none) = some connection := hfa
      by_cases hcond : ((st.conns tc).type = ConnType.inputValue &&
          κ st out tc) = true
      · rw [if_pos hcond] at hfa'
        have htc : tc = connection := Option.some_injective _ hfa'
        subst htc
        have hand : (st.conns tc).type = ConnType.inputValue ∧
            κ st out tc = true := by simpa using hcond
        exact hand
      · rw [if_neg hcond] at hfa'
        exact Option.noConfusion hfa'
  next => exact Option.noConfusion h

theorem lastConnectionInRow_post (κ : Checker) (fuel : Nat) (st : ConnState)
    (startBlock orphanBlock connection out : Nat)
    (hout : (st.blocks orphanBlock).outputConnection = some out)
    (h : lastConnectionInRow κ fuel st startBlock orphanBlock =
      some connection) :
    (st.conns connection).type = ConnType.inputValue ∧
    κ st out connection = true ∧
    ((st.conns connection).targetConnection = none ∨
      ∃ tc, (st.conns connection).targetConnection = some tc ∧
        (st.blocks ((st.conns tc).sourceBlock)).isShadow = true) := by
  induction fuel generalizing startBlock with
  | zero => simp [lastConnectionInRow] at h
  | succ f ih =>
    unfold lastConnectionInRow at h
    split at h
    · exact Option.noConfusion h
    next conn0 hsc =>
      rcases htgt : (st.conns conn0).targetConnection with _ | tc
      · simp only [htgt] at h
        cases h
        obtain ⟨u1, u2⟩ := singleConnection_post κ st startBlock orphanBlock
          connection out hout hsc
        exact ⟨u1, u2, Or.inl htgt⟩
      · simp only [htgt] at h
        by_cases hsh' : (st.blocks ((st.conns tc).sourceBlock)).isShadow = true
        · simp only [hsh', if_true] at h
          cases h
          obtain ⟨u1, u2⟩ := singleConnection_post κ st startBlock orphanBlock
            connection out hout hsc
          exact ⟨u1, u2, Or.inr ⟨tc, htgt, hsh'⟩⟩
        · simp only [Bool.not_eq_true] at hsh'
          simp only [hsh', Bool.false_eq_true, if_false] at h
          exact ih _ h

theorem spliceStack_spec (fuel : Nat) (κ : Checker) (newBlock orphanPrev : Nat)
    (st stB : ConnState) (flag : Bool)
    (h : spliceStack fuel κ newBlock orphanPrev st = Except.ok (stB, flag)) :
    (flag = false ∧ stB = st) ∨
    (flag = true ∧ ∃ f3 nc,
      κ st orphanPrev nc = true ∧
      ((st.conns nc).targetConnection = none ∨
        ∃ tc, (st.conns nc).targetConnection = some tc ∧
          (st.blocks ((st.conns tc).sourceBlock)).isShadow = true) ∧
      (∃ wb, (st.blocks wb).nextConnection = some nc) ∧
      connect f3 κ nc orphanPrev st = Except.ok stB) := by
  induction fuel generalizing newBlock with
  | zero => simp [spliceStack] at h
  | succ f ih =>
    unfold spliceStack at h
    split at h
    · cases h
      exact Or.inl ⟨rfl, rfl⟩
    next nc hnc =>
      split at h
      next tc htc =>
        by_cases hsh : (st.blocks ((st.conns tc).sourceBlock)).isShadow = true
        · simp only [hsh, if_true] at h
          by_cases hk : κ st orphanPrev nc = true
          · simp only [hk, if_true] at h
            split at h
            · exact Except.noConfusion h
            next st1 hcon =>
              cases h
              exact Or.inr ⟨rfl, f, nc, hk, Or.inr ⟨tc, htc, hsh⟩,
                ⟨newBlock, hnc⟩, hcon⟩
          · simp only [Bool.not_eq_true] at hk
            simp only [hk, Bool.false_eq_true, if_false] at h
            cases h
            exact Or.inl ⟨rfl, rfl⟩
        · simp only [Bool.not_eq_true] at hsh
          simp only [hsh, Bool.false_eq_true, if_false] at h
          exact ih _ h
      next htc =>
        by_cases hk : κ st orphanPrev nc = true
        · simp only [hk, if_true] at h
          split at h
          · exact Except.noConfusion h
          next st1 hcon =>
            cases h
            exact Or.inr ⟨rfl, f, nc, hk, Or.inl htc, ⟨newBlock, hnc⟩, hcon⟩
        · simp only [Bool.not_eq_true] at hk
          simp only [hk, Bool.false_eq_true, if_false] at h
          cases h
          exact Or.inl ⟨rfl, rfl⟩

theorem connect_finish (st2 stref st' : ConnState) (p c CB PB : Nat)
    (hpc : p ≠ c)
    (h : (Except.ok (match (if st2.eventsEnabled = true
          then some (mkMove st2 CB) else none) with
        | some e => recordFire (((st2.setTarget p (some c)).setTarget c
            (some p)).setBlockParent CB (some PB)) e
        | none => ((st2.setTarget p (some c)).setTarget c
            (some p)).setBlockParent CB (some PB)) :
        Except Err ConnState) = Except.ok st')
    (hInv2 : StInv st2)
    (hp2 : (st2.conns p).targetConnection = none)
    (hc2 : (st2.conns c).targetConnection = none)
    (hstat : ∀ x, x < stref.fresh →
      (st2.conns x).type = (stref.conns x).type ∧
      (st2.conns x).sourceBlock = (stref.conns x).sourceBlock ∧
      (st2.conns x).check = (stref.conns x).check ∧
      (st2.conns x).disposed = (stref.conns x).disposed)
    (hfresh : stref.fresh ≤ st2.fresh)
    (hev : st2.eventsEnabled = stref.eventsEnabled)
    (hru : st2.recordUndo = stref.recordUndo)
    (hop : oppositeTy (stref.conns p).type (stref.conns c).type)
    (hiop2 : infOwnOk st2 p) (hioc2' : infOwnOk st2 c)
    (hpb : p < stref.fresh) (hcb : c < stref.fresh)
    (hspb : (stref.conns p).sourceBlock < stref.fresh)
    (hscb : (stref.conns c).sourceBlock < stref.fresh)
    (hsne : (stref.conns p).sourceBlock ≠ (stref.conns c).sourceBlock) :
    (st'.conns p).targetConnection = some c ∧
    (st'.conns c).targetConnection = some p ∧
    stref.fresh ≤ st'.fresh ∧
    (∀ x, x < stref.fresh →
      (st'.conns x).type = (stref.conns x).type ∧
      (st'.conns x).sourceBlock = (stref.conns x).sourceBlock ∧
      (st'.conns x).check = (stref.conns x).check ∧
      (st'.conns x).disposed = (stref.conns x).disposed) ∧
    st'.eventsEnabled = stref.eventsEnabled ∧
    st'.recordUndo = stref.recordUndo ∧
    StInv st' := by
  obtain ⟨t1, t2, t3, t4, t5, t6, t7, t8, t9, t10⟩ :=
    connect_tail_spec st2 p c CB PB st' hpc h
  refine ⟨?_, ?_, ?_, ?_, ?_, ?_, ?_⟩
  · rw [t1]
  · rw [t2]
  · rw [t6]
    exact le_trans hfresh (le_refl _)
  · intro x hx
    have hsx := hstat x hx
    by_cases hxp : x = p
    · rw [hxp, t1]
      exact hxp ▸ hsx
    · by_cases hxc : x = c
      · rw [hxc, t2]
        exact hxc ▸ hsx
      · rw [t3 x hxp hxc]
        exact hsx
  · rw [t8, hev]
  · rw [t9, hru]
  · refine t10 ?_
    refine StInv_link st2 p c hInv2 hp2 hc2 ?_ hiop2 hioc2' ?_ ?_ ?_ ?_ ?_
    · rw [(hstat p hpb).1, (hstat c hcb).1]
      exact hop
    · exact lt_of_lt_of_le hpb hfresh
    · exact lt_of_lt_of_le hcb hfresh
    · rw [(hstat p hpb).2.1]
      exact lt_of_lt_of_le hspb hfresh
    · rw [(hstat c hcb).2.1]
      exact lt_of_lt_of_le hscb hfresh
    · rw [(hstat p hpb).2.1, (hstat c hcb).2.1]
      exact hsne

theorem connect_restore_finish (stB st st' : ConnState) (p c CB PB : Nat)
    (SH : Option ShadowDom)
    (hpc : p ≠ c)
    (h : (Except.ok (match (if (stB.setShadowDom p SH).eventsEnabled = true
          then some (mkMove (stB.setShadowDom p SH) CB) else none) with
        | some e => recordFire ((((stB.setShadowDom p SH).setTarget p
            (some c)).setTarget c (some p)).setBlockParent CB (some PB)) e
        | none => (((stB.setShadowDom p SH).setTarget p
            (some c)).setTarget c (some p)).setBlockParent CB (some PB)) :
        Except Err ConnState) = Except.ok st')
    (hSH : ∀ d, SH = some d → domWF d)
    (hInvB : StInv stB)
    (hpB : (stB.conns p).targetConnection = none)
    (hcB : (stB.conns c).targetConnection = none)
    (hstatB : ∀ x, x < st.fresh →
      (stB.conns x).type = (st.conns x).type ∧
      (stB.conns x).sourceBlock = (st.conns x).sourceBlock ∧
      (stB.conns x).check = (st.conns x).check ∧
      (stB.conns x).disposed = (st.conns x).disposed)
    (hfreshB : st.fresh ≤ stB.fresh)
    (hevB : stB.eventsEnabled = st.eventsEnabled)
    (hruB : stB.recordUndo = st.recordUndo)
    (hop : oppositeTy (st.conns p).type (st.conns c).type)
    (hpsup : isSuperior st p = true)
    (hiocB : infOwnOk stB c)
    (hpb : p < st.fresh) (hcb : c < st.fresh)
    (hspb : (st.conns p).sourceBlock < st.fresh)
    (hscb : (st.conns c).sourceBlock < st.fresh)
    (hsne : (st.conns p).sourceBlock ≠ (st.conns c).sourceBlock) :
    (st'.conns p).targetConnection = some c ∧
    (st'.conns c).targetConnection = some p ∧
    st.fresh ≤ st'.fresh ∧
    (∀ x, x < st.fresh →
      (st'.conns x).type = (st.conns x).type ∧
      (st'.conns x).sourceBlock = (st.conns x).sourceBlock ∧
      (st'.conns x).check = (st.conns x).check ∧
      (st'.conns x).disposed = (st.conns x).disposed) ∧
    st'.eventsEnabled = st.eventsEnabled ∧
    st'.recordUndo = st.recordUndo ∧
    StInv st' := by
  have hstat2 : ∀ x, x < st.fresh →
      ((stB.setShadowDom p SH).conns x).type = (st.conns x).type ∧
      ((stB.setShadowDom p SH).conns x).sourceBlock = (st.conns x).sourceBlock ∧
      ((stB.setShadowDom p SH).conns x).check = (st.conns x).check ∧
      ((stB.setShadowDom p SH).conns x).disposed = (st.conns x).disposed := by
    intro x hx
    obtain ⟨u1, u2, u3, u4⟩ := hstatB x hx
    exact ⟨by rw [setShadowDom_type]; exact u1,
      by rw [setShadowDom_src]; exact u2,
      by rw [setShadowDom_check]; exact u3,
      by rw [setShadowDom_disposed]; exact u4⟩
  refine connect_finish (stB.setShadowDom p SH) st st' p c CB PB hpc h
    (StInv_setShadowDom stB p SH hSH hInvB)
    (by rw [setShadowDom_tgt]; exact hpB)
    (by rw [setShadowDom_tgt]; exact hcB)
    hstat2
    (by rw [ConnState.setShadowDom_fresh]; exact hfreshB)
    (by rw [ConnState.setShadowDom_eventsEnabled]; exact hevB)
    (by rw [ConnState.setShadowDom_recordUndo]; exact hruB)
    hop ?_ ?_ hpb hcb hspb hscb hsne
  · refine infOwnOk_of_superior _ p ?_
    unfold isSuperior
    rw [(hstat2 p hpb).1]
    unfold isSuperior at hpsup
    exact hpsup
  · refine @infOwnOk_transport (stB) (stB.setShadowDom p SH) _
      (by rw [setShadowDom_type]) (by rw [setShadowDom_src]) ?_ ?_ hiocB
    · rw [ConnState.setShadowDom_blocks]
    · rw [ConnState.setShadowDom_blocks]

theorem inferior_type (st : ConnState) (x : Nat) (hx : isSuperior st x = false) :
    (st.conns x).type = ConnType.outputValue ∨
    (st.conns x).type = ConnType.previousStatement := by
  have h' : ¬((st.conns x).type = ConnType.inputValue ∨
      (st.conns x).type = ConnType.nextStatement) := by
    intro hcon
    have hx' : isSuperior st x = true := by simpa [isSuperior] using hcon
    rw [hx'] at hx
    exact Bool.noConfusion hx
  cases hty : (st.conns x).type with
  | inputValue => exact absurd (Or.inl hty) h'
  | nextStatement => exact absurd (Or.inr hty) h'
  | outputValue => exact Or.inl rfl
  | previousStatement => exact Or.inr rfl

theorem distinct_src_of_inferior (st : ConnState) (c tc : Nat)
    (hInv : StInv st)
    (hcsub : isSuperior st c = false) (htcsub : isSuperior st tc = false)
    (hioc : infOwnOk st c) (hiotc : infOwnOk st tc)
    (hne : c ≠ tc) :
    (st.conns c).sourceBlock ≠ (st.conns tc).sourceBlock := by
  intro he
  rcases inferior_type st c hcsub with hc1 | hc1 <;>
    rcases inferior_type st tc htcsub with ht1 | ht1
  · have r1 := hioc.1 hc1
    have r2 := hiotc.1 ht1
    rw [he, r2] at r1
    exact hne (Option.some_injective _ r1).symm
  · have r1 := hioc.1 hc1
    have r2 := hiotc.2 ht1
    have hw := hInv.2.1 ((st.conns c).sourceBlock)
    refine hw ⟨?_, ?_⟩
    · rw [r1]; rfl
    · rw [he, r2]; rfl
  · have r1 := hioc.2 hc1
    have r2 := hiotc.1 ht1
    have hw := hInv.2.1 ((st.conns c).sourceBlock)
    refine hw ⟨?_, ?_⟩
    · rw [he, r2]; rfl
    · rw [r1]; rfl
  · have r1 := hioc.2 hc1
    have r2 := hiotc.2 ht1
    rw [he, r2] at r1
    exact hne (Option.some_injective _ r1).symm

theorem bumpIf_facts (stC : ConnState) (t : BumpTask) :
    (if stC.recordUndo = true
      then { stC with pendingBumps := stC.pendingBumps ++ [t] }
      else stC).conns = stC.conns ∧
    (if stC.recordUndo = true
      then { stC with pendingBumps := stC.pendingBumps ++ [t] }
      else stC).blocks = stC.blocks ∧
    (if stC.recordUndo = true
      then { stC with pendingBumps := stC.pendingBumps ++ [t] }
      else stC).fresh = stC.fresh ∧
    (if stC.recordUndo = true
      then { stC with pendingBumps := stC.pendingBumps ++ [t] }
      else stC).eventsEnabled = stC.eventsEnabled ∧
    (if stC.recordUndo = true
      then { stC with pendingBumps := stC.pendingBumps ++ [t] }
      else stC).recordUndo = stC.recordUndo := by
  by_cases hb : stC.recordUndo = true
  · exact ⟨by rw [if_pos hb], by rw [if_pos hb], by rw [if_pos hb],
      by rw [if_pos hb], by rw [if_pos hb]⟩
  · exact ⟨by rw [if_neg hb], by rw [if_neg hb], by rw [if_neg hb],
      by rw [if_neg hb], by rw [if_neg hb]⟩

theorem connect_aux_master (f : Nat) (κ : Checker) (p c : Nat)
    (st st' : ConnState)
    (hInv : StInv st) (hok : CheckerOk κ)
    (hsym : ∀ s2 a2 b2, κ s2 a2 b2 = κ s2 b2 a2)
    (hc0 : (st.conns c).targetConnection = none)
    (hpsup : isSuperior st p = true)
    (hioc2 : infOwnOk st c)
    (hop : oppositeTy (st.conns p).type (st.conns c).type)
    (hpb : p < st.fresh) (hcb : c < st.fresh)
    (hspb : (st.conns p).sourceBlock < st.fresh)
    (hscb : (st.conns c).sourceBlock < st.fresh)
    (hsne : (st.conns p).sourceBlock ≠ (st.conns c).sourceBlock)
    (h : connect_ f κ p c st = Except.ok st') :
    (st'.conns p).targetConnection = some c ∧
    (st'.conns c).targetConnection = some p ∧
    st.fresh ≤ st'.fresh ∧
    (∀ x, x < st.fresh →
      (st'.conns x).type = (st.conns x).type ∧
      (st'.conns x).sourceBlock = (st.conns x).sourceBlock ∧
      (st'.conns x).check = (st.conns x).check ∧
      (st'.conns x).disposed = (st.conns x).disposed) ∧
    st'.eventsEnabled = st.eventsEnabled ∧
    st'.recordUndo = st.recordUndo ∧
    StInv st' := by
  have hpc : p ≠ c := fun he => oppositeTy_ne hop (by rw [he])
  have hcsub : isSuperior st c = false := by
    have hso := superior_opposite st p c hop
    rw [hpsup] at hso
    cases hv : isSuperior st c with
    | false => rfl
    | true => rw [hv] at hso; simp at hso
  rcases hpT : (st.conns p).targetConnection with _ | oc
  · obtain ⟨e1, e2, e3, e4, e5, e6, e7, e8⟩ :=
      connect_aux_vacated_core f κ p c st st' hpT hc0 h
    have hlink : StInv ((st.setTarget p (some c)).setTarget c (some p)) :=
      StInv_link st p c hInv hpT hc0 hop
        (infOwnOk_of_superior st p hpsup) hioc2 hpb hcb hspb hscb hsne
    have hbig : StInv (((st.setTarget p (some c)).setTarget c
        (some p)).setBlockParent ((st.conns c).sourceBlock)
        (some ((st.conns p).sourceBlock))) :=
      StInv_setBlockParent _ _ _ hlink
    refine ⟨?_, ?_, ?_, ?_, e5, e6, ?_⟩
    · rw [e1, ConnState.setTarget_conns_other _ _ _ _ hpc,
        ConnState.setTarget_conns_same]
    · rw [e1, ConnState.setTarget_conns_same]
    · rw [e3]
    · intro x hx
      rw [e1]
      exact ⟨by simp, by simp, by simp, by simp⟩
    · exact StInv_of_eq (by rw [e1, ConnState.setBlockParent_conns])
        (by rw [e2]) (by rw [e3, ConnState.setBlockParent_fresh,
          ConnState.setTarget_fresh, ConnState.setTarget_fresh]) hbig
  · by_cases hsh : (st.blocks ((st.conns oc).sourceBlock)).isShadow = true
    · obtain ⟨a1, a2, a3, a4, a5, a6, a7, a8, a9, a10, a11, a12, a13, a14⟩ :=
        connect_aux_shadow_spec f κ p c oc st st' hInv hok hpT hc0 hsh hpsup
          hioc2 hop hcb hscb hsne h
      refine ⟨a1, a2, a10, ?_, a12, a13, a14⟩
      intro x hx
      obtain ⟨u1, u2, u3, u4, u5⟩ := a7 x hx
      exact ⟨u2, u3, u4, u5⟩
    · simp only [Bool.not_eq_true] at hsh
      have hlp := hInv.1 p oc hpT
      have hocM : (st.conns oc).targetConnection = some p := hlp.1
      have hocb : oc < st.fresh := hlp.2.2.2.2.2.1
      have hobb : (st.conns oc).sourceBlock < st.fresh := hlp.2.2.2.2.2.2.2.1
      have hioc_oc : infOwnOk st oc := hlp.2.2.2.1
      have hpoc : p ≠ oc := fun he => oppositeTy_ne hlp.2.1 (by rw [he])
      have hcoc : c ≠ oc := by
        intro he
        rw [he, hocM] at hc0
        exact Option.noConfusion hc0
      have hocsub : isSuperior st oc = false := by
        have hso := superior_opposite st p oc hlp.2.1
        rw [hpsup] at hso
        cases hv : isSuperior st oc with
        | false => rfl
        | true => rw [hv] at hso; simp at hso
      have hobnec : (st.conns c).sourceBlock ≠ (st.conns oc).sourceBlock :=
        distinct_src_of_inferior st c oc hInv hcsub hocsub hioc2 hioc_oc hcoc
      have hInvA : StInv (st.setShadowDom p none) :=
        StInv_setShadowDom st p none (fun d hd => Option.noConfusion hd) hInv
      have hfA : ∀ y, y < st.fresh → y < (st.setShadowDom p none).fresh := by
        intro y hy
        rw [ConnState.setShadowDom_fresh]
        exact hy
      have hpTA : ((st.setShadowDom p none).conns p).targetConnection =
          some oc := by
        rw [ConnState.setShadowDom_conns_same]
        exact hpT
      have hdomA : ((st.setShadowDom p none).conns p).shadowDom = none := by
        rw [ConnState.setShadowDom_conns_same]
      have hc0A : ((st.setShadowDom p none).conns c).targetConnection = none := by
        rw [ConnState.setShadowDom_conns_other _ _ _ _ (fun he => hpc he.symm)]
        exact hc0
      have hsupA : isSuperior (st.setShadowDom p none) p = true := by
        unfold isSuperior
        rw [ConnState.setShadowDom_conns_same]
        unfold isSuperior at hpsup
        exact hpsup
      cases f with
      | zero => simp [connect_] at h
      | succ f2 =>
        have hic : isConnected st c = false := by simp [isConnected, hc0]
        have hshA : ((st.setShadowDom p none).blocks
            ((st.conns oc).sourceBlock)).isShadow = false := by
          rw [ConnState.setShadowDom_blocks]
          exact hsh
        simp only [connect_, hic, Bool.false_eq_true, if_false, hpT, hshA] at h
        split at h
        · exact Except.noConfusion h
        next st2 hst2 =>
          have hptyOr : (st.conns p).type = ConnType.inputValue ∨
              (st.conns p).type = ConnType.nextStatement := by
            simpa [isSuperior] using hpsup
          have htyA : ((st.setShadowDom p none).conns p).type =
              (st.conns p).type := by
            rw [ConnState.setShadowDom_conns_same]
          rcases hptyOr with hty1 | hty2
          · rw [if_pos (htyA.trans hty1)] at hst2
            split at hst2
            · exact Except.noConfusion hst2
            next out hout =>
              have houtSt : (st.blocks
                  ((st.conns oc).sourceBlock)).outputConnection = some out := by
                rw [ConnState.setShadowDom_blocks] at hout
                exact hout
              have htyoc : (st.conns oc).type = ConnType.outputValue := by
                rcases hlp.2.1 with ⟨u, v⟩ | ⟨u, v⟩ | ⟨u, v⟩ | ⟨u, v⟩
                · exact v
                · rw [hty1] at u
                  exact ConnType.noConfusion u
                · rw [hty1] at u
                  exact ConnType.noConfusion u
                · rw [hty1] at u
                  exact ConnType.noConfusion u
              have houteq : out = oc := by
                have hreg := hioc_oc.1 htyoc
                rw [hreg] at houtSt
                exact (Option.some_injective _ houtSt).symm
              rcases hrow : lastConnectionInRow κ f2 (st.setShadowDom p none)
                  ((st.conns c).sourceBlock) ((st.conns oc).sourceBlock)
                  with _ | connection
              · simp only [hrow] at hst2
                split at hst2
                · exact Except.noConfusion hst2
                next stC hdc =>
                  cases hst2
                  obtain ⟨dd1, dd2, dd3, dd4, dd5, dd6, dd7, dd8, dd9, dd10,
                    dd11, dd12⟩ :=
                    disconnect_spec f2 κ p oc p oc (st.setShadowDom p none) stC
                      hpTA
                      (by rw [ConnState.setShadowDom_conns_other _ _ _ _
                        (fun he => hpoc he.symm)]; exact hocM)
                      (Or.inl ⟨hsupA, rfl, rfl⟩) hsupA
                      (hfA _ hpb)
                      (hfA _ hocb)
                      hpoc hdc
                  obtain ⟨bf1, bf2, bf3, bf4, bf5⟩ := bumpIf_facts stC
                    (⟨(st.conns oc).sourceBlock, p, stC.eventGroup⟩ : BumpTask)
                  refine connect_restore_finish _ st st' p c _ _ _ hpc h
                    (fun d hd => hInv.2.2.2 p d hd)
                    (StInv_of_eq bf1 bf2 bf3 (dd12 hInvA hok))
                    (by rw [bf1]; exact dd3 hdomA)
                    (by
                      rw [bf1, dd4 c (hfA _ hcb) (fun he => hpc he.symm) hcoc]
                      exact hc0A)
                    ?_ ?_ ?_ ?_ hop hpsup ?_ hpb hcb hspb hscb hsne
                  · intro x hx
                    have hxb : x < (st.setShadowDom p none).fresh := by
                      rw [ConnState.setShadowDom_fresh]
                      exact hx
                    obtain ⟨u1, u2, u3, u4, u5⟩ := dd5 x hxb
                    rw [bf1]
                    exact ⟨by rw [u2, setShadowDom_type],
                      by rw [u3, setShadowDom_src],
                      by rw [u4, setShadowDom_check],
                      by rw [u5, setShadowDom_disposed]⟩
                  · rw [bf3]
                    have := dd8
                    rw [ConnState.setShadowDom_fresh] at this
                    exact this
                  · rw [bf4, dd10, ConnState.setShadowDom_eventsEnabled]
                  · rw [bf5, dd11, ConnState.setShadowDom_recordUndo]
                  · refine @infOwnOk_transport (st) _ _ ?_ ?_ ?_ ?_ hioc2
                    · rw [bf1]
                      rw [(dd5 c (hfA _ hcb)).2.1, setShadowDom_type]
                    · rw [bf1]
                      rw [(dd5 c (hfA _ hcb)).2.2.1, setShadowDom_src]
                    · rw [bf2]
                      rw [dd6 ((st.conns c).sourceBlock)
                        (hfA _ hscb)
                        (by rw [ConnState.setShadowDom_conns_other _ _ _ _
                          (fun he => hpoc he.symm)]; exact hobnec),
                        ConnState.setShadowDom_blocks]
                    · rw [bf2]
                      rw [dd6 ((st.conns c).sourceBlock)
                        (hfA _ hscb)
                        (by rw [ConnState.setShadowDom_conns_other _ _ _ _
                          (fun he => hpoc he.symm)]; exact hobnec),
                        ConnState.setShadowDom_blocks]
              · simp only [hrow] at hst2
                split at hst2
                · exact Except.noConfusion hst2
                next stB hcon =>
                  cases hst2
                  obtain ⟨hconnty, hkin, hocc⟩ :=
                    lastConnectionInRow_post κ f2 (st.setShadowDom p none)
                      ((st.conns c).sourceBlock) ((st.conns oc).sourceBlock)
                      connection out hout hrow
                  have hsupoutA : isSuperior (st.setShadowDom p none) out =
                      false := by
                    unfold isSuperior
                    rw [houteq, ConnState.setShadowDom_conns_other _ _ _ _
                      (fun he => hpoc he.symm), htyoc]
                    rfl
                  have hpTAout : ((st.setShadowDom p none).conns p).targetConnection = some out := by
                    rw [hpTA, houteq]
                  have hcconn : c ≠ connection := by
                    intro he
                    rw [← he] at hconnty
                    have hct : (st.conns c).type = ConnType.inputValue := by
                      rw [← hconnty, ConnState.setShadowDom_conns_other _ _ _ _
                        (fun hq => hpc hq.symm)]
                    have hcs : isSuperior st c = true := by
                      simp [isSuperior, hct]
                    rw [hcs] at hcsub
                    exact Bool.noConfusion hcsub
                  have hcout : c ≠ out := by
                    rw [houteq]
                    exact hcoc
                  have hsrcoutA : ((st.setShadowDom p none).conns out).sourceBlock = (st.conns oc).sourceBlock := by
                    rw [houteq, ConnState.setShadowDom_conns_other _ _ _ _
                      (fun he => hpoc he.symm)]
                  rcases hocc with hvac | ⟨tc, htc, hshtc⟩
                  · obtain ⟨k1, k2, k3, k4, k5, k6, k7, k8, k9, k10, k11, k12,
                      k13⟩ :=
                      connect_link_spec f2 κ out connection connection out
                        (st.setShadowDom p none) stB hInvA hok hkin
                        (Or.inr ⟨hsupoutA, rfl, rfl⟩) hvac hcon
                    refine connect_restore_finish _ st st' p c _ _ _ hpc h
                      (fun d hd => hInv.2.2.2 p d hd) k13
                      (k5 p (hfA _ hpb)
                        hpTAout hdomA)
                      (by
                        rw [k3 c (hfA _ hcb) hcconn hcout
                          (by rw [hc0A]; exact fun hq => Option.noConfusion hq)]
                        exact hc0A)
                      ?_ ?_ ?_ ?_ hop hpsup ?_ hpb hcb hspb hscb hsne
                    · intro x hx
                      obtain ⟨u1, u2, u3, u4, u5⟩ := k6 x
                        (hfA _ hx)
                      exact ⟨by rw [u2, setShadowDom_type],
                        by rw [u3, setShadowDom_src],
                        by rw [u4, setShadowDom_check],
                        by rw [u5, setShadowDom_disposed]⟩
                    · have := k9
                      rw [ConnState.setShadowDom_fresh] at this
                      exact this
                    · rw [k11, ConnState.setShadowDom_eventsEnabled]
                    · rw [k12, ConnState.setShadowDom_recordUndo]
                    · refine @infOwnOk_transport (st) _ _ ?_ ?_ ?_ ?_ hioc2
                      · rw [(k6 c (hfA _ hcb)).2.1, setShadowDom_type]
                      · rw [(k6 c (hfA _ hcb)).2.2.1, setShadowDom_src]
                      · rw [k7 ((st.conns c).sourceBlock)
                          (hfA _ hscb)
                          (by rw [hsrcoutA]; exact hobnec),
                          ConnState.setShadowDom_blocks]
                      · rw [k7 ((st.conns c).sourceBlock)
                          (hfA _ hscb)
                          (by rw [hsrcoutA]; exact hobnec),
                          ConnState.setShadowDom_blocks]
                  · have htcM : ((st.setShadowDom p none).conns tc).targetConnection = some connection :=
                      (hInvA.1 connection tc htc).1
                    have hineq : out ≠ tc := by
                      intro he
                      have hsrc2 : ((st.setShadowDom p none).conns tc).sourceBlock = (st.conns oc).sourceBlock := by
                        rw [← he, hsrcoutA]
                      rw [hsrc2, ConnState.setShadowDom_blocks, hsh] at hshtc
                      exact Bool.noConfusion hshtc
                    obtain ⟨w1, w2, w3, w4, w5, w6, w7, w8, w9, w10, w11, w12,
                      w13, w14, w15, w16⟩ :=
                      connect_shadow_spec f2 κ out connection connection out tc
                        (st.setShadowDom p none) stB hInvA hok hkin
                        (Or.inr ⟨hsupoutA, rfl, rfl⟩) htc hshtc hineq hcon
                    have hctc : c ≠ tc := by
                      intro he
                      rw [he] at hc0A
                      rw [htcM] at hc0A
                      exact Option.noConfusion hc0A
                    have htcsubA : isSuperior (st.setShadowDom p none) tc =
                        false := by
                      have hso := superior_opposite (st.setShadowDom p none)
                        connection tc (hInvA.1 connection tc htc).2.1
                      have hconnty' : (st.conns connection).type =
                          ConnType.inputValue := by
                        rw [← setShadowDom_type st p none connection]
                        exact hconnty
                      have hconnsup : isSuperior (st.setShadowDom p none)
                          connection = true := by
                        simp [isSuperior, hconnty']
                      rw [hconnsup] at hso
                      cases hv : isSuperior (st.setShadowDom p none) tc with
                      | false => rfl
                      | true => rw [hv] at hso; simp at hso
                    have hcsubA : isSuperior (st.setShadowDom p none) c =
                        false := by
                      unfold isSuperior
                      rw [ConnState.setShadowDom_conns_other _ _ _ _
                        (fun he => hpc he.symm)]
                      unfold isSuperior at hcsub
                      exact hcsub
                    have hiocA : infOwnOk (st.setShadowDom p none) c := by
                      unfold infOwnOk
                      rw [ConnState.setShadowDom_blocks,
                        ConnState.setShadowDom_conns_other _ _ _ _
                        (fun he => hpc he.symm)]
                      exact hioc2
                    have hsrcctc : ((st.setShadowDom p none).conns c).sourceBlock ≠ ((st.setShadowDom p none).conns tc).sourceBlock :=
                      distinct_src_of_inferior (st.setShadowDom p none) c tc
                        hInvA hcsubA htcsubA hiocA
                        (hInvA.1 connection tc htc).2.2.2.1 hctc
                    have hsrccA : ((st.setShadowDom p none).conns c).sourceBlock = (st.conns c).sourceBlock := by
                      rw [ConnState.setShadowDom_conns_other _ _ _ _
                        (fun he => hpc he.symm)]
                    refine connect_restore_finish _ st st' p c _ _ _ hpc h
                      (fun d hd => hInv.2.2.2 p d hd) w16
                      (w8 p (hfA _ hpb)
                        hpTAout hdomA)
                      (by
                        rw [w6 c (hfA _ hcb) hcconn hcout hctc
                          (by rw [hc0A]; exact fun hq => Option.noConfusion hq)]
                        exact hc0A)
                      ?_ ?_ ?_ ?_ hop hpsup ?_ hpb hcb hspb hscb hsne
                    · intro x hx
                      obtain ⟨u1, u2, u3, u4, u5⟩ := w9 x
                        (hfA _ hx)
                      exact ⟨by rw [u2, setShadowDom_type],
                        by rw [u3, setShadowDom_src],
                        by rw [u4, setShadowDom_check],
                        by rw [u5, setShadowDom_disposed]⟩
                    · have := w12
                      rw [ConnState.setShadowDom_fresh] at this
                      exact this
                    · rw [w14, ConnState.setShadowDom_eventsEnabled]
                    · rw [w15, ConnState.setShadowDom_recordUndo]
                    · refine @infOwnOk_transport (st) _ _ ?_ ?_ ?_ ?_ hioc2
                      · rw [(w9 c (hfA _ hcb)).2.1, setShadowDom_type]
                      · rw [(w9 c (hfA _ hcb)).2.2.1, setShadowDom_src]
                      · rw [w10 ((st.conns c).sourceBlock)
                          (hfA _ hscb)
                          (by rw [← hsrccA]; exact hsrcctc)
                          (by rw [hsrcoutA]; exact hobnec),
                          ConnState.setShadowDom_blocks]
                      · rw [w10 ((st.conns c).sourceBlock)
                          (hfA _ hscb)
                          (by rw [← hsrccA]; exact hsrcctc)
                          (by rw [hsrcoutA]; exact hobnec),
                          ConnState.setShadowDom_blocks]
          · have hnotin : ¬(((st.setShadowDom p none).conns p).type =
                ConnType.inputValue) := by
              rw [htyA, hty2]
              exact fun hq => ConnType.noConfusion hq
            rw [if_neg hnotin, if_pos (htyA.trans hty2)] at hst2
            split at hst2
            · exact Except.noConfusion hst2
            next prev hprev =>
              have hprevSt : (st.blocks
                  ((st.conns oc).sourceBlock)).previousConnection =
                  some prev := by
                rw [ConnState.setShadowDom_blocks] at hprev
                exact hprev
              have htyoc : (st.conns oc).type =
                  ConnType.previousStatement := by
                rcases hlp.2.1 with ⟨u, v⟩ | ⟨u, v⟩ | ⟨u, v⟩ | ⟨u, v⟩
                · rw [hty2] at u
                  exact ConnType.noConfusion u
                · rw [hty2] at u
                  exact ConnType.noConfusion u
                · exact v
                · rw [hty2] at u
                  exact ConnType.noConfusion u
              have hpreveq : prev = oc := by
                have hreg := hioc_oc.2 htyoc
                rw [hreg] at hprevSt
                exact (Option.some_injective _ hprevSt).symm
              have hpTAprev : ((st.setShadowDom p none).conns p).targetConnection = some prev := by
                rw [hpTA, hpreveq]
              have hcsubA : isSuperior (st.setShadowDom p none) c = false := by
                unfold isSuperior
                rw [ConnState.setShadowDom_conns_other _ _ _ _
                  (fun he => hpc he.symm)]
                unfold isSuperior at hcsub
                exact hcsub
              have hcprev : c ≠ prev := by
                rw [hpreveq]
                exact hcoc
              have hsrcprevA : ((st.setShadowDom p none).conns prev).sourceBlock = (st.conns oc).sourceBlock := by
                rw [hpreveq, ConnState.setShadowDom_conns_other _ _ _ _
                  (fun he => hpoc he.symm)]
              split at hst2
              · exact Except.noConfusion hst2
              next stB hsp =>
                cases hst2
                rcases spliceStack_spec f2 κ ((st.conns c).sourceBlock) prev
                    (st.setShadowDom p none) stB true hsp with
                  ⟨hflag, _⟩ | ⟨_, f3, nc, hk3, hocc3, ⟨wb, hwb⟩, hcon3⟩
                · exact Bool.noConfusion hflag
                have hcoh := (hInvA.2.2.1 wb).2.2 nc hwb
                have hctnc : (st.conns nc).type = ConnType.nextStatement := by
                  rw [← setShadowDom_type st p none nc]
                  exact hcoh.2.2
                have hsupnc : isSuperior (st.setShadowDom p none) nc =
                    true := by
                  simp [isSuperior, hctnc]
                have hcnc : c ≠ nc := by
                  intro he
                  have hct2 := hctnc
                  rw [← he] at hct2
                  have hcs : isSuperior (st.setShadowDom p none) c = true := by
                    simp [isSuperior, hct2]
                  rw [hcs] at hcsubA
                  exact Bool.noConfusion hcsubA
                have hk3' : κ (st.setShadowDom p none) nc prev = true := by
                  rw [hsym]
                  exact hk3
                rcases hocc3 with hvac3 | ⟨tc, htc, hshtc⟩
                · obtain ⟨k1, k2, k3, k4, k5, k6, k7, k8, k9, k10, k11, k12,
                    k13⟩ :=
                    connect_link_spec f3 κ nc prev nc prev
                      (st.setShadowDom p none) stB hInvA hok hk3'
                      (Or.inl ⟨hsupnc, rfl, rfl⟩) hvac3 hcon3
                  refine connect_restore_finish _ st st' p c _ _ _ hpc h
                    (fun d hd => hInv.2.2.2 p d hd) k13
                    (k5 p (hfA _ hpb) hpTAprev hdomA)
                    (by
                      rw [k3 c (hfA _ hcb) hcnc hcprev
                        (by rw [hc0A]; exact fun hq => Option.noConfusion hq)]
                      exact hc0A)
                    ?_ ?_ ?_ ?_ hop hpsup ?_ hpb hcb hspb hscb hsne
                  · intro x hx
                    obtain ⟨u1, u2, u3, u4, u5⟩ := k6 x (hfA _ hx)
                    exact ⟨by rw [u2, setShadowDom_type],
                      by rw [u3, setShadowDom_src],
                      by rw [u4, setShadowDom_check],
                      by rw [u5, setShadowDom_disposed]⟩
                  · have := k9
                    rw [ConnState.setShadowDom_fresh] at this
                    exact this
                  · rw [k11, ConnState.setShadowDom_eventsEnabled]
                  · rw [k12, ConnState.setShadowDom_recordUndo]
                  · refine @infOwnOk_transport (st) _ _ ?_ ?_ ?_ ?_ hioc2
                    · rw [(k6 c (hfA _ hcb)).2.1, setShadowDom_type]
                    · rw [(k6 c (hfA _ hcb)).2.2.1, setShadowDom_src]
                    · rw [k7 ((st.conns c).sourceBlock) (hfA _ hscb)
                        (by rw [hsrcprevA]; exact hobnec),
                        ConnState.setShadowDom_blocks]
                    · rw [k7 ((st.conns c).sourceBlock) (hfA _ hscb)
                        (by rw [hsrcprevA]; exact hobnec),
                        ConnState.setShadowDom_blocks]
                · have htcM : ((st.setShadowDom p none).conns tc).targetConnection = some nc :=
                    (hInvA.1 nc tc htc).1
                  have hineq : prev ≠ tc := by
                    intro he
                    have hsrc2 : ((st.setShadowDom p none).conns tc).sourceBlock = (st.conns oc).sourceBlock := by
                      rw [← he, hsrcprevA]
                    rw [hsrc2, ConnState.setShadowDom_blocks, hsh] at hshtc
                    exact Bool.noConfusion hshtc
                  obtain ⟨w1, w2, w3, w4, w5, w6, w7, w8, w9, w10, w11, w12,
                    w13, w14, w15, w16⟩ :=
                    connect_shadow_spec f3 κ nc prev nc prev tc
                      (st.setShadowDom p none) stB hInvA hok hk3'
                      (Or.inl ⟨hsupnc, rfl, rfl⟩) htc hshtc hineq hcon3
                  have hctc : c ≠ tc := by
                    intro he
                    rw [he] at hc0A
                    rw [htcM] at hc0A
                    exact Option.noConfusion hc0A
                  have htcsubA : isSuperior (st.setShadowDom p none) tc =
                      false := by
                    have hso := superior_opposite (st.setShadowDom p none)
                      nc tc (hInvA.1 nc tc htc).2.1
                    rw [hsupnc] at hso
                    cases hv : isSuperior (st.setShadowDom p none) tc with
                    | false => rfl
                    | true => rw [hv] at hso; simp at hso
                  have hiocA : infOwnOk (st.setShadowDom p none) c := by
                    unfold infOwnOk
                    rw [ConnState.setShadowDom_blocks,
                      ConnState.setShadowDom_conns_other _ _ _ _
                      (fun he => hpc he.symm)]
                    exact hioc2
                  have hsrcctc : ((st.setShadowDom p none).conns c).sourceBlock = ((st.setShadowDom p none).conns tc).sourceBlock → False :=
                    distinct_src_of_inferior (st.setShadowDom p none) c tc
                      hInvA hcsubA htcsubA hiocA
                      (hInvA.1 nc tc htc).2.2.2.1 hctc
                  have hsrccA : ((st.setShadowDom p none).conns c).sourceBlock = (st.conns c).sourceBlock := by
                    rw [ConnState.setShadowDom_conns_other _ _ _ _
                      (fun he => hpc he.symm)]
                  refine connect_restore_finish _ st st' p c _ _ _ hpc h
                    (fun d hd => hInv.2.2.2 p d hd) w16
                    (w8 p (hfA _ hpb) hpTAprev hdomA)
                    (by
                      rw [w6 c (hfA _ hcb) hcnc hcprev hctc
                        (by rw [hc0A]; exact fun hq => Option.noConfusion hq)]
                      exact hc0A)
                    ?_ ?_ ?_ ?_ hop hpsup ?_ hpb hcb hspb hscb hsne
                  · intro x hx
                    obtain ⟨u1, u2, u3, u4, u5⟩ := w9 x (hfA _ hx)
                    exact ⟨by rw [u2, setShadowDom_type],
                      by rw [u3, setShadowDom_src],
                      by rw [u4, setShadowDom_check],
                      by rw [u5, setShadowDom_disposed]⟩
                  · have := w12
                    rw [ConnState.setShadowDom_fresh] at this
                    exact this
                  · rw [w14, ConnState.setShadowDom_eventsEnabled]
                  · rw [w15, ConnState.setShadowDom_recordUndo]
                  · refine @infOwnOk_transport (st) _ _ ?_ ?_ ?_ ?_ hioc2
                    · rw [(w9 c (hfA _ hcb)).2.1, setShadowDom_type]
                    · rw [(w9 c (hfA _ hcb)).2.2.1, setShadowDom_src]
                    · rw [w10 ((st.conns c).sourceBlock) (hfA _ hscb)
                        (by rw [← hsrccA]; exact fun hq => hsrcctc hq)
                        (by rw [hsrcprevA]; exact hobnec),
                        ConnState.setShadowDom_blocks]
                    · rw [w10 ((st.conns c).sourceBlock) (hfA _ hscb)
                        (by rw [← hsrccA]; exact fun hq => hsrcctc hq)
                        (by rw [hsrcprevA]; exact hobnec),
                        ConnState.setShadowDom_blocks]
              next stB hsp =>
                rcases spliceStack_spec f2 κ ((st.conns c).sourceBlock) prev
                    (st.setShadowDom p none) stB false hsp with
                  ⟨_, hstBeq⟩ | ⟨hflag, _⟩
                · subst hstBeq
                  split at hst2
                  · exact Except.noConfusion hst2
                  next stC hdc =>
                    cases hst2
                    obtain ⟨dd1, dd2, dd3, dd4, dd5, dd6, dd7, dd8, dd9, dd10,
                      dd11, dd12⟩ :=
                      disconnect_spec f2 κ p oc p oc (st.setShadowDom p none)
                        stC hpTA
                        (by rw [ConnState.setShadowDom_conns_other _ _ _ _
                          (fun he => hpoc he.symm)]; exact hocM)
                        (Or.inl ⟨hsupA, rfl, rfl⟩) hsupA
                        (hfA _ hpb) (hfA _ hocb) hpoc hdc
                    obtain ⟨bf1, bf2, bf3, bf4, bf5⟩ := bumpIf_facts stC
                      (⟨(st.conns oc).sourceBlock, p, stC.eventGroup⟩ :
                        BumpTask)
                    refine connect_restore_finish _ st st' p c _ _ _ hpc h
                      (fun d hd => hInv.2.2.2 p d hd)
                      (StInv_of_eq bf1 bf2 bf3 (dd12 hInvA hok))
                      (by rw [bf1]; exact dd3 hdomA)
                      (by
                        rw [bf1, dd4 c (hfA _ hcb) (fun he => hpc he.symm)
                          hcoc]
                        exact hc0A)
                      ?_ ?_ ?_ ?_ hop hpsup ?_ hpb hcb hspb hscb hsne
                    · intro x hx
                      obtain ⟨u1, u2, u3, u4, u5⟩ := dd5 x (hfA _ hx)
                      rw [bf1]
                      exact ⟨by rw [u2, setShadowDom_type],
                        by rw [u3, setShadowDom_src],
                        by rw [u4, setShadowDom_check],
                        by rw [u5, setShadowDom_disposed]⟩
                    · rw [bf3]
                      have := dd8
                      rw [ConnState.setShadowDom_fresh] at this
                      exact this
                    · rw [bf4, dd10, ConnState.setShadowDom_eventsEnabled]
                    · rw [bf5, dd11, ConnState.setShadowDom_recordUndo]
                    · refine @infOwnOk_transport (st) _ _ ?_ ?_ ?_ ?_ hioc2
                      · rw [bf1, (dd5 c (hfA _ hcb)).2.1, setShadowDom_type]
                      · rw [bf1, (dd5 c (hfA _ hcb)).2.2.1, setShadowDom_src]
                      · rw [bf2, dd6 ((st.conns c).sourceBlock) (hfA _ hscb)
                          (by rw [ConnState.setShadowDom_conns_other _ _ _ _
                            (fun he => hpoc he.symm)]; exact hobnec),
                          ConnState.setShadowDom_blocks]
                      · rw [bf2, dd6 ((st.conns c).sourceBlock) (hfA _ hscb)
                          (by rw [ConnState.setShadowDom_conns_other _ _ _ _
                            (fun he => hpoc he.symm)]; exact hobnec),
                          ConnState.setShadowDom_blocks]
                · exact Bool.noConfusion hflag

theorem connect_master_spec (f : Nat) (κ : Checker) (a b : Nat)
    (st st' : ConnState)
    (hInv : StInv st) (hok : CheckerOk κ)
    (hsym : ∀ s2 a2 b2, κ s2 a2 b2 = κ s2 b2 a2)
    (h : connect f κ a b st = Except.ok st') :
    StInv st' ∧
    st.fresh ≤ st'.fresh ∧
    (st' = st ∨
      ((st'.conns a).targetConnection = some b ∧
       (st'.conns b).targetConnection = some a)) := by
  cases f with
  | zero => simp [connect] at h
  | succ f1 =>
    simp only [connect] at h
    by_cases hearly : (st.conns a).targetConnection = some b
    · rw [if_pos hearly] at h
      cases h
      exact ⟨hInv, le_refl _, Or.inl rfl⟩
    · rw [if_neg hearly] at h
      by_cases hk : κ st a b = true
      · simp only [hk, if_true] at h
        obtain ⟨hopab, hioa, hiob, hab1, hab2, hsab1, hsab2, hsabne⟩ :=
          hok st a b hk
        have hmain : ∀ s i st1g st2, st1g.conns = st.conns →
            st1g.blocks = st.blocks → st1g.fresh = st.fresh →
            oppositeTy (st.conns s).type (st.conns i).type →
            infOwnOk st i → isSuperior st s = true →
            s < st.fresh → i < st.fresh →
            (st.conns s).sourceBlock < st.fresh →
            (st.conns i).sourceBlock < st.fresh →
            (st.conns s).sourceBlock ≠ (st.conns i).sourceBlock →
            connect_ f1 κ s i st1g = Except.ok st2 →
            StInv st2 ∧ st.fresh ≤ st2.fresh ∧
            (st2.conns s).targetConnection = some i ∧
            (st2.conns i).targetConnection = some s := by
          intro s i st1g st2 hgc hgb hgf hop hioi hssup hsb hib hssb hisb
            hsne hx
          have hInvG : StInv st1g := StInv_of_eq hgc hgb hgf hInv
          have hisub : isSuperior st i = false := by
            have hso := superior_opposite st s i hop
            rw [hssup] at hso
            cases hv : isSuperior st i with
            | false => rfl
            | true => rw [hv] at hso; simp at hso
          rcases hio : (st.conns i).targetConnection with _ | q
          · obtain ⟨M1, M2, M3, M4, M5, M6, M7⟩ :=
              connect_aux_master f1 κ s i st1g st2 hInvG hok hsym
                (by rw [hgc]; exact hio)
                (by unfold isSuperior; rw [hgc]; exact hssup)
                (by unfold infOwnOk; rw [hgc, hgb]; exact hioi)
                (by rw [hgc]; exact hop)
                (by rw [hgf]; exact hsb) (by rw [hgf]; exact hib)
                (by rw [hgc, hgf]; exact hssb)
                (by rw [hgc, hgf]; exact hisb)
                (by rw [hgc]; exact hsne) hx
            rw [hgf] at M3
            exact ⟨M7, M3, M1, M2⟩
          · have hlq := hInv.1 i q hio
            have hqM : (st.conns q).targetConnection = some i := hlq.1
            have hiq : i ≠ q := fun he => oppositeTy_ne hlq.2.1 (by rw [he])
            have hqb : q < st.fresh := hlq.2.2.2.2.2.1
            have hqsup : isSuperior st q = true := by
              have hso := superior_opposite st i q hlq.2.1
              rw [hisub] at hso
              cases hqv : isSuperior st q with
              | true => rfl
              | false => rw [hqv] at hso; simp at hso
            cases f1 with
            | zero => simp [connect_] at hx
            | succ f2 =>
              have hic : isConnected st1g i = true := by
                simp [isConnected, hgc, hio]
              have hdex : ∃ st1, disconnect f2 κ i st1g = Except.ok st1 := by
                have hx' := hx
                simp only [connect_, hic, if_true] at hx'
                split at hx'
                · exact Except.noConfusion hx'
                next st1 hd => exact ⟨st1, hd⟩
              obtain ⟨st1, hd⟩ := hdex
              obtain ⟨d1, d2, d3, d4, d5, d6, d7, d8, d9, d10, d11, d12⟩ :=
                disconnect_spec f2 κ i q q i st1g st1
                  (by rw [hgc]; exact hio) (by rw [hgc]; exact hqM)
                  (Or.inr ⟨by unfold isSuperior; rw [hgc]; exact hisub,
                    rfl, rfl⟩)
                  (by unfold isSuperior; rw [hgc]; exact hqsup)
                  (by rw [hgf]; exact hib) (by rw [hgf]; exact hqb) hiq hd
              rw [hgf] at d4 d5 d6 d7 d8
              rw [hgc] at d4 d5 d6 d7
              rw [hgb] at d6 d7
              have hic1 : isConnected st1 i = false := by
                simp [isConnected, d1]
              have hsrceq_i : (st1.conns i).sourceBlock =
                  (st1g.conns i).sourceBlock := by
                rw [hgc]
                exact (d5 i hib).2.2.1
              have hsrceq_s : (st1.conns s).sourceBlock =
                  (st1g.conns s).sourceBlock := by
                rw [hgc]
                exact (d5 s hsb).2.2.1
              rw [connect_aux_predisconnect f2 κ s i st1g st1 hic hd hic1
                hsrceq_i hsrceq_s] at hx
              have hblk_srci : st1.blocks ((st.conns i).sourceBlock) =
                  { st.blocks ((st.conns i).sourceBlock) with
                      parent := none } := d7 hisb
              obtain ⟨M1, M2, M3, M4, M5, M6, M7⟩ :=
                connect_aux_master (f2 + 1) κ s i st1 st2 (d12 hInvG hok)
                  hok hsym d1
                  (by unfold isSuperior; rw [(d5 s hsb).2.1]; exact hssup)
                  (by
                    refine @infOwnOk_transport (st) (st1) _
                      (d5 i hib).2.1 ((d5 i hib).2.2.1) ?_ ?_ hioi
                    · rw [hblk_srci]
                    · rw [hblk_srci])
                  (by rw [(d5 s hsb).2.1, (d5 i hib).2.1]; exact hop)
                  (lt_of_lt_of_le hsb d8) (lt_of_lt_of_le hib d8)
                  (by rw [(d5 s hsb).2.2.1]; exact lt_of_lt_of_le hssb d8)
                  (by rw [(d5 i hib).2.2.1]; exact lt_of_lt_of_le hisb d8)
                  (by rw [(d5 s hsb).2.2.1, (d5 i hib).2.2.1]; exact hsne)
                  hx
              exact ⟨M7, le_trans d8 M3, M1, M2⟩
        have hbswap : isSuperior st a = false → isSuperior st b = true := by
          intro ha
          have hso := superior_opposite st a b hopab
          rw [ha] at hso
          cases hbv : isSuperior st b with
          | true => rfl
          | false => rw [hbv] at hso; simp at hso
        rcases hg : st.eventGroup with _ | g0
        · simp only [ConnState.getGroup, hg, Option.isNone_none, if_true] at h
          cases hx : (if isSuperior st.setGroupNew a
              then connect_ f1 κ a b st.setGroupNew
              else connect_ f1 κ b a st.setGroupNew) with
          | error e => rw [hx] at h; exact Except.noConfusion h
          | ok st2 =>
            rw [hx] at h
            cases h
            have hiseq : isSuperior st.setGroupNew a = isSuperior st a := rfl
            by_cases hsa : isSuperior st a = true
            · rw [if_pos (hiseq.trans hsa)] at hx
              obtain ⟨N1, N2, N3, N4⟩ := hmain a b st.setGroupNew st2
                rfl rfl rfl hopab hiob hsa hab1 hab2 hsab1 hsab2 hsabne hx
              refine ⟨StInv_of_eq (by simp) (by simp) (by simp) N1,
                by simpa using N2, Or.inr ⟨?_, ?_⟩⟩
              · rw [ConnState.setGroupOff_conns]
                exact N3
              · rw [ConnState.setGroupOff_conns]
                exact N4
            · have hsa' : isSuperior st a = false := by
                cases hv : isSuperior st a with
                | false => rfl
                | true => exact absurd hv hsa
              have hneg : ¬(isSuperior st.setGroupNew a = true) := by
                rw [hiseq, hsa']
                exact fun hh => Bool.noConfusion hh
              rw [if_neg hneg] at hx
              obtain ⟨N1, N2, N3, N4⟩ := hmain b a st.setGroupNew st2
                rfl rfl rfl (oppositeTy_symm hopab) hioa (hbswap hsa')
                hab2 hab1 hsab2 hsab1 (fun he => hsabne he.symm) hx
              refine ⟨StInv_of_eq (by simp) (by simp) (by simp) N1,
                by simpa using N2, Or.inr ⟨?_, ?_⟩⟩
              · rw [ConnState.setGroupOff_conns]
                exact N4
              · rw [ConnState.setGroupOff_conns]
                exact N3
        · simp only [ConnState.getGroup, hg, Option.isNone_some,
            Bool.false_eq_true, if_false] at h
          cases hx : (if isSuperior st a then connect_ f1 κ a b st
              else connect_ f1 κ b a st) with
          | error e => rw [hx] at h; exact Except.noConfusion h
          | ok st2 =>
            rw [hx] at h
            cases h
            by_cases hsa : isSuperior st a = true
            · rw [if_pos hsa] at hx
              obtain ⟨N1, N2, N3, N4⟩ := hmain a b st st'
                rfl rfl rfl hopab hiob hsa hab1 hab2 hsab1 hsab2 hsabne hx
              exact ⟨N1, N2, Or.inr ⟨N3, N4⟩⟩
            · have hsa' : isSuperior st a = false := by
                cases hv : isSuperior st a with
                | false => rfl
                | true => exact absurd hv hsa
              rw [if_neg (by rw [hsa']; exact fun hh =>
                Bool.noConfusion hh)] at hx
              obtain ⟨N1, N2, N3, N4⟩ := hmain b a st st'
                rfl rfl rfl (oppositeTy_symm hopab) hioa (hbswap hsa')
                hab2 hab1 hsab2 hsab1 (fun he => hsabne he.symm) hx
              exact ⟨N1, N2, Or.inr ⟨N4, N3⟩⟩
      · simp only [Bool.not_eq_true] at hk
        simp only [hk, Bool.false_eq_true, if_false] at h
        cases h
        exact ⟨hInv, le_refl _, Or.inl rfl⟩

theorem anyContains_comm (ta tb : List String) :
    (ta.any fun t => tb.contains t) = (tb.any fun t => ta.contains t) := by
  cases hx : (ta.any fun t => tb.contains t) <;>
    cases hy : (tb.any fun t => ta.contains t) <;> try rfl
  · rw [List.any_eq_true] at hy
    obtain ⟨x, hxm, hxc⟩ := hy
    rw [List.any_eq_false] at hx
    have hxa : x ∈ ta := by simpa using hxc
    have hnm : ¬(tb.contains x = true) := hx x hxa
    exact absurd (by simpa using hxm : tb.contains x = true) hnm
  · rw [List.any_eq_true] at hx
    obtain ⟨x, hxm, hxc⟩ := hx
    rw [List.any_eq_false] at hy
    have hxb : x ∈ tb := by simpa using hxc
    have hnm : ¬(ta.contains x = true) := hy x hxb
    exact absurd (by simpa using hxm : ta.contains x = true) hnm

theorem boolEq_of_iff {x y : Bool} (hxy : x = true ↔ y = true) : x = y := by
  cases x with
  | true => exact (hxy.mp rfl).symm
  | false =>
    cases y with
    | false => rfl
    | true => exact absurd (hxy.mpr rfl) (by simp)

theorem saneChecker_symm : ∀ st a b, saneChecker st a b = saneChecker st b a := by
  intro st a b
  unfold saneChecker
  refine boolEq_of_iff ?_
  simp only [Bool.and_eq_true, decide_eq_true_eq]
  constructor
  · rintro ⟨⟨⟨⟨⟨⟨⟨⟨h1, h2⟩, h3⟩, h4⟩, h5⟩, h6⟩, h7⟩, h8⟩, h9⟩
    refine ⟨⟨⟨⟨⟨⟨⟨⟨oppositeTy_symm h1, h3⟩, h2⟩, h5⟩, h4⟩, h7⟩, h6⟩,
      fun he => h8 he.symm⟩, ?_⟩
    rcases hca : (st.conns a).check with _ | ta <;>
      rcases hcb : (st.conns b).check with _ | tb <;>
      simp only [hca, hcb] at h9 ⊢ <;> try rfl
    rw [anyContains_comm]
    exact h9
  · rintro ⟨⟨⟨⟨⟨⟨⟨⟨h1, h2⟩, h3⟩, h4⟩, h5⟩, h6⟩, h7⟩, h8⟩, h9⟩
    refine ⟨⟨⟨⟨⟨⟨⟨⟨oppositeTy_symm h1, h3⟩, h2⟩, h5⟩, h4⟩, h7⟩, h6⟩,
      fun he => h8 he.symm⟩, ?_⟩
    rcases hca : (st.conns a).check with _ | ta <;>
      rcases hcb : (st.conns b).check with _ | tb <;>
      simp only [hca, hcb] at h9 ⊢ <;> try rfl
    rw [anyContains_comm]
    exact h9

theorem runConnects_StInv (fuel : Nat) (κ : Checker) (ops : List (Nat × Nat))
    (st st' : ConnState) (hInv : StInv st) (hok : CheckerOk κ)
    (hsym : ∀ s2 a2 b2, κ s2 a2 b2 = κ s2 b2 a2)
    (h : runConnects fuel κ ops st = Except.ok st') : StInv st' := by
  induction ops generalizing st with
  | nil =>
    simp only [runConnects] at h
    cases h
    exact hInv
  | cons op ops ih =>
    obtain ⟨a, b⟩ := op
    simp only [runConnects] at h
    split at h
    · exact Except.noConfusion h
    next st1 hc =>
      exact ih st1 (connect_master_spec fuel κ a b st st1 hInv hok hsym hc).1 h

theorem lookup_none_of_not_mem {α : Type} (l : List (Nat × α)) (x : Nat)
    (hx : x ∉ l.map Prod.fst) : l.lookup x = none := by
  induction l with
  | nil => rfl
  | cons hd t ih =>
    obtain ⟨k, v⟩ := hd
    simp only [List.map_cons, List.mem_cons] at hx
    push_neg at hx
    have hbeq : (x == k) = false := by simpa using hx.1
    simp [List.lookup, hbeq, ih hx.2]

theorem connsOf_not_mem (l : List (Nat × Conn)) (x : Nat)
    (hx : x ∉ l.map Prod.fst) : connsOf l x = default := by
  unfold connsOf
  rw [lookup_none_of_not_mem l x hx]
  rfl

theorem blocksOf_not_mem (l : List (Nat × Block)) (x : Nat)
    (hx : x ∉ l.map Prod.fst) : blocksOf l x = default := by
  unfold blocksOf
  rw [lookup_none_of_not_mem l x hx]
  rfl

theorem StInv_of_checks (st : ConnState) (keysC keysB : List Nat)
    (hcs : ∀ x, x ∉ keysC → st.conns x = default)
    (hbs : ∀ b, b ∉ keysB → st.blocks b = default)
    (h1 : ∀ a ∈ keysC, linkCheck st a = true)
    (h2 : ∀ b ∈ keysB, blockWF (st.blocks b))
    (h3 : ∀ b ∈ keysB, coherentCheck st b = true)
    (h4 : ∀ c ∈ keysC, shadowCheck st c = true) :
    StInv st := by
  refine ⟨?_, ?_, ?_, ?_⟩
  · intro a b hab
    by_cases ha : a ∈ keysC
    · have hl := h1 a ha
      unfold linkCheck at hl
      simp only [hab] at hl
      exact of_decide_eq_true hl
    · rw [hcs a ha] at hab
      exact Option.noConfusion hab
  · intro b
    by_cases hb : b ∈ keysB
    · exact h2 b hb
    · rw [hbs b hb]
      decide
  · intro b
    by_cases hb : b ∈ keysB
    · have hc := h3 b hb
      unfold coherentCheck at hc
      rw [Bool.and_eq_true, Bool.and_eq_true] at hc
      obtain ⟨⟨c1, c2⟩, c3⟩ := hc
      refine ⟨?_, ?_, ?_⟩
      · intro o ho
        simp only [ho] at c1
        rw [Bool.and_eq_true, Bool.and_eq_true] at c1
        exact ⟨of_decide_eq_true c1.1.1, of_decide_eq_true c1.1.2,
          of_decide_eq_true c1.2⟩
      · intro o ho
        simp only [ho] at c2
        rw [Bool.and_eq_true, Bool.and_eq_true] at c2
        exact ⟨of_decide_eq_true c2.1.1, of_decide_eq_true c2.1.2,
          of_decide_eq_true c2.2⟩
      · intro o ho
        simp only [ho] at c3
        rw [Bool.and_eq_true, Bool.and_eq_true] at c3
        exact ⟨of_decide_eq_true c3.1.1, of_decide_eq_true c3.1.2,
          of_decide_eq_true c3.2⟩
    · refine ⟨?_, ?_, ?_⟩ <;> intro o ho <;> rw [hbs b hb] at ho <;>
        exact Option.noConfusion ho
  · intro cc d hd
    by_cases hc : cc ∈ keysC
    · have hs := h4 cc hc
      unfold shadowCheck at hs
      simp only [hd] at hs
      exact of_decide_eq_true hs
    · rw [hcs cc hc] at hd
      exact Option.noConfusion hd

theorem ok_okOf (r : Except Err ConnState) (h : errOf r = none) :
    r = Except.ok (okOf r) := by
  cases r with
  | ok s => rfl
  | error e => simp [errOf] at h

theorem connect_statics_spec (f : Nat) (κ : Checker) (a b : Nat)
    (st st' : ConnState)
    (hInv : StInv st) (hok : CheckerOk κ)
    (hsym : ∀ s2 a2 b2, κ s2 a2 b2 = κ s2 b2 a2)
    (h : connect f κ a b st = Except.ok st') :
    StInv st' ∧
    st.fresh ≤ st'.fresh ∧
    (∀ x, x < st.fresh →
      (st'.conns x).type = (st.conns x).type ∧
      (st'.conns x).sourceBlock = (st.conns x).sourceBlock ∧
      (st'.conns x).check = (st.conns x).check ∧
      (st'.conns x).disposed = (st.conns x).disposed) ∧
    st'.eventsEnabled = st.eventsEnabled ∧
    st'.recordUndo = st.recordUndo ∧
    ((st.conns a).targetConnection = some b → st' = st) ∧
    (κ st a b = false → st' = st) ∧
    ((st.conns a).targetConnection ≠ some b → κ st a b = true →
      (st'.conns a).targetConnection = some b ∧
      (st'.conns b).targetConnection = some a) := by
  cases f with
  | zero => simp [connect] at h
  | succ f1 =>
    simp only [connect] at h
    by_cases hearly : (st.conns a).targetConnection = some b
    · rw [if_pos hearly] at h
      cases h
      exact ⟨hInv, le_refl _, fun x hx => ⟨rfl, rfl, rfl, rfl⟩, rfl, rfl,
        fun _ => rfl, fun _ => rfl, fun hne _ => absurd hearly hne⟩
    · rw [if_neg hearly] at h
      by_cases hk : κ st a b = true
      · simp only [hk, if_true] at h
        obtain ⟨hopab, hioa, hiob, hab1, hab2, hsab1, hsab2, hsabne⟩ :=
          hok st a b hk
        have hmain : ∀ s i st1g st2, st1g.conns = st.conns →
            st1g.blocks = st.blocks → st1g.fresh = st.fresh →
            st1g.eventsEnabled = st.eventsEnabled →
            st1g.recordUndo = st.recordUndo →
            oppositeTy (st.conns s).type (st.conns i).type →
            infOwnOk st i → isSuperior st s = true →
            s < st.fresh → i < st.fresh →
            (st.conns s).sourceBlock < st.fresh →
            (st.conns i).sourceBlock < st.fresh →
            (st.conns s).sourceBlock ≠ (st.conns i).sourceBlock →
            connect_ f1 κ s i st1g = Except.ok st2 →
            StInv st2 ∧ st.fresh ≤ st2.fresh ∧
            (st2.conns s).targetConnection = some i ∧
            (st2.conns i).targetConnection = some s ∧
            (∀ x, x < st.fresh →
              (st2.conns x).type = (st.conns x).type ∧
              (st2.conns x).sourceBlock = (st.conns x).sourceBlock ∧
              (st2.conns x).check = (st.conns x).check ∧
              (st2.conns x).disposed = (st.conns x).disposed) ∧
            st2.eventsEnabled = st.eventsEnabled ∧
            st2.recordUndo = st.recordUndo := by
          intro s i st1g st2 hgc hgb hgf hge hgr hop hioi hssup hsb hib hssb
            hisb hsne hx
          have hInvG : StInv st1g := StInv_of_eq hgc hgb hgf hInv
          rcases hio : (st.conns i).targetConnection with _ | q
          · obtain ⟨M1, M2, M3, M4, M5, M6, M7⟩ :=
              connect_aux_master f1 κ s i st1g st2 hInvG hok hsym
                (by rw [hgc]; exact hio)
                (by unfold isSuperior; rw [hgc]; exact hssup)
                (by unfold infOwnOk; rw [hgc, hgb]; exact hioi)
                (by rw [hgc]; exact hop)
                (by rw [hgf]; exact hsb) (by rw [hgf]; exact hib)
                (by rw [hgc, hgf]; exact hssb)
                (by rw [hgc, hgf]; exact hisb)
                (by rw [hgc]; exact hsne) hx
            rw [hgf] at M3
            refine ⟨M7, M3, M1, M2, ?_, M5.trans hge, M6.trans hgr⟩
            intro x hxb
            have hxg : x < st1g.fresh := by rw [hgf]; exact hxb
            obtain ⟨u1, u2, u3, u4⟩ := M4 x hxg
            rw [hgc] at u1 u2 u3 u4
            exact ⟨u1, u2, u3, u4⟩
          · have hlq := hInv.1 i q hio
            have hqM : (st.conns q).targetConnection = some i := hlq.1
            have hiq : i ≠ q := fun he => oppositeTy_ne hlq.2.1 (by rw [he])
            have hqb : q < st.fresh := hlq.2.2.2.2.2.1
            have hisub : isSuperior st i = false := by
              have hso := superior_opposite st s i hop
              rw [hssup] at hso
              cases hv : isSuperior st i with
              | false => rfl
              | true => rw [hv] at hso; simp at hso
            have hqsup : isSuperior st q = true := by
              have hso := superior_opposite st i q hlq.2.1
              rw [hisub] at hso
              cases hqv : isSuperior st q with
              | true => rfl
              | false => rw [hqv] at hso; simp at hso
            cases f1 with
            | zero => simp [connect_] at hx
            | succ f2 =>
              have hic : isConnected st1g i = true := by
                simp [isConnected, hgc, hio]
              have hdex : ∃ st1, disconnect f2 κ i st1g = Except.ok st1 := by
                have hx' := hx
                simp only [connect_, hic, if_true] at hx'
                split at hx'
                · exact Except.noConfusion hx'
                next st1 hd => exact ⟨st1, hd⟩
              obtain ⟨st1, hd⟩ := hdex
              obtain ⟨d1, d2, d3, d4, d5, d6, d7, d8, d9, d10, d11, d12⟩ :=
                disconnect_spec f2 κ i q q i st1g st1
                  (by rw [hgc]; exact hio) (by rw [hgc]; exact hqM)
                  (Or.inr ⟨by unfold isSuperior; rw [hgc]; exact hisub,
                    rfl, rfl⟩)
                  (by unfold isSuperior; rw [hgc]; exact hqsup)
                  (by rw [hgf]; exact hib) (by rw [hgf]; exact hqb) hiq hd
              rw [hgf] at d4 d5 d6 d7 d8
              rw [hgc] at d4 d5 d6 d7
              rw [hgb] at d6 d7
              have hic1 : isConnected st1 i = false := by
                simp [isConnected, d1]
              have hsrceq_i : (st1.conns i).sourceBlock =
                  (st1g.conns i).sourceBlock := by
                rw [hgc]
                exact (d5 i hib).2.2.1
              have hsrceq_s : (st1.conns s).sourceBlock =
                  (st1g.conns s).sourceBlock := by
                rw [hgc]
                exact (d5 s hsb).2.2.1
              rw [connect_aux_predisconnect f2 κ s i st1g st1 hic hd hic1
                hsrceq_i hsrceq_s] at hx
              have hblk_srci : st1.blocks ((st.conns i).sourceBlock) =
                  { st.blocks ((st.conns i).sourceBlock) with
                      parent := none } := d7 hisb
              obtain ⟨M1, M2, M3, M4, M5, M6, M7⟩ :=
                connect_aux_master (f2 + 1) κ s i st1 st2 (d12 hInvG hok)
                  hok hsym d1
                  (by unfold isSuperior; rw [(d5 s hsb).2.1]; exact hssup)
                  (by
                    refine @infOwnOk_transport (st) (st1) _
                      (d5 i hib).2.1 ((d5 i hib).2.2.1) ?_ ?_ hioi
                    · rw [hblk_srci]
                    · rw [hblk_srci])
                  (by rw [(d5 s hsb).2.1, (d5 i hib).2.1]; exact hop)
                  (lt_of_lt_of_le hsb d8) (lt_of_lt_of_le hib d8)
                  (by rw [(d5 s hsb).2.2.1]; exact lt_of_lt_of_le hssb d8)
                  (by rw [(d5 i hib).2.2.1]; exact lt_of_lt_of_le hisb d8)
                  (by rw [(d5 s hsb).2.2.1, (d5 i hib).2.2.1]; exact hsne)
                  hx
              refine ⟨M7, le_trans d8 M3, M1, M2, ?_, ?_, ?_⟩
              · intro x hxb
                obtain ⟨u1, u2, u3, u4⟩ := M4 x (lt_of_lt_of_le hxb d8)
                obtain ⟨v1, v2, v3, v4, v5⟩ := d5 x hxb
                exact ⟨u1.trans v2, u2.trans v3, u3.trans v4, u4.trans v5⟩
              · rw [M5, d10, hge]
              · rw [M6, d11, hgr]
        have hbswap : isSuperior st a = false → isSuperior st b = true := by
          intro ha
          have hso := superior_opposite st a b hopab
          rw [ha] at hso
          cases hbv : isSuperior st b with
          | true => rfl
          | false => rw [hbv] at hso; simp at hso
        have hkne : ¬(κ st a b = false) := by
          intro hkf
          rw [hkf] at hk
          exact Bool.noConfusion hk
        rcases hg : st.eventGroup with _ | g0
        · simp only [ConnState.getGroup, hg, Option.isNone_none, if_true] at h
          cases hx : (if isSuperior st.setGroupNew a
              then connect_ f1 κ a b st.setGroupNew
              else connect_ f1 κ b a st.setGroupNew) with
          | error e => rw [hx] at h; exact Except.noConfusion h
          | ok st2 =>
            rw [hx] at h
            cases h
            have hiseq : isSuperior st.setGroupNew a = isSuperior st a := rfl
            by_cases hsa : isSuperior st a = true
            · rw [if_pos (hiseq.trans hsa)] at hx
              obtain ⟨N1, N2, N3, N4, N5, N6, N7⟩ := hmain a b st.setGroupNew
                st2 rfl rfl rfl rfl rfl hopab hiob hsa hab1 hab2 hsab1 hsab2
                hsabne hx
              refine ⟨StInv_of_eq (by simp) (by simp) (by simp) N1,
                by simpa using N2, ?_, ?_, ?_, fun hc => absurd hc hearly,
                fun hkf => absurd hkf hkne, ?_⟩
              · intro x hxb
                rw [ConnState.setGroupOff_conns]
                exact N5 x hxb
              · rw [ConnState.setGroupOff_eventsEnabled]
                exact N6
              · rw [ConnState.setGroupOff_recordUndo]
                exact N7
              · intro _ _
                rw [ConnState.setGroupOff_conns]
                exact ⟨N3, N4⟩
            · have hsa' : isSuperior st a = false := by
                cases hv : isSuperior st a with
                | false => rfl
                | true => exact absurd hv hsa
              have hneg : ¬(isSuperior st.setGroupNew a = true) := by
                rw [hiseq, hsa']
                exact fun hh => Bool.noConfusion hh
              rw [if_neg hneg] at hx
              obtain ⟨N1, N2, N3, N4, N5, N6, N7⟩ := hmain b a st.setGroupNew
                st2 rfl rfl rfl rfl rfl (oppositeTy_symm hopab) hioa
                (hbswap hsa') hab2 hab1 hsab2 hsab1
                (fun he => hsabne he.symm) hx
              refine ⟨StInv_of_eq (by simp) (by simp) (by simp) N1,
                by simpa using N2, ?_, ?_, ?_, fun hc => absurd hc hearly,
                fun hkf => absurd hkf hkne, ?_⟩
              · intro x hxb
                rw [ConnState.setGroupOff_conns]
                exact N5 x hxb
              · rw [ConnState.setGroupOff_eventsEnabled]
                exact N6
              · rw [ConnState.setGroupOff_recordUndo]
                exact N7
              · intro _ _
                rw [ConnState.setGroupOff_conns]
                exact ⟨N4, N3⟩
        · simp only [ConnState.getGroup, hg, Option.isNone_some,
            Bool.false_eq_true, if_false] at h
          cases hx : (if isSuperior st a then connect_ f1 κ a b st
              else connect_ f1 κ b a st) with
          | error e => rw [hx] at h; exact Except.noConfusion h
          | ok st2 =>
            rw [hx] at h
            cases h
            by_cases hsa : isSuperior st a = true
            · rw [if_pos hsa] at hx
              obtain ⟨N1, N2, N3, N4, N5, N6, N7⟩ := hmain a b st st'
                rfl rfl rfl rfl rfl hopab hiob hsa hab1 hab2 hsab1 hsab2
                hsabne hx
              exact ⟨N1, N2, N5, N6, N7, fun hc => absurd hc hearly,
                fun hkf => absurd hkf hkne, fun _ _ => ⟨N3, N4⟩⟩
            · have hsa' : isSuperior st a = false := by
                cases hv : isSuperior st a with
                | false => rfl
                | true => exact absurd hv hsa
              rw [if_neg (by rw [hsa']; exact fun hh =>
                Bool.noConfusion hh)] at hx
              obtain ⟨N1, N2, N3, N4, N5, N6, N7⟩ := hmain b a st st'
                rfl rfl rfl rfl rfl (oppositeTy_symm hopab) hioa
                (hbswap hsa') hab2 hab1 hsab2 hsab1
                (fun he => hsabne he.symm) hx
              exact ⟨N1, N2, N5, N6, N7, fun hc => absurd hc hearly,
                fun hkf => absurd hkf hkne, fun _ _ => ⟨N4, N3⟩⟩
      · simp only [Bool.not_eq_true] at hk
        simp only [hk, Bool.false_eq_true, if_false] at h
        cases h
        exact ⟨hInv, le_refl _, fun x hx => ⟨rfl, rfl, rfl, rfl⟩, rfl, rfl,
          fun _ => rfl, fun _ => rfl, fun _ hkt => absurd hk (by
            rw [hkt]
            exact fun hh => Bool.noConfusion hh)⟩

theorem unplug_severs (f2 : Nat) (κ : Checker) (ic pc : Nat)
    (st st' : ConnState)
    (hInv : StInv st)
    (hT : (st.conns ic).targetConnection = some pc)
    (hicsub : isSuperior st ic = false)
    (h : unplug (f2 + 1) κ ((st.conns ic).sourceBlock) st = Except.ok st') :
    (st'.conns ic).targetConnection = none ∧
    ((st.conns pc).shadowDom = none →
      (st'.conns pc).targetConnection = none) ∧
    (∀ x, x < st.fresh → x ≠ ic → x ≠ pc →
      (st'.conns x).targetConnection = (st.conns x).targetConnection) ∧
    (∀ x, x < st.fresh →
      (st'.conns x).shadowDom = (st.conns x).shadowDom ∧
      (st'.conns x).type = (st.conns x).type ∧
      (st'.conns x).sourceBlock = (st.conns x).sourceBlock ∧
      (st'.conns x).check = (st.conns x).check ∧
      (st'.conns x).disposed = (st.conns x).disposed) ∧
    st.fresh ≤ st'.fresh := by
  have hlp := hInv.1 ic pc hT
  have hM : (st.conns pc).targetConnection = some ic := hlp.1
  have hioc : infOwnOk st ic := hlp.2.2.1
  have hicb : ic < st.fresh := hlp.2.2.2.2.1
  have hpcb : pc < st.fresh := hlp.2.2.2.2.2.1
  have hneq : ic ≠ pc := fun he => oppositeTy_ne hlp.2.1 (by rw [he])
  have hpcsup : isSuperior st pc = true := by
    have hso := superior_opposite st ic pc hlp.2.1
    rw [hicsub] at hso
    cases hv : isSuperior st pc with
    | true => rfl
    | false => rw [hv] at hso; simp at hso
  have hfield : (st.blocks ((st.conns ic).sourceBlock)).outputConnection =
      some ic ∨
      ((st.blocks ((st.conns ic).sourceBlock)).outputConnection = none ∧
        (st.blocks ((st.conns ic).sourceBlock)).previousConnection = some ic) := by
    rcases inferior_type st ic hicsub with hty | hty
    · exact Or.inl (hioc.1 hty)
    · have hprev := hioc.2 hty
      refine Or.inr ⟨?_, hprev⟩
      have hbw := hInv.2.1 ((st.conns ic).sourceBlock)
      rcases ho : (st.blocks ((st.conns ic).sourceBlock)).outputConnection
        with _ | o
      · rfl
      · exact absurd ⟨by rw [ho]; rfl, by rw [hprev]; rfl⟩ hbw
  have hconn : isConnected st ic = true := by simp [isConnected, hT]
  rw [unplug_eq f2 κ ((st.conns ic).sourceBlock) st ic hfield hconn] at h
  obtain ⟨d1, d2, d3, d4, d5, d6, d7, d8, d9, d10, d11, d12⟩ :=
    disconnect_spec f2 κ ic pc pc ic st st' hT hM
      (Or.inr ⟨hicsub, rfl, rfl⟩) hpcsup hicb hpcb hneq h
  exact ⟨d1, d3, d4, d5, d8⟩

theorem disconnect_factor (f : Nat) (κ : Checker) (c oc pside iside : Nat)
    (st st' : ConnState)
    (hT : (st.conns c).targetConnection = some oc)
    (hM : (st.conns oc).targetConnection = some c)
    (hroute : (isSuperior st c = true ∧ pside = c ∧ iside = oc) ∨
      (isSuperior st c = false ∧ pside = oc ∧ iside = c))
    (h : disconnect (f + 1) κ c st = Except.ok st') :
    ∃ st2 st3,
      disconnectInternal
        (if (ConnState.getGroup st).isNone then st.setGroupNew else st) c
        ((st.conns pside).sourceBlock) ((st.conns iside).sourceBlock) =
        Except.ok st2 ∧
      respawnShadow f κ pside st2 = Except.ok st3 ∧
      st' = (if (ConnState.getGroup st).isNone then st3.setGroupOff
        else st3) := by
  simp only [disconnect, hT] at h
  rw [if_neg (fun hcond => hcond hM)] at h
  rcases hroute with ⟨hs, hp, hi⟩ | ⟨hs, hp, hi⟩
  · rw [hp, hi]
    rw [if_pos hs] at h
    split at h
    · exact Except.noConfusion h
    next st2 hdi =>
      split at h
      · exact Except.noConfusion h
      next st3 hrs =>
        cases h
        exact ⟨st2, st3, hdi, hrs, rfl⟩
  · rw [hp, hi]
    have hns : ¬(isSuperior st c = true) := by
      rw [hs]
      exact fun hh => Bool.noConfusion hh
    rw [if_neg hns] at h
    split at h
    · exact Except.noConfusion h
    next st2 hdi =>
      split at h
      · exact Except.noConfusion h
      next st3 hrs =>
        cases h
        exact ⟨st2, st3, hdi, hrs, rfl⟩

theorem respawn_noop_of_no_undo (f : Nat) (κ : Checker) (q : Nat)
    (st2 st3 : ConnState) (hru : st2.recordUndo = false)
    (h : respawnShadow f κ q st2 = Except.ok st3) : st3 = st2 := by
  cases f with
  | zero => simp [respawnShadow] at h
  | succ f2 =>
    simp only [respawnShadow] at h
    rcases hd : (st2.conns q).shadowDom with _ | dom
    · simp only [hd] at h
      cases h
      rfl
    · simp only [hd] at h
      have hng : ¬(((st2.blocks ((st2.conns q).sourceBlock)).workspace &&
          st2.recordUndo) = true) := by
        rw [hru, Bool.and_false]
        exact fun hh => Bool.noConfusion hh
      rw [if_neg hng] at h
      cases h
      rfl

/-- C1: on the connect side a performed link is reciprocal at return; on
the disconnect side the severed inferior connection always ends unlinked,
while the severed superior connection ends unlinked whenever it carries
no placeholder template and also whenever undo recording is off, and in
general ends either unlinked or re-linked to a freshly allocated
connection of a respawned placeholder (so "both absent" fails for a
template-bearing superior side with undo recording on, see the
counterexample); and outside a call, `StInv` makes every
`targetConnection` reference mutual. -/
theorem C1_reciprocal_links :
    (∀ (f : Nat) (κ : Checker) (a b : Nat) (st st' : ConnState),
      StInv st → CheckerOk κ → (∀ s2 a2 b2, κ s2 a2 b2 = κ s2 b2 a2) →
      (st.conns a).targetConnection ≠ some b → κ st a b = true →
      connect f κ a b st = Except.ok st' →
      (st'.conns a).targetConnection = some b ∧
      (st'.conns b).targetConnection = some a) ∧
    (∀ (f : Nat) (κ : Checker) (c oc pside iside : Nat) (st st' : ConnState),
      (st.conns c).targetConnection = some oc →
      (st.conns oc).targetConnection = some c →
      ((isSuperior st c = true ∧ pside = c ∧ iside = oc) ∨
        (isSuperior st c = false ∧ pside = oc ∧ iside = c)) →
      isSuperior st pside = true →
      c < st.fresh → oc < st.fresh → c ≠ oc →
      disconnect f κ c st = Except.ok st' →
      (st'.conns iside).targetConnection = none ∧
      ((st.conns pside).shadowDom = none →
        (st'.conns pside).targetConnection = none) ∧
      ((st'.conns pside).targetConnection = none ∨
        ∃ nc, st.fresh ≤ nc ∧
          (st'.conns pside).targetConnection = some nc) ∧
      (st.recordUndo = false →
        (st'.conns pside).targetConnection = none)) ∧
    (∀ (st : ConnState) (a b : Nat), StInv st →
      (st.conns a).targetConnection = some b →
      (st.conns b).targetConnection = some a) := by
  refine ⟨?_, ?_, ?_⟩
  · intro f κ a b st st' hInv hok hsym hne hk h
    exact (connect_statics_spec f κ a b st st' hInv hok hsym h).2.2.2.2.2.2.2
      hne hk
  · intro f κ c oc pside iside st st' hT hM hroute hPsup hcb hocb hneq h
    obtain ⟨d1, d2, d3, d4, d5, d6, d7, d8, d9, d10, d11, d12⟩ :=
      disconnect_spec f κ c oc pside iside st st' hT hM hroute hPsup
        hcb hocb hneq h
    refine ⟨d1, d3, d2, ?_⟩
    intro hru
    cases f with
    | zero => simp [disconnect] at h
    | succ f1 =>
      obtain ⟨st2, st3, hdi, hrs, hwrap⟩ :=
        disconnect_factor f1 κ c oc pside iside st st' hT hM hroute h
      have hgc : (if (ConnState.getGroup st).isNone then st.setGroupNew
          else st).conns = st.conns := by
        by_cases hp : (ConnState.getGroup st).isNone = true
        · rw [if_pos hp, ConnState.setGroupNew_conns]
        · rw [if_neg hp]
      have hgr : (if (ConnState.getGroup st).isNone then st.setGroupNew
          else st).recordUndo = st.recordUndo := by
        by_cases hp : (ConnState.getGroup st).isNone = true
        · rw [if_pos hp, ConnState.setGroupNew_recordUndo]
        · rw [if_neg hp]
      obtain ⟨e1, e2, e3, e4, e5, e6, e7, e8⟩ :=
        disconnectInternal_core _ c ((st.conns pside).sourceBlock)
          ((st.conns iside).sourceBlock) oc (by rw [hgc]; exact hT) st2 hdi
      have hru2 : st2.recordUndo = false := by
        rw [e6, hgr]
        exact hru
      have h32 : st3 = st2 :=
        respawn_noop_of_no_undo f1 κ pside st2 st3 hru2 hrs
      have hc3 : st'.conns = st3.conns := by
        rw [hwrap]
        by_cases hp : (ConnState.getGroup st).isNone = true
        · rw [if_pos hp, ConnState.setGroupOff_conns]
        · rw [if_neg hp]
      rw [hc3, h32, e1]
      rcases hroute with ⟨hs, hp2, hi2⟩ | ⟨hs, hp2, hi2⟩
      · rw [hp2, ConnState.setTarget_conns_same]
      · rw [hp2, ConnState.setTarget_conns_other _ _ _ _
          (fun he => hneq he.symm), ConnState.setTarget_conns_same]
  · intro st a b hInv hab
    exact (hInv.1 a b hab).1

/-- C1 counterexample: disconnecting the linked pair `10 ↔ 11` of
`templatePairState`, whose superior input connection `10` carries a
placeholder template, leaves connection `10` linked again — to the
respawned placeholder's fresh output connection `13` — so the claim's
"after disconnect returns both targetConnection fields are absent" fails
for the superior side. -/
theorem C1_counterexample :
    (templatePairState.conns 10).targetConnection = some 11 ∧
    (templatePairState.conns 11).targetConnection = some 10 ∧
    tgtAfter (disconnect 6 saneChecker 10 templatePairState) 11 =
      some none ∧
    tgtAfter (disconnect 6 saneChecker 10 templatePairState) 10 =
      some (some 13) := by
  decide

/-- C4: severing a linked pair factors through `respawnShadow_` on the
superior side of the pair; when that connection carries a template, its
block's workspace is live and undo recording is on, the template is
materialized (`domToBlock`) and reconnected to the very same connection
through the public `connect` protocol — raising `ProtocolViolation` when
the materialized placeholder exposes neither an output nor a previous
connection — while with no template, or with the gate false, the respawn
is a no-op. -/
theorem C4_shadow_respawn :
    (∀ (f : Nat) (κ : Checker) (c : Nat) (st : ConnState) (dom : ShadowDom),
      (st.conns c).shadowDom = some dom →
      (st.blocks ((st.conns c).sourceBlock)).workspace = true →
      st.recordUndo = true →
      respawnShadow (f + 1) κ c st =
        (if dom.hasOutput then
          connect f κ c (st.fresh + 1) (domToBlock st dom).1
        else if dom.hasPrevious then
          connect f κ c (st.fresh + 2) (domToBlock st dom).1
        else Except.error Err.protocolViolation)) ∧
    (∀ (f : Nat) (κ : Checker) (c : Nat) (st : ConnState),
      (st.conns c).shadowDom = none →
      respawnShadow (f + 1) κ c st = Except.ok st) ∧
    (∀ (f : Nat) (κ : Checker) (c : Nat) (st : ConnState) (dom : ShadowDom),
      (st.conns c).shadowDom = some dom →
      ((st.blocks ((st.conns c).sourceBlock)).workspace && st.recordUndo)
        = false →
      respawnShadow (f + 1) κ c st = Except.ok st) ∧
    (∀ (f : Nat) (κ : Checker) (c oc pside iside : Nat) (st st' : ConnState),
      (st.conns c).targetConnection = some oc →
      (st.conns oc).targetConnection = some c →
      ((isSuperior st c = true ∧ pside = c ∧ iside = oc) ∨
        (isSuperior st c = false ∧ pside = oc ∧ iside = c)) →
      disconnect (f + 1) κ c st = Except.ok st' →
      ∃ st2 st3,
        disconnectInternal
          (if (ConnState.getGroup st).isNone then st.setGroupNew else st) c
          ((st.conns pside).sourceBlock) ((st.conns iside).sourceBlock) =
          Except.ok st2 ∧
        respawnShadow f κ pside st2 = Except.ok st3 ∧
        st' = (if (ConnState.getGroup st).isNone then st3.setGroupOff
          else st3)) := by
  refine ⟨?_, ?_, ?_, ?_⟩
  · intro f κ c st dom hdom hws hru
    simp only [respawnShadow, hdom]
    rw [if_pos (by rw [hws, hru]; rfl)]
    by_cases ho : dom.hasOutput = true
    · simp only [domToBlock_snd, domToBlock_blocks_new, ho, if_true]
    · simp only [Bool.not_eq_true] at ho
      simp only [domToBlock_snd, domToBlock_blocks_new, ho,
        Bool.false_eq_true, if_false]
      by_cases hp : dom.hasPrevious = true
      · simp only [hp, if_true]
      · simp only [Bool.not_eq_true] at hp
        simp only [hp, Bool.false_eq_true, if_false]
  · intro f κ c st hdom
    simp only [respawnShadow, hdom]
  · intro f κ c st dom hdom hgate
    simp only [respawnShadow, hdom]
    rw [if_neg (by rw [hgate]; exact fun hh => Bool.noConfusion hh)]
  · intro f κ c oc pside iside st st' hT hM hroute h
    simp only [disconnect, hT] at h
    rw [if_neg (fun hcond => hcond hM)] at h
    rcases hroute with ⟨hs, hp, hi⟩ | ⟨hs, hp, hi⟩
    · rw [hp, hi]
      rw [if_pos hs] at h
      split at h
      · exact Except.noConfusion h
      next st2 hdi =>
        split at h
        · exact Except.noConfusion h
        next st3 hrs =>
          cases h
          exact ⟨st2, st3, hdi, hrs, rfl⟩
    · rw [hp, hi]
      have hns : ¬(isSuperior st c = true) := by
        rw [hs]
        exact fun hh => Bool.noConfusion hh
      rw [if_neg hns] at h
      split at h
      · exact Except.noConfusion h
      next st2 hdi =>
        split at h
        · exact Except.noConfusion h
        next st3 hrs =>
          cases h
          exact ⟨st2, st3, hdi, hrs, rfl⟩

/-- C5: connect and disconnect never consult and never clear the
`disposed` flag — every old connection's flag survives both operations
unchanged, and a disposed connection is processed like any other (see the
counterexample) — while `dispose` itself is what sets the flag. -/
theorem C5_disposed_flag :
    (∀ (f : Nat) (κ : Checker) (a b : Nat) (st st' : ConnState),
      StInv st → CheckerOk κ → (∀ s2 a2 b2, κ s2 a2 b2 = κ s2 b2 a2) →
      connect f κ a b st = Except.ok st' →
      ∀ x, x < st.fresh → (st'.conns x).disposed = (st.conns x).disposed) ∧
    (∀ (f : Nat) (κ : Checker) (c oc pside iside : Nat) (st st' : ConnState),
      (st.conns c).targetConnection = some oc →
      (st.conns oc).targetConnection = some c →
      ((isSuperior st c = true ∧ pside = c ∧ iside = oc) ∨
        (isSuperior st c = false ∧ pside = oc ∧ iside = c)) →
      isSuperior st pside = true →
      c < st.fresh → oc < st.fresh → c ≠ oc →
      disconnect f κ c st = Except.ok st' →
      ∀ x, x < st.fresh → (st'.conns x).disposed = (st.conns x).disposed) ∧
    (∀ (f : Nat) (κ : Checker) (c : Nat) (st st' : ConnState),
      connDispose f κ c st = Except.ok st' →
      (st'.conns c).disposed = true) := by
  refine ⟨?_, ?_, ?_⟩
  · intro f κ a b st st' hInv hok hsym h x hx
    exact ((connect_statics_spec f κ a b st st' hInv hok hsym h).2.2.1
      x hx).2.2.2
  · intro f κ c oc pside iside st st' hT hM hroute hPsup hcb hocb hneq h x hx
    exact ((disconnect_spec f κ c oc pside iside st st' hT hM hroute hPsup
      hcb hocb hneq h).2.2.2.2.1 x hx).2.2.2.2
  · intro f κ c st st' h
    cases f with
    | zero => simp [connDispose] at h
    | succ f1 =>
      simp only [connDispose] at h
      split at h
      · exact Except.noConfusion h
      next st1 hin =>
        cases h
        rw [ConnState.setDisposed_conns_same]

/-- C5 counterexample: both connections of `disposedPairState` carry a set
`disposed` flag, yet `connect` accepts the pair and links them — the
claimed precondition on disposed-ness does not exist in the code, and the
state is mutated. -/
theorem C5_counterexample :
    (disposedPairState.conns 10).disposed = true ∧
    (disposedPairState.conns 11).disposed = true ∧
    tgtAfter (connect 6 saneChecker 10 11 disposedPairState) 10 =
      some (some 11) ∧
    tgtAfter (connect 6 saneChecker 10 11 disposedPairState) 11 =
      some (some 10) := by
  decide

/-- C6: `setCheck` normalizes a single tag to a one-element array and
stores a list as given, re-validating through `onCheckChanged_` after
both of these mutations, while a falsy argument stores "accept anything"
and returns with no re-validation at all; re-validation is a no-op when
the connection is unlinked or the partner still compatible, and unplugs
the subordinate block of an incompatible pair, severing the link. -/
theorem C6_setCheck_revalidation :
    (∀ (f : Nat) (κ : Checker) (c : Nat) (t : String) (st : ConnState),
      setCheck (f + 1) κ c (CheckArg.single t) st =
        onCheckChanged f κ c (st.setCheckField c (some [t]))) ∧
    (∀ (f : Nat) (κ : Checker) (c : Nat) (ts : List String) (st : ConnState),
      setCheck (f + 1) κ c (CheckArg.list ts) st =
        onCheckChanged f κ c (st.setCheckField c (some ts))) ∧
    (∀ (f : Nat) (κ : Checker) (c : Nat) (st : ConnState),
      setCheck (f + 1) κ c CheckArg.noneArg st =
        Except.ok (st.setCheckField c none)) ∧
    (∀ (f : Nat) (κ : Checker) (c : Nat) (st : ConnState),
      (st.conns c).targetConnection = none →
      onCheckChanged (f + 1) κ c st = Except.ok st) ∧
    (∀ (f : Nat) (κ : Checker) (c tc : Nat) (st : ConnState),
      (st.conns c).targetConnection = some tc → κ st c tc = true →
      onCheckChanged (f + 1) κ c st = Except.ok st) ∧
    (∀ (f : Nat) (κ : Checker) (c tc iside : Nat) (st st' : ConnState),
      StInv st →
      (st.conns c).targetConnection = some tc →
      κ st c tc = false →
      ((isSuperior st c = true ∧ iside = tc) ∨
        (isSuperior st c = false ∧ iside = c)) →
      onCheckChanged (f + 1) κ c st = Except.ok st' →
      (st'.conns iside).targetConnection = none) := by
  refine ⟨?_, ?_, ?_, ?_, ?_, ?_⟩
  · intro f κ c t st
    simp only [setCheck]
  · intro f κ c ts st
    simp only [setCheck]
  · intro f κ c st
    simp only [setCheck]
  · intro f κ c st hT
    simp only [onCheckChanged, hT]
  · intro f κ c tc st hT hk
    simp only [onCheckChanged, hT]
    rw [if_neg (fun hcond => hcond hk)]
  · intro f κ c tc iside st st' hInv hT hk hroute h
    simp only [onCheckChanged, hT] at h
    rw [if_pos (fun hh => by rw [hk] at hh; exact Bool.noConfusion hh)] at h
    have hlp := hInv.1 c tc hT
    rcases hroute with ⟨hs, hi⟩ | ⟨hs, hi⟩
    · rw [hi]
      rw [if_pos hs] at h
      have htcsub : isSuperior st tc = false := by
        have hso := superior_opposite st c tc hlp.2.1
        rw [hs] at hso
        cases hv : isSuperior st tc with
        | false => rfl
        | true => rw [hv] at hso; simp at hso
      cases f with
      | zero => simp [unplug] at h
      | succ f2 =>
        exact (unplug_severs f2 κ tc c st st' hInv hlp.1 htcsub h).1
    · rw [hi]
      have hns : ¬(isSuperior st c = true) := by
        rw [hs]
        exact fun hh => Bool.noConfusion hh
      rw [if_neg hns] at h
      cases f with
      | zero => simp [unplug] at h
      | succ f2 =>
        exact (unplug_severs f2 κ c tc st st' hInv hT hs h).1

/-- C6 counterexample: on `taggedPairState`, with a checker that rejects
every pair, the falsy `setCheck` argument mutates the stored tags (to
"accept anything") yet leaves the incompatible link `10 ↔ 11` in place —
no re-validation runs on that path — whereas the list argument does
re-validate and unplugs the pair. -/
theorem C6_counterexample :
    checkAfter (setCheck 6 rejectAll 10 CheckArg.noneArg taggedPairState)
      10 = some none ∧
    tgtAfter (setCheck 6 rejectAll 10 CheckArg.noneArg taggedPairState)
      10 = some (some 11) ∧
    rejectAll (okOf (setCheck 6 rejectAll 10 CheckArg.noneArg
      taggedPairState)) 10 11 = false ∧
    tgtAfter (setCheck 6 rejectAll 10 (CheckArg.list ["Text"])
      taggedPairState) 10 = some none := by
  decide

/-- C7: when `connect` displaces a placeholder occupant — the superior
side `s` of the accepted pair is occupied through `oc` by a shadow block
— the placeholder's serialized content (`blockToDom`) is captured as the
superior connection's stored template, the placeholder block is destroyed
outright (off the workspace and parentless), its connection ends
unlinked, no bump is ever scheduled, and the new pair ends reciprocally
linked. -/
theorem C7_placeholder_displacement (f : Nat) (κ : Checker)
    (a b s i oc : Nat) (st st' : ConnState)
    (hInv : StInv st) (hok : CheckerOk κ) (hk : κ st a b = true)
    (hroute : (isSuperior st a = true ∧ s = a ∧ i = b) ∨
      (isSuperior st a = false ∧ s = b ∧ i = a))
    (hsT : (st.conns s).targetConnection = some oc)
    (hsh : (st.blocks ((st.conns oc).sourceBlock)).isShadow = true)
    (hineq : i ≠ oc)
    (h : connect f κ a b st = Except.ok st') :
    (st'.conns s).shadowDom =
      some (blockToDom st ((st.conns oc).sourceBlock)) ∧
    st'.blocks ((st.conns oc).sourceBlock) =
      { st.blocks ((st.conns oc).sourceBlock) with
          parent := none, workspace := false } ∧
    (st'.conns oc).targetConnection = none ∧
    st'.pendingBumps = st.pendingBumps ∧
    (st'.conns s).targetConnection = some i ∧
    (st'.conns i).targetConnection = some s := by
  obtain ⟨k1, k2, k3, k4, k5, k6, k7, k8, k9, k10, k11, k12, k13, k14, k15,
    k16⟩ := connect_shadow_spec f κ a b s i oc st st' hInv hok hk hroute
      hsT hsh hineq h
  exact ⟨k3, k5, k4, k13, k1, k2⟩

/-- C7 witness: connecting the free output `12` into the occupied input
`10` of `shadowOccupantState` displaces the shadow occupant: its content
is captured as `10`'s template, block `1` is destroyed, connection `11`
unlinked, no bump scheduled, and `10 ↔ 12` linked. -/
theorem C7_witness :
    ((okOf (connect 8 saneChecker 10 12 shadowOccupantState)).conns
        10).shadowDom =
      some (blockToDom shadowOccupantState
        ((shadowOccupantState.conns 11).sourceBlock)) ∧
    (okOf (connect 8 saneChecker 10 12 shadowOccupantState)).blocks
        ((shadowOccupantState.conns 11).sourceBlock) =
      { shadowOccupantState.blocks
          ((shadowOccupantState.conns 11).sourceBlock) with
          parent := none, workspace := false } ∧
    ((okOf (connect 8 saneChecker 10 12 shadowOccupantState)).conns
        11).targetConnection = none ∧
    (okOf (connect 8 saneChecker 10 12 shadowOccupantState)).pendingBumps =
      shadowOccupantState.pendingBumps ∧
    ((okOf (connect 8 saneChecker 10 12 shadowOccupantState)).conns
        10).targetConnection = some 12 ∧
    ((okOf (connect 8 saneChecker 10 12 shadowOccupantState)).conns
        12).targetConnection = some 10 :=
  C7_placeholder_displacement 8 saneChecker 10 12 10 12 11
    shadowOccupantState _
    (StInv_of_checks shadowOccupantState [10, 11, 12] [0, 1, 2]
      (fun x hx => connsOf_not_mem _ x (by simpa using hx))
      (fun x hx => blocksOf_not_mem _ x (by simpa using hx))
      (by decide) (by decide) (by decide) (by decide))
    saneChecker_ok (by decide) (Or.inl ⟨by decide, rfl, rfl⟩)
    (by decide) (by decide) (by decide)
    (ok_okOf _ (by decide))

/-- C9: under the state invariant, a sequence of `connect` calls that
returns normally preserves the invariant, so the link relation stays
reciprocal (symmetric) throughout; acyclicity, however, is not preserved
— the counterexample makes a block its own ancestor with two
checker-accepted connects. -/
theorem C9_sequence_reciprocity (fuel : Nat) (κ : Checker)
    (ops : List (Nat × Nat)) (st st' : ConnState)
    (hInv : StInv st) (hok : CheckerOk κ)
    (hsym : ∀ s2 a2 b2, κ s2 a2 b2 = κ s2 b2 a2)
    (h : runConnects fuel κ ops st = Except.ok st') :
    StInv st' ∧
    ∀ a b, (st'.conns a).targetConnection = some b →
      (st'.conns b).targetConnection = some a := by
  have hI := runConnects_StInv fuel κ ops st st' hInv hok hsym h
  exact ⟨hI, fun a b hab => (hI.1 a b hab).1⟩

/-- C9 witness: the two-connect sequence on `twoValueBlocksState` returns
normally and the resulting state still satisfies the invariant and link
reciprocity. -/
theorem C9_witness :
    StInv (okOf (runConnects 6 saneChecker [(10, 13), (12, 11)]
      twoValueBlocksState)) ∧
    ∀ a b, ((okOf (runConnects 6 saneChecker [(10, 13), (12, 11)]
        twoValueBlocksState)).conns a).targetConnection = some b →
      ((okOf (runConnects 6 saneChecker [(10, 13), (12, 11)]
        twoValueBlocksState)).conns b).targetConnection = some a :=
  C9_sequence_reciprocity 6 saneChecker [(10, 13), (12, 11)]
    twoValueBlocksState _
    (StInv_of_checks twoValueBlocksState [10, 11, 12, 13] [0, 1]
      (fun x hx => connsOf_not_mem _ x (by simpa using hx))
      (fun x hx => blocksOf_not_mem _ x (by simpa using hx))
      (by decide) (by decide) (by decide) (by decide))
    saneChecker_ok saneChecker_symm (ok_okOf _ (by decide))

/-- C9 counterexample: starting from the forest `twoValueBlocksState`
(both blocks parentless), the two checker-accepted connects
`(10, 13)` then `(12, 11)` make block `0` the parent of block `1` and
block `1` the parent of block `0`: following parent links from block `0`
returns to block `0`, so a block becomes its own descendant and the walk
never terminates. -/
theorem C9_counterexample :
    (twoValueBlocksState.blocks 0).parent = none ∧
    (twoValueBlocksState.blocks 1).parent = none ∧
    ancestorAfter (runConnects 6 saneChecker [(10, 13), (12, 11)]
      twoValueBlocksState) 1 0 = some (some 1) ∧
    ancestorAfter (runConnects 6 saneChecker [(10, 13), (12, 11)]
      twoValueBlocksState) 2 0 = some (some 0) := by
  decide

/-- C10: `dispose` on a linked superior connection first clears the
stored template for good — the severing that follows finds no template on
the connection, so no shadow respawn fires and the template accessor
yields `none` — severs the link on both sides, destroying an attached
placeholder child outright (off the workspace and parentless) and
unplugging an ordinary one, and then sets the `disposed` flag. -/
theorem C10_dispose_superior (f : Nat) (κ : Checker) (c tc : Nat)
    (st st' : ConnState)
    (hInv : StInv st)
    (hT : (st.conns c).targetConnection = some tc)
    (hsup : isSuperior st c = true)
    (h : connDispose f κ c st = Except.ok st') :
    (st'.conns c).shadowDom = none ∧
    (st'.conns c).targetConnection = none ∧
    (st'.conns tc).targetConnection = none ∧
    (st'.conns c).disposed = true ∧
    ((st.blocks ((st.conns tc).sourceBlock)).isShadow = true →
      st'.blocks ((st.conns tc).sourceBlock) =
        { st.blocks ((st.conns tc).sourceBlock) with
            parent := none, workspace := false }) := by
  have hlp := hInv.1 c tc hT
  have hM : (st.conns tc).targetConnection = some c := hlp.1
  have htcsub : isSuperior st tc = false := by
    have hso := superior_opposite st c tc hlp.2.1
    rw [hsup] at hso
    cases hv : isSuperior st tc with
    | false => rfl
    | true => rw [hv] at hso; simp at hso
  have hcb : c < st.fresh := hlp.2.2.2.2.1
  have htcb : tc < st.fresh := hlp.2.2.2.2.2.1
  have hobb : (st.conns tc).sourceBlock < st.fresh :=
    hlp.2.2.2.2.2.2.2.1
  have hctc : c ≠ tc := fun he => oppositeTy_ne hlp.2.1 (by rw [he])
  cases f with
  | zero => simp [connDispose] at h
  | succ f1 =>
    simp only [connDispose] at h
    have hic : isConnected st c = true := by simp [isConnected, hT]
    simp only [hic, if_true] at h
    have htb : targetBlockOf (st.setShadowDom c none) c =
        some ((st.conns tc).sourceBlock) := by
      simp [targetBlockOf, hT]
    simp only [htb] at h
    have hInv0 : StInv (st.setShadowDom c none) :=
      StInv_setShadowDom st c none (fun d hd => Option.noConfusion hd) hInv
    have hT0 : ((st.setShadowDom c none).conns tc).targetConnection =
        some c := by
      rw [setShadowDom_tgt]
      exact hM
    have hM0 : ((st.setShadowDom c none).conns c).targetConnection =
        some tc := by
      rw [setShadowDom_tgt]
      exact hT
    have hsub0 : isSuperior (st.setShadowDom c none) tc = false := by
      have he : isSuperior (st.setShadowDom c none) tc =
          isSuperior st tc := by
        unfold isSuperior
        rw [setShadowDom_type]
      rw [he]
      exact htcsub
    have hsup0 : isSuperior (st.setShadowDom c none) c = true := by
      have he : isSuperior (st.setShadowDom c none) c =
          isSuperior st c := by
        unfold isSuperior
        rw [setShadowDom_type]
      rw [he]
      exact hsup
    have hdom0 : ((st.setShadowDom c none).conns c).shadowDom = none := by
      rw [ConnState.setShadowDom_conns_same]
    have hcb0 : c < (st.setShadowDom c none).fresh := by
      rw [ConnState.setShadowDom_fresh]
      exact hcb
    have hioc : infOwnOk st tc := hlp.2.2.2.1
    have hfield : ((st.setShadowDom c none).blocks
        ((st.conns tc).sourceBlock)).outputConnection = some tc ∨
        (((st.setShadowDom c none).blocks
          ((st.conns tc).sourceBlock)).outputConnection = none ∧
         ((st.setShadowDom c none).blocks
          ((st.conns tc).sourceBlock)).previousConnection = some tc) := by
      rw [ConnState.setShadowDom_blocks]
      rcases inferior_type st tc htcsub with hty | hty
      · exact Or.inl (hioc.1 hty)
      · have hprev := hioc.2 hty
        refine Or.inr ⟨?_, hprev⟩
        have hbw := hInv.2.1 ((st.conns tc).sourceBlock)
        rcases ho : (st.blocks
            ((st.conns tc).sourceBlock)).outputConnection with _ | o
        · rfl
        · exact absurd ⟨by rw [ho]; rfl, by rw [hprev]; rfl⟩ hbw
    by_cases hsh : (st.blocks ((st.conns tc).sourceBlock)).isShadow = true
    · have hsh0 : ((st.setShadowDom c none).blocks
          ((st.conns tc).sourceBlock)).isShadow = true := by
        rw [ConnState.setShadowDom_blocks]
        exact hsh
      simp only [hsh0, if_true] at h
      split at h
      · exact Except.noConfusion h
      next st1 hbd =>
        cases h
        obtain ⟨b1, b2, b3, b4, b5, b6, b7, b8, b9, b10, b11⟩ :=
          blockDispose_linked_spec f1 κ ((st.conns tc).sourceBlock) tc c
            (st.setShadowDom c none) st1 hfield hT0 hM0 hsub0 hsup0
            (by rw [ConnState.setShadowDom_fresh]; exact htcb)
            hcb0 (fun he => hctc he.symm)
            (by rw [setShadowDom_src])
            (by rw [ConnState.setShadowDom_fresh]; exact hobb)
            hdom0 hbd
        rw [ConnState.setShadowDom_blocks] at b6
        refine ⟨?_, ?_, ?_, ?_, ?_⟩
        · rw [ConnState.setDisposed_conns_same]
          show (st1.conns c).shadowDom = none
          rw [(b4 c hcb0).1]
          exact hdom0
        · rw [ConnState.setDisposed_conns_same]
          show (st1.conns c).targetConnection = none
          exact b2
        · rw [ConnState.setDisposed_conns_other _ _ _
            (fun he => hctc he.symm)]
          exact b1
        · rw [ConnState.setDisposed_conns_same]
        · intro _
          rw [ConnState.setDisposed_blocks]
          exact b6
    · simp only [Bool.not_eq_true] at hsh
      have hsh0 : ((st.setShadowDom c none).blocks
          ((st.conns tc).sourceBlock)).isShadow = false := by
        rw [ConnState.setShadowDom_blocks]
        exact hsh
      simp only [hsh0, Bool.false_eq_true, if_false] at h
      split at h
      · exact Except.noConfusion h
      next st1 hu =>
        cases h
        cases f1 with
        | zero => simp [unplug] at hu
        | succ f2 =>
          have hu' : unplug (f2 + 1) κ
              (((st.setShadowDom c none).conns tc).sourceBlock)
              (st.setShadowDom c none) = Except.ok st1 := by
            rw [setShadowDom_src]
            exact hu
          obtain ⟨u1, u2, u3, u4, u5⟩ :=
            unplug_severs f2 κ tc c (st.setShadowDom c none) st1 hInv0 hT0
              hsub0 hu'
          refine ⟨?_, ?_, ?_, ?_, ?_⟩
          · rw [ConnState.setDisposed_conns_same]
            show (st1.conns c).shadowDom = none
            rw [(u4 c hcb0).1]
            exact hdom0
          · rw [ConnState.setDisposed_conns_same]
            show (st1.conns c).targetConnection = none
            exact u2 hdom0
          · rw [ConnState.setDisposed_conns_other _ _ _
              (fun he => hctc he.symm)]
            exact u1
          · rw [ConnState.setDisposed_conns_same]
          · intro hp
            rw [hsh] at hp
            exact Bool.noConfusion hp

/-- C10 witness: disposing the linked superior input `10` of
`shadowChildPairState` (its child block `1` is a placeholder) clears the
template, severs both sides of the link, destroys the placeholder child
and sets the flag. -/
theorem C10_witness :
    ((okOf (connDispose 8 saneChecker 10 shadowChildPairState)).conns
        10).shadowDom = none ∧
    ((okOf (connDispose 8 saneChecker 10 shadowChildPairState)).conns
        10).targetConnection = none ∧
    ((okOf (connDispose 8 saneChecker 10 shadowChildPairState)).conns
        11).targetConnection = none ∧
    ((okOf (connDispose 8 saneChecker 10 shadowChildPairState)).conns
        10).disposed = true ∧
    ((shadowChildPairState.blocks
        ((shadowChildPairState.conns 11).sourceBlock)).isShadow = true →
      (okOf (connDispose 8 saneChecker 10 shadowChildPairState)).blocks
          ((shadowChildPairState.conns 11).sourceBlock) =
        { shadowChildPairState.blocks
            ((shadowChildPairState.conns 11).sourceBlock) with
            parent := none, workspace := false }) :=
  C10_dispose_superior 8 saneChecker 10 11 shadowChildPairState _
    (StInv_of_checks shadowChildPairState [10, 11] [0, 1]
      (fun x hx => connsOf_not_mem _ x (by simpa using hx))
      (fun x hx => blocksOf_not_mem _ x (by simpa using hx))
      (by decide) (by decide) (by decide) (by decide))
    (by decide) (by decide) (ok_okOf _ (by decide))

/-- C10 counterexample: `dispose` on the INFERIOR side `11` of the same
linked pair does not sever the link at all — the code unplugs the
targeted block, which on this side is the parent block `0`, a block with
no superior of its own — so connection `11` ends with its `disposed` flag
set while both `targetConnection` fields still point at each other,
refuting "severs the link ... before setting the disposed flag". -/
theorem C10_counterexample :
    tgtAfter (connDispose 8 saneChecker 11 ordinaryPairState) 11 =
      some (some 10) ∧
    tgtAfter (connDispose 8 saneChecker 11 ordinaryPairState) 10 =
      some (some 11) ∧
    dispAfter (connDispose 8 saneChecker 11 ordinaryPairState) 11 =
      some true := by
  decide

/-- C3: re-homing a displaced value orphan. `singleConnection_` only ever
returns a type-compatible, checker-accepted input; the
`lastConnectionInRow` walk returns such an input that is moreover vacant
or occupied by a placeholder (it stops at the first placeholder); with an
occupied superior `INPUT_VALUE` connection whose ordinary occupant lacks
an output connection, `connect_` raises `ProtocolViolation`; when the
walk finds a slot, the orphan's output is re-linked there through the
public `connect` protocol and the template is restored; and when it finds
none, the orphan is disconnected — ending parentless and unlinked while
the new pair is attached — and a bump is scheduled exactly when undo
recording is on. -/
theorem C3_orphan_rehoming :
    (∀ (κ : Checker) (st : ConnState) (block orphanBlock connection out : Nat),
      (st.blocks orphanBlock).outputConnection = some out →
      singleConnection_ κ st block orphanBlock = some connection →
      (st.conns connection).type = ConnType.inputValue ∧
      κ st out connection = true) ∧
    (∀ (κ : Checker) (fuel : Nat) (st : ConnState)
      (startBlock orphanBlock connection out : Nat),
      (st.blocks orphanBlock).outputConnection = some out →
      lastConnectionInRow κ fuel st startBlock orphanBlock =
        some connection →
      (st.conns connection).type = ConnType.inputValue ∧
      κ st out connection = true ∧
      ((st.conns connection).targetConnection = none ∨
        ∃ tc, (st.conns connection).targetConnection = some tc ∧
          (st.blocks ((st.conns tc).sourceBlock)).isShadow = true)) ∧
    (∀ (f : Nat) (κ : Checker) (p c oc : Nat) (st : ConnState),
      (st.conns c).targetConnection = none →
      (st.conns p).targetConnection = some oc →
      (st.blocks ((st.conns oc).sourceBlock)).isShadow = false →
      (st.conns p).type = ConnType.inputValue →
      (st.blocks ((st.conns oc).sourceBlock)).outputConnection = none →
      connect_ (f + 1) κ p c st = Except.error Err.protocolViolation) ∧
    (∀ (f : Nat) (κ : Checker) (p c oc out connection : Nat)
      (st : ConnState),
      (st.conns c).targetConnection = none →
      (st.conns p).targetConnection = some oc →
      (st.blocks ((st.conns oc).sourceBlock)).isShadow = false →
      (st.conns p).type = ConnType.inputValue →
      (st.blocks ((st.conns oc).sourceBlock)).outputConnection = some out →
      lastConnectionInRow κ f (st.setShadowDom p none)
        ((st.conns c).sourceBlock) ((st.conns oc).sourceBlock) =
        some connection →
      connect_ (f + 1) κ p c st =
        (match connect f κ out connection (st.setShadowDom p none) with
         | Except.error e => Except.error e
         | Except.ok stB =>
           connectFinish (stB.setShadowDom p ((st.conns p).shadowDom)) p c
             ((st.conns c).sourceBlock) ((st.conns p).sourceBlock))) ∧
    (∀ (f : Nat) (κ : Checker) (p c oc : Nat) (st st' : ConnState),
      StInv st →
      (st.conns c).targetConnection = none →
      (st.conns p).targetConnection = some oc →
      (st.blocks ((st.conns oc).sourceBlock)).isShadow = false →
      (st.conns p).type = ConnType.inputValue →
      lastConnectionInRow κ f (st.setShadowDom p none)
        ((st.conns c).sourceBlock) ((st.conns oc).sourceBlock) = none →
      (st.conns c).sourceBlock ≠ (st.conns oc).sourceBlock →
      connect_ (f + 1) κ p c st = Except.ok st' →
      (st'.conns oc).targetConnection = none ∧
      (st'.blocks ((st.conns oc).sourceBlock)).parent = none ∧
      (st'.conns p).targetConnection = some c ∧
      (st'.conns c).targetConnection = some p ∧
      (st.recordUndo = true →
        ∃ g, st'.pendingBumps = st.pendingBumps ++
          [⟨(st.conns oc).sourceBlock, p, g⟩]) ∧
      (st.recordUndo = false →
        st'.pendingBumps = st.pendingBumps)) := by
  refine ⟨?_, ?_, ?_, ?_, ?_⟩
  · intro κ st block orphanBlock connection out hout h
    exact singleConnection_post κ st block orphanBlock connection out hout h
  · intro κ fuel st startBlock orphanBlock connection out hout h
    exact lastConnectionInRow_post κ fuel st startBlock orphanBlock
      connection out hout h
  · intro f κ p c oc st hc0 hpT hsh hty hno
    have hic : isConnected st c = false := by simp [isConnected, hc0]
    simp only [connect_, hic, Bool.false_eq_true, if_false, hpT,
      ConnState.setShadowDom_blocks, hsh, setShadowDom_type, hty, hno,
      if_true]
  · intro f κ p c oc out connection st hc0 hpT hsh hty hout hrow
    have hic : isConnected st c = false := by simp [isConnected, hc0]
    simp only [connect_, hic, Bool.false_eq_true, if_false, hpT,
      ConnState.setShadowDom_blocks, hsh, setShadowDom_type, hty, hout,
      if_true, hrow]
    cases hx : connect f κ out connection (st.setShadowDom p none) with
    | error e => simp only [hx]
    | ok stB =>
      simp only [hx, connectFinish, connectReciprocally]
  · intro f κ p c oc st st' hInv hc0 hpT hsh hty hrow hobne h
    have hlp := hInv.1 p oc hpT
    have hocM : (st.conns oc).targetConnection = some p := hlp.1
    have hpb : p < st.fresh := hlp.2.2.2.2.1
    have hocb : oc < st.fresh := hlp.2.2.2.2.2.1
    have hobb : (st.conns oc).sourceBlock < st.fresh :=
      hlp.2.2.2.2.2.2.2.1
    have hpoc : p ≠ oc := fun he => oppositeTy_ne hlp.2.1 (by rw [he])
    have hpc : p ≠ c := by
      intro he
      rw [← he, hpT] at hc0
      exact Option.noConfusion hc0
    have hcoc : c ≠ oc := by
      intro he
      rw [he, hocM] at hc0
      exact Option.noConfusion hc0
    have hpsup : isSuperior st p = true := by
      simp [isSuperior, hty]
    have hsupA : isSuperior (st.setShadowDom p none) p = true := by
      have he : isSuperior (st.setShadowDom p none) p = isSuperior st p := by
        unfold isSuperior
        rw [setShadowDom_type]
      rw [he]
      exact hpsup
    have hic : isConnected st c = false := by simp [isConnected, hc0]
    simp only [connect_, hic, Bool.false_eq_true, if_false, hpT,
      ConnState.setShadowDom_blocks, hsh, setShadowDom_type, hty,
      if_true] at h
    split at h
    · exact Except.noConfusion h
    next st2 hst2 =>
      split at hst2
      · exact Except.noConfusion hst2
      next out hout =>
        simp only [hrow] at hst2
        split at hst2
        · exact Except.noConfusion hst2
        next stC hdc =>
          cases hst2
          obtain ⟨dd1, dd2, dd3, dd4, dd5, dd6, dd7, dd8, dd9, dd10, dd11,
            dd12⟩ :=
            disconnect_spec f κ p oc p oc (st.setShadowDom p none) stC
              (by rw [setShadowDom_tgt]; exact hpT)
              (by rw [setShadowDom_tgt]; exact hocM)
              (Or.inl ⟨hsupA, rfl, rfl⟩) hsupA
              (by rw [ConnState.setShadowDom_fresh]; exact hpb)
              (by rw [ConnState.setShadowDom_fresh]; exact hocb)
              hpoc hdc
          obtain ⟨bf1, bf2, bf3, bf4, bf5⟩ := bumpIf_facts stC
            (⟨(st.conns oc).sourceBlock, p, stC.eventGroup⟩ : BumpTask)
          obtain ⟨t1, t2, t3, t4, t5, t6, t7, t8, t9, t10⟩ :=
            connect_tail_spec _ p c ((st.conns c).sourceBlock)
              ((st.conns p).sourceBlock) st' hpc h
          have hdomA : ((st.setShadowDom p none).conns p).shadowDom =
              none := by
            rw [ConnState.setShadowDom_conns_same]
          refine ⟨?_, ?_, ?_, ?_, ?_, ?_⟩
          · rw [t3 oc (fun he => hpoc he.symm) (fun he => hcoc he.symm)]
            rw [ConnState.setShadowDom_conns_other _ _ _ _
              (fun he => hpoc he.symm)]
            have := dd1
            rw [← bf1] at this
            exact this
          · rw [t4 ((st.conns oc).sourceBlock) (fun he => hobne he.symm)]
            rw [ConnState.setShadowDom_blocks]
            have hb7 : stC.blocks
                (((st.setShadowDom p none).conns oc).sourceBlock) =
                { (st.setShadowDom p none).blocks
                    (((st.setShadowDom p none).conns oc).sourceBlock) with
                    parent := none } := by
              refine dd7 ?_
              rw [setShadowDom_src, ConnState.setShadowDom_fresh]
              exact hobb
            rw [setShadowDom_src, ConnState.setShadowDom_blocks] at hb7
            have hbD := congrArg (fun bl => bl ((st.conns oc).sourceBlock))
              bf2
            simp only at hbD
            rw [hbD, hb7]
          · rw [t1]
          · rw [t2]
          · intro hru
            refine ⟨stC.eventGroup, ?_⟩
            rw [t7, ConnState.setShadowDom_pendingBumps]
            have hCru : stC.recordUndo = true := by
              rw [dd11, ConnState.setShadowDom_recordUndo]
              exact hru
            rw [if_pos hCru]
            rw [dd9, ConnState.setShadowDom_pendingBumps]
          · intro hru
            rw [t7, ConnState.setShadowDom_pendingBumps]
            have hCru : stC.recordUndo = false := by
              rw [dd11, ConnState.setShadowDom_recordUndo]
              exact hru
            rw [if_neg (by rw [hCru]; exact fun hh => Bool.noConfusion hh)]
            rw [dd9, ConnState.setShadowDom_pendingBumps]
